import Mathlib

/-!
Verification of the darklua AST / rule / visitor core.

The Lua AST, the node-processor interface and the read-only walker are
translated from `src/process/visitors.rs`, `src/process/node_processor.rs`,
`src/nodes/block.rs` and `src/nodes/statements/local_assign.rs`.  Node kinds
whose Rust definitions are not part of the extracted sources (the statement
and expression enums, the markup nodes) are reconstructed from the shape the
walker requires together with the data-model table of the specification
(§3.1); such definitions carry a `Modelled from the spec:` note.
-/

set_option maxHeartbeats 4000000
set_option maxRecDepth 8192

namespace Darklua

/-- Modelled from the spec: a trivia token (comments and whitespace attached
to a structural position, §3.1).  The concrete Rust `Token` type is not among
the extracted sources; only its presence matters here. -/
inductive Token where
  | mk (comments : List String) (whitespaces : List String)

/-- Modelled from the spec: the rich identifier variant (identifier as an
object wrapping a name with an optional trivia token, §9). -/
inductive Identifier where
  | mk (name : String) (token : Option Token)

/-- Trivia bundle of a `LocalAssignStatement`
(`src/nodes/statements/local_assign.rs`, `LocalAssignTokens`). -/
inductive LocalAssignTokens where
  | mk (localKeyword : Token) (equal : Option Token)
      (variableCommas : List Token) (valueCommas : List Token)

/-- Modelled from the spec: a number literal expression; the payload is kept
as its textual representation, the walker never inspects it. -/
inductive NumberExpression where
  | mk (value : String)

/-- Modelled from the spec: a string literal expression. -/
inductive StringExpression where
  | mk (value : String)

/-- `StringExpression::empty()` as used by `src/rules/call_parens.rs`. -/
def StringExpression.empty : StringExpression := .mk ""

mutual

/-- `Block` from `src/nodes/block.rs`: an ordered sequence of statements plus
an optional terminal statement. -/
inductive Block where
  | mk (statements : List Statement) (lastStatement : Option LastStatement)

/-- Modelled from the spec: the `Statement` enum (§3.1), with exactly the
variants dispatched on by `NodeVisitor::visit_statement`. -/
inductive Statement where
  | assign (s : AssignStatement)
  | doStmt (s : DoStatement)
  | call (c : FunctionCall)
  | functionStmt (s : FunctionStatement)
  | genericFor (s : GenericForStatement)
  | ifStmt (s : IfStatement)
  | localAssign (s : LocalAssignStatement)
  | localFunction (s : LocalFunctionStatement)
  | numericFor (s : NumericForStatement)
  | repeatStmt (s : RepeatStatement)
  | whileStmt (s : WhileStatement)

/-- Modelled from the spec: `LastStatement` is `Break` or `Return(list of
expressions)` (§3.1); only `Return` has sub-expressions (`visit_block`). -/
inductive LastStatement where
  | breakStmt
  | returnStmt (expressions : List Expression)

/-- Modelled from the spec: an assignment statement with at least one
variable and at least one value (§3.1); the walker visits vars as
l-values and then the values (`visit_assign_statement`). -/
inductive AssignStatement where
  | mk (vars : List Variable) (values : List Expression)

/-- Modelled from the spec: a `do ... end` statement owning a block. -/
inductive DoStatement where
  | mk (block : Block)

/-- Modelled from the spec: a named function definition; the walker hooks
the name identifier (`mutate_function_name().mutate_identifier()` is a
`String`) and recurses into the body block. -/
inductive FunctionStatement where
  | mk (name : String) (parameters : List String) (block : Block)

/-- Modelled from the spec: a generic `for` statement; loop identifiers are
bare strings and are not visited (`visit_generic_for`). -/
inductive GenericForStatement where
  | mk (identifiers : List String) (expressions : List Expression) (block : Block)

/-- Modelled from the spec: an `if` statement with a list of
condition/block branches plus an optional else block (§3.1). -/
inductive IfStatement where
  | mk (branches : List IfBranch) (elseBlock : Option Block)

/-- Modelled from the spec: one `(condition, block)` branch of an `if`. -/
inductive IfBranch where
  | mk (condition : Expression) (block : Block)

/-- `LocalAssignStatement` from `src/nodes/statements/local_assign.rs`:
identifier objects, value expressions and an optional trivia bundle. -/
inductive LocalAssignStatement where
  | mk (vars : List Identifier) (values : List Expression)
      (tokens : Option LocalAssignTokens)

/-- Modelled from the spec: a local function statement; its declared name is
not visited (`visit_local_function` only recurses into the block). -/
inductive LocalFunctionStatement where
  | mk (name : String) (parameters : List String) (block : Block)

/-- Modelled from the spec: a numeric `for` with start, end, optional step
and a body block (§3.1); the loop variable is a bare string. -/
inductive NumericForStatement where
  | mk (identifier : String) (startExpr : Expression) (endExpr : Expression)
      (stepExpr : Option Expression) (block : Block)

/-- Modelled from the spec: a `repeat ... until condition` statement. -/
inductive RepeatStatement where
  | mk (block : Block) (condition : Expression)

/-- Modelled from the spec: a `while condition do ... end` statement. -/
inductive WhileStatement where
  | mk (block : Block) (condition : Expression)

/-- Modelled from the spec: the `Expression` enum (§3.1), with exactly the
variants dispatched on by `NodeVisitor::visit_expression`. -/
inductive Expression where
  | nilExpr
  | trueExpr
  | falseExpr
  | variableArguments
  | number (n : NumberExpression)
  | stringExpr (s : StringExpression)
  | identifier (name : String)
  | binary (b : BinaryExpression)
  | unary (u : UnaryExpression)
  | parenthese (expression : Expression)
  | functionExpr (f : FunctionExpression)
  | call (c : FunctionCall)
  | field (f : FieldExpression)
  | index (i : IndexExpression)
  | table (t : TableExpression)
  | lux (l : LUXExpression)

/-- Modelled from the spec: a binary operation; the operator tag is kept
abstract as a string, the walker never inspects it. -/
inductive BinaryExpression where
  | mk (op : String) (left : Expression) (right : Expression)

/-- Modelled from the spec: a unary operation. -/
inductive UnaryExpression where
  | mk (op : String) (expression : Expression)

/-- Modelled from the spec: an anonymous function expression owning a body
block. -/
inductive FunctionExpression where
  | mk (parameters : List String) (isVariadic : Bool) (block : Block)

/-- Modelled from the spec: a function call (prefix, arguments, optional
method name for `obj:m(...)` calls). -/
inductive FunctionCall where
  | mk (callPrefix : Prefix) (arguments : Arguments) (method : Option String)

/-- Modelled from the spec: call arguments — `Tuple(list of expressions)`,
`String` or `Table` (§3.1). -/
inductive Arguments where
  | tuple (expressions : List Expression)
  | string (s : StringExpression)
  | table (t : TableExpression)

/-- Modelled from the spec: a field access `prefix.field`. -/
inductive FieldExpression where
  | mk (fieldPrefix : Prefix) (field : String)

/-- Modelled from the spec: an index access `prefix[index]`. -/
inductive IndexExpression where
  | mk (indexPrefix : Prefix) (index : Expression)

/-- Modelled from the spec: a table constructor expression. -/
inductive TableExpression where
  | mk (entries : List TableEntry)

/-- Modelled from the spec: a table entry — `Field(name, value)`,
`Index(key, value)` or `Value(value)` (§3.1). -/
inductive TableEntry where
  | fieldEntry (name : String) (value : Expression)
  | indexEntry (key : Expression) (value : Expression)
  | valueEntry (value : Expression)

/-- Modelled from the spec: a prefix expression (§3.1). -/
inductive Prefix where
  | identifier (name : String)
  | call (c : FunctionCall)
  | field (f : FieldExpression)
  | index (i : IndexExpression)
  | parenthese (e : Expression)

/-- Modelled from the spec: an assignment left-hand side (§3.1). -/
inductive Variable where
  | identifier (name : String)
  | field (f : FieldExpression)
  | index (i : IndexExpression)

/-- Modelled from the spec: a markup expression — element or fragment. -/
inductive LUXExpression where
  | luxElement (e : LUXElement)
  | luxFragment (f : LUXFragment)

/-- Modelled from the spec: a markup element — open/close or
self-closing. -/
inductive LUXElement where
  | element (e : LUXOpenCloseElement)
  | selfClosingElement (e : LUXSelfClosingElement)

/-- Modelled from the spec: an open/close markup element with attributes
and children. -/
inductive LUXOpenCloseElement where
  | mk (name : String) (attributes : List LUXAttribute) (children : List LUXChild)

/-- Modelled from the spec: a self-closing markup element. -/
inductive LUXSelfClosingElement where
  | mk (name : String) (attributes : List LUXAttribute)

/-- Modelled from the spec: a markup fragment holding children. -/
inductive LUXFragment where
  | mk (children : List LUXChild)

/-- Modelled from the spec: a markup child — element, fragment,
expanded expression or optional host expression (§3.1). -/
inductive LUXChild where
  | childElement (e : LUXElement)
  | childFragment (f : LUXFragment)
  | expandedExpression (e : Expression)
  | expression (e : Option Expression)

/-- Modelled from the spec: a markup attribute — named with optional value,
or a spread expression (§3.1). -/
inductive LUXAttribute where
  | named (name : String) (value : Option LUXAttributeValue)
  | spread (e : Expression)

/-- Modelled from the spec: a markup attribute value (§3.1). -/
inductive LUXAttributeValue where
  | doubleQuoteString (s : String)
  | singleQuoteString (s : String)
  | luaExpression (e : Expression)
  | luxElementValue (e : LUXElement)
  | luxFragmentValue (f : LUXFragment)

end

/-- The read-only node-processor capability bag, from
`src/process/node_processor.rs` (trait `NodeProcessor`) together with the
markup hooks that `src/process/visitors.rs` invokes on it.  Each hook reads
a node and updates the processor state; the default implementation of every
hook in the source is a no-op.  `process_parenthese_expression` is declared
by the trait (`node_processor.rs` line 32) exactly as here. -/
structure NodeProcessor (σ : Type) where
  process_block : σ → Block → σ
  process_statement : σ → Statement → σ
  process_function_call : σ → FunctionCall → σ
  process_assign_statement : σ → AssignStatement → σ
  process_do_statement : σ → DoStatement → σ
  process_function_statement : σ → FunctionStatement → σ
  process_generic_for_statement : σ → GenericForStatement → σ
  process_if_statement : σ → IfStatement → σ
  process_last_statement : σ → LastStatement → σ
  process_local_assign_statement : σ → LocalAssignStatement → σ
  process_local_function_statement : σ → LocalFunctionStatement → σ
  process_numeric_for_statement : σ → NumericForStatement → σ
  process_repeat_statement : σ → RepeatStatement → σ
  process_while_statement : σ → WhileStatement → σ
  process_expression : σ → Expression → σ
  process_binary_expression : σ → BinaryExpression → σ
  process_field_expression : σ → FieldExpression → σ
  process_function_expression : σ → FunctionExpression → σ
  process_variable_expression : σ → String → σ
  process_index_expression : σ → IndexExpression → σ
  process_number_expression : σ → NumberExpression → σ
  process_prefix_expression : σ → Prefix → σ
  process_parenthese_expression : σ → Expression → σ
  process_string_expression : σ → StringExpression → σ
  process_table_expression : σ → TableExpression → σ
  process_unary_expression : σ → UnaryExpression → σ
  process_lux_expression : σ → LUXExpression → σ
  process_lux_element : σ → LUXElement → σ
  process_lux_open_close_element : σ → LUXOpenCloseElement → σ
  process_lux_self_closing_element : σ → LUXSelfClosingElement → σ
  process_lux_fragment : σ → LUXFragment → σ
  process_lux_child : σ → LUXChild → σ
  process_lux_attribute : σ → LUXAttribute → σ
  process_lux_attribute_value : σ → LUXAttributeValue → σ

mutual

/-- `NodeVisitor::visit_block` (`src/process/visitors.rs` lines 8-26):
process the block, visit each statement in order, then process the last
statement and, for `Return`, visit its expressions. -/
def visit_block {σ : Type} (p : NodeProcessor σ) (s : σ) : Block → σ
  | .mk statements lastStatement =>
    let s1 := p.process_block s (.mk statements lastStatement)
    let s2 := visit_statement_list p s1 statements
    match lastStatement with
    | none => s2
    | some last =>
      let s3 := p.process_last_statement s2 last
      match last with
      | .breakStmt => s3
      | .returnStmt expressions => visit_expression_list p s3 expressions

/-- Iteration over the statement list of a block (`visit_block`'s
`for_each`). -/
def visit_statement_list {σ : Type} (p : NodeProcessor σ) (s : σ) : List Statement → σ
  | [] => s
  | st :: rest => visit_statement_list p (visit_statement p s st) rest

/-- Iteration over a list of expressions (used for return values, assign
values, tuple arguments, ...). -/
def visit_expression_list {σ : Type} (p : NodeProcessor σ) (s : σ) : List Expression → σ
  | [] => s
  | e :: rest => visit_expression_list p (visit_expression p s e) rest

/-- `NodeVisitor::visit_statement` (lines 28-44): generic statement hook
first, then dispatch on the variant. -/
def visit_statement {σ : Type} (p : NodeProcessor σ) (s : σ) : Statement → σ
  | .assign st => visit_assign_statement p (p.process_statement s (.assign st)) st
  | .doStmt st => visit_do_statement p (p.process_statement s (.doStmt st)) st
  | .call c => visit_function_call p (p.process_statement s (.call c)) c
  | .functionStmt st =>
    visit_function_statement p (p.process_statement s (.functionStmt st)) st
  | .genericFor st => visit_generic_for p (p.process_statement s (.genericFor st)) st
  | .ifStmt st => visit_if_statement p (p.process_statement s (.ifStmt st)) st
  | .localAssign st => visit_local_assign p (p.process_statement s (.localAssign st)) st
  | .localFunction st =>
    visit_local_function p (p.process_statement s (.localFunction st)) st
  | .numericFor st => visit_numeric_for p (p.process_statement s (.numericFor st)) st
  | .repeatStmt st =>
    visit_repeat_statement p (p.process_statement s (.repeatStmt st)) st
  | .whileStmt st => visit_while_statement p (p.process_statement s (.whileStmt st)) st

/-- `NodeVisitor::visit_expression` (lines 46-74): generic expression hook
first, then dispatch.  The `Parenthese` arm recurses into the inner
expression without invoking any parenthese-specific hook (line 61); the leaf
variants `Nil`, `True`, `False` and `VariableArguments` invoke nothing
beyond the generic hook (lines 69-72). -/
def visit_expression {σ : Type} (p : NodeProcessor σ) (s : σ) : Expression → σ
  | .nilExpr => p.process_expression s .nilExpr
  | .trueExpr => p.process_expression s .trueExpr
  | .falseExpr => p.process_expression s .falseExpr
  | .variableArguments => p.process_expression s .variableArguments
  | .number n => p.process_number_expression (p.process_expression s (.number n)) n
  | .stringExpr str =>
    p.process_string_expression (p.process_expression s (.stringExpr str)) str
  | .identifier name =>
    p.process_variable_expression (p.process_expression s (.identifier name)) name
  | .binary b =>
    match b with
    | .mk op l r =>
      let s1 := p.process_expression s (.binary (.mk op l r))
      let s2 := p.process_binary_expression s1 (.mk op l r)
      visit_expression p (visit_expression p s2 l) r
  | .unary u =>
    match u with
    | .mk op e =>
      let s1 := p.process_expression s (.unary (.mk op e))
      let s2 := p.process_unary_expression s1 (.mk op e)
      visit_expression p s2 e
  | .parenthese e => visit_expression p (p.process_expression s (.parenthese e)) e
  | .functionExpr f =>
    visit_function_expression p (p.process_expression s (.functionExpr f)) f
  | .call c => visit_function_call p (p.process_expression s (.call c)) c
  | .field f => visit_field_expression p (p.process_expression s (.field f)) f
  | .index i => visit_index_expression p (p.process_expression s (.index i)) i
  | .table t => visit_table p (p.process_expression s (.table t)) t
  | .lux l => visit_lux_expression p (p.process_expression s (.lux l)) l

/-- `NodeVisitor::visit_function_expression` (lines 76-80). -/
def visit_function_expression {σ : Type} (p : NodeProcessor σ) (s : σ) : FunctionExpression → σ
  | .mk parameters isVariadic block =>
    visit_block p (p.process_function_expression s (.mk parameters isVariadic block)) block

/-- `NodeVisitor::visit_assign_statement` (lines 82-94): hook, then the
vars (each as an l-value visit), then the values. -/
def visit_assign_statement {σ : Type} (p : NodeProcessor σ) (s : σ) : AssignStatement → σ
  | .mk vars values =>
    let s1 := p.process_assign_statement s (.mk vars values)
    let s2 := visit_variable_list p s1 vars
    visit_expression_list p s2 values

/-- The variable dispatch inside `visit_assign_statement` (lines 85-90). -/
def visit_variable {σ : Type} (p : NodeProcessor σ) (s : σ) : Variable → σ
  | .identifier name => p.process_variable_expression s name
  | .field f => visit_field_expression p s f
  | .index i => visit_index_expression p s i

/-- Iteration over assignment vars. -/
def visit_variable_list {σ : Type} (p : NodeProcessor σ) (s : σ) : List Variable → σ
  | [] => s
  | v :: rest => visit_variable_list p (visit_variable p s v) rest

/-- `NodeVisitor::visit_do_statement` (lines 96-99). -/
def visit_do_statement {σ : Type} (p : NodeProcessor σ) (s : σ) : DoStatement → σ
  | .mk block => visit_block p (p.process_do_statement s (.mk block)) block

/-- `NodeVisitor::visit_function_statement` (lines 101-105): hook, then the
function name identifier through `process_variable_expression`, then the
body. -/
def visit_function_statement {σ : Type} (p : NodeProcessor σ) (s : σ) : FunctionStatement → σ
  | .mk name parameters block =>
    let s1 := p.process_function_statement s (.mk name parameters block)
    let s2 := p.process_variable_expression s1 name
    visit_block p s2 block

/-- `NodeVisitor::visit_generic_for` (lines 107-113): hook, expressions,
body; the loop identifiers are not visited. -/
def visit_generic_for {σ : Type} (p : NodeProcessor σ) (s : σ) : GenericForStatement → σ
  | .mk identifiers expressions block =>
    let s1 := p.process_generic_for_statement s (.mk identifiers expressions block)
    let s2 := visit_expression_list p s1 expressions
    visit_block p s2 block

/-- `NodeVisitor::visit_if_statement` (lines 115-128): hook, then for each
branch its condition and block, then the else block if present. -/
def visit_if_statement {σ : Type} (p : NodeProcessor σ) (s : σ) : IfStatement → σ
  | .mk branches elseBlock =>
    let s1 := p.process_if_statement s (.mk branches elseBlock)
    let s2 := visit_branch_list p s1 branches
    match elseBlock with
    | none => s2
    | some block => visit_block p s2 block

/-- Iteration over the branches of an `if` statement. -/
def visit_branch_list {σ : Type} (p : NodeProcessor σ) (s : σ) : List IfBranch → σ
  | [] => s
  | .mk condition block :: rest =>
    visit_branch_list p (visit_block p (visit_expression p s condition) block) rest

/-- `NodeVisitor::visit_local_assign` (lines 130-135): hook, then the value
expressions; the declared identifiers are not visited. -/
def visit_local_assign {σ : Type} (p : NodeProcessor σ) (s : σ) : LocalAssignStatement → σ
  | .mk vars values tokens =>
    let s1 := p.process_local_assign_statement s (.mk vars values tokens)
    visit_expression_list p s1 values

/-- `NodeVisitor::visit_local_function` (lines 137-140). -/
def visit_local_function {σ : Type} (p : NodeProcessor σ) (s : σ) : LocalFunctionStatement → σ
  | .mk name parameters block =>
    visit_block p (p.process_local_function_statement s (.mk name parameters block)) block

/-- `NodeVisitor::visit_numeric_for` (lines 142-153): hook, start, end,
optional step, body. -/
def visit_numeric_for {σ : Type} (p : NodeProcessor σ) (s : σ) : NumericForStatement → σ
  | .mk identifier startExpr endExpr stepExpr block =>
    let s1 := p.process_numeric_for_statement s
      (.mk identifier startExpr endExpr stepExpr block)
    let s2 := visit_expression p s1 startExpr
    let s3 := visit_expression p s2 endExpr
    let s4 := match stepExpr with
      | none => s3
      | some step => visit_expression p s3 step
    visit_block p s4 block

/-- `NodeVisitor::visit_repeat_statement` (lines 155-160): hook, condition,
body. -/
def visit_repeat_statement {σ : Type} (p : NodeProcessor σ) (s : σ) : RepeatStatement → σ
  | .mk block condition =>
    let s1 := p.process_repeat_statement s (.mk block condition)
    visit_block p (visit_expression p s1 condition) block

/-- `NodeVisitor::visit_while_statement` (lines 162-167). -/
def visit_while_statement {σ : Type} (p : NodeProcessor σ) (s : σ) : WhileStatement → σ
  | .mk block condition =>
    let s1 := p.process_while_statement s (.mk block condition)
    visit_block p (visit_expression p s1 condition) block

/-- `NodeVisitor::visit_field_expression` (lines 169-173). -/
def visit_field_expression {σ : Type} (p : NodeProcessor σ) (s : σ) : FieldExpression → σ
  | .mk fieldPrefix field =>
    visit_prefix_expression p (p.process_field_expression s (.mk fieldPrefix field)) fieldPrefix

/-- `NodeVisitor::visit_index_expression` (lines 175-180). -/
def visit_index_expression {σ : Type} (p : NodeProcessor σ) (s : σ) : IndexExpression → σ
  | .mk indexPrefix index =>
    let s1 := p.process_index_expression s (.mk indexPrefix index)
    visit_expression p (visit_prefix_expression p s1 indexPrefix) index

/-- `NodeVisitor::visit_function_call` (lines 182-187): hook, prefix,
arguments. -/
def visit_function_call {σ : Type} (p : NodeProcessor σ) (s : σ) : FunctionCall → σ
  | .mk callPrefix arguments method =>
    let s1 := p.process_function_call s (.mk callPrefix arguments method)
    visit_arguments p (visit_prefix_expression p s1 callPrefix) arguments

/-- `NodeVisitor::visit_arguments` (lines 189-196): no hook of its own;
string arguments go through `process_string_expression`, table arguments
through `visit_table`, tuples through the expression list. -/
def visit_arguments {σ : Type} (p : NodeProcessor σ) (s : σ) : Arguments → σ
  | .string str => p.process_string_expression s str
  | .table t => visit_table p s t
  | .tuple expressions => visit_expression_list p s expressions

/-- `NodeVisitor::visit_table` (lines 198-210). -/
def visit_table {σ : Type} (p : NodeProcessor σ) (s : σ) : TableExpression → σ
  | .mk entries => visit_table_entry_list p (p.process_table_expression s (.mk entries)) entries

/-- The entry dispatch inside `visit_table` (lines 201-209): field entries
visit their value, index entries key then value, value entries the value. -/
def visit_table_entry {σ : Type} (p : NodeProcessor σ) (s : σ) : TableEntry → σ
  | .fieldEntry _name value => visit_expression p s value
  | .indexEntry key value => visit_expression p (visit_expression p s key) value
  | .valueEntry value => visit_expression p s value

/-- Iteration over table entries. -/
def visit_table_entry_list {σ : Type} (p : NodeProcessor σ) (s : σ) : List TableEntry → σ
  | [] => s
  | entry :: rest => visit_table_entry_list p (visit_table_entry p s entry) rest

/-- `NodeVisitor::visit_prefix_expression` (lines 212-222): hook, then
dispatch; the `Parenthese` arm recurses without any parenthese hook. -/
def visit_prefix_expression {σ : Type} (p : NodeProcessor σ) (s : σ) : Prefix → σ
  | .identifier name =>
    p.process_variable_expression (p.process_prefix_expression s (.identifier name)) name
  | .call c => visit_function_call p (p.process_prefix_expression s (.call c)) c
  | .field f => visit_field_expression p (p.process_prefix_expression s (.field f)) f
  | .index i => visit_index_expression p (p.process_prefix_expression s (.index i)) i
  | .parenthese e => visit_expression p (p.process_prefix_expression s (.parenthese e)) e

/-- `NodeVisitor::visit_lux_expression` (lines 224-231). -/
def visit_lux_expression {σ : Type} (p : NodeProcessor σ) (s : σ) : LUXExpression → σ
  | .luxElement e => visit_lux_element p (p.process_lux_expression s (.luxElement e)) e
  | .luxFragment f => visit_lux_fragment p (p.process_lux_expression s (.luxFragment f)) f

/-- `NodeVisitor::visit_lux_element` (lines 233-260): hook, then per variant
the open/close or self-closing hook, the attributes and — for open/close
elements — the children, each child getting `process_lux_child` before
`visit_lux_child` (lines 245-249). -/
def visit_lux_element {σ : Type} (p : NodeProcessor σ) (s : σ) : LUXElement → σ
  | .element e =>
    match e with
    | .mk name attributes children =>
      let s1 := p.process_lux_element s (.element (.mk name attributes children))
      let s2 := p.process_lux_open_close_element s1 (.mk name attributes children)
      let s3 := visit_lux_attribute_list p s2 attributes
      visit_lux_child_list p s3 children
  | .selfClosingElement e =>
    match e with
    | .mk name attributes =>
      let s1 := p.process_lux_element s (.selfClosingElement (.mk name attributes))
      let s2 := p.process_lux_self_closing_element s1 (.mk name attributes)
      visit_lux_attribute_list p s2 attributes

/-- `NodeVisitor::visit_lux_fragment` (lines 262-270): hook, then the
children, each getting `process_lux_child` before `visit_lux_child`. -/
def visit_lux_fragment {σ : Type} (p : NodeProcessor σ) (s : σ) : LUXFragment → σ
  | .mk children =>
    visit_lux_child_list p (p.process_lux_fragment s (.mk children)) children

/-- The children loops of `visit_lux_element` and `visit_lux_fragment`
(lines 245-249 and 265-269): each child is processed with
`process_lux_child` and then passed to `visit_lux_child`. -/
def visit_lux_child_list {σ : Type} (p : NodeProcessor σ) (s : σ) : List LUXChild → σ
  | [] => s
  | child :: rest =>
    visit_lux_child_list p (visit_lux_child p (p.process_lux_child s child) child) rest

/-- `NodeVisitor::visit_lux_child` (lines 272-290): it invokes
`process_lux_child` again (line 273) before dispatching. -/
def visit_lux_child {σ : Type} (p : NodeProcessor σ) (s : σ) : LUXChild → σ
  | .childElement e => visit_lux_element p (p.process_lux_child s (.childElement e)) e
  | .childFragment f => visit_lux_fragment p (p.process_lux_child s (.childFragment f)) f
  | .expandedExpression e =>
    visit_expression p (p.process_lux_child s (.expandedExpression e)) e
  | .expression none => p.process_lux_child s (.expression none)
  | .expression (some e) =>
    visit_expression p (p.process_lux_child s (.expression (some e))) e

/-- Iteration over element attributes. -/
def visit_lux_attribute_list {σ : Type} (p : NodeProcessor σ) (s : σ) : List LUXAttribute → σ
  | [] => s
  | a :: rest =>
    visit_lux_attribute_list p (visit_lux_attribute p s a) rest

/-- `NodeVisitor::visit_lux_attribute` (lines 292-305). -/
def visit_lux_attribute {σ : Type} (p : NodeProcessor σ) (s : σ) : LUXAttribute → σ
  | .named name none => p.process_lux_attribute s (.named name none)
  | .named name (some value) =>
    visit_lux_attribute_value p (p.process_lux_attribute s (.named name (some value))) value
  | .spread e => visit_expression p (p.process_lux_attribute s (.spread e)) e

/-- `NodeVisitor::visit_lux_attribute_value` (lines 307-323). -/
def visit_lux_attribute_value {σ : Type} (p : NodeProcessor σ) (s : σ) : LUXAttributeValue → σ
  | .doubleQuoteString str => p.process_lux_attribute_value s (.doubleQuoteString str)
  | .singleQuoteString str => p.process_lux_attribute_value s (.singleQuoteString str)
  | .luaExpression e =>
    visit_expression p (p.process_lux_attribute_value s (.luaExpression e)) e
  | .luxElementValue e =>
    visit_lux_element p (p.process_lux_attribute_value s (.luxElementValue e)) e
  | .luxFragmentValue f =>
    visit_lux_fragment p (p.process_lux_attribute_value s (.luxFragmentValue f)) f

end

/-- One tag per hook of the processor interface: the node-kind-specific
hooks of `NodeProcessor` (including `process_parenthese_expression`, which
the trait declares) plus the markup hooks invoked by the walker. -/
inductive HookKind where
  | block
  | statement
  | functionCall
  | assignStatement
  | doStatement
  | functionStatement
  | genericForStatement
  | ifStatement
  | lastStatement
  | localAssignStatement
  | localFunctionStatement
  | numericForStatement
  | repeatStatement
  | whileStatement
  | expression
  | binaryExpression
  | fieldExpression
  | functionExpression
  | variableExpression
  | indexExpression
  | numberExpression
  | prefixExpression
  | parentheseExpression
  | stringExpression
  | tableExpression
  | unaryExpression
  | luxExpression
  | luxElement
  | luxOpenCloseElement
  | luxSelfClosingElement
  | luxFragment
  | luxChild
  | luxAttribute
  | luxAttributeValue
deriving DecidableEq

/-- The instrumented processor: every hook appends its own tag to the
state, so the final state is the exact sequence of hook invocations of one
walk.  This is the observer used to settle the once-per-occurrence claim. -/
def traceProcessor : NodeProcessor (List HookKind) where
  process_block := fun s _ => s ++ [.block]
  process_statement := fun s _ => s ++ [.statement]
  process_function_call := fun s _ => s ++ [.functionCall]
  process_assign_statement := fun s _ => s ++ [.assignStatement]
  process_do_statement := fun s _ => s ++ [.doStatement]
  process_function_statement := fun s _ => s ++ [.functionStatement]
  process_generic_for_statement := fun s _ => s ++ [.genericForStatement]
  process_if_statement := fun s _ => s ++ [.ifStatement]
  process_last_statement := fun s _ => s ++ [.lastStatement]
  process_local_assign_statement := fun s _ => s ++ [.localAssignStatement]
  process_local_function_statement := fun s _ => s ++ [.localFunctionStatement]
  process_numeric_for_statement := fun s _ => s ++ [.numericForStatement]
  process_repeat_statement := fun s _ => s ++ [.repeatStatement]
  process_while_statement := fun s _ => s ++ [.whileStatement]
  process_expression := fun s _ => s ++ [.expression]
  process_binary_expression := fun s _ => s ++ [.binaryExpression]
  process_field_expression := fun s _ => s ++ [.fieldExpression]
  process_function_expression := fun s _ => s ++ [.functionExpression]
  process_variable_expression := fun s _ => s ++ [.variableExpression]
  process_index_expression := fun s _ => s ++ [.indexExpression]
  process_number_expression := fun s _ => s ++ [.numberExpression]
  process_prefix_expression := fun s _ => s ++ [.prefixExpression]
  process_parenthese_expression := fun s _ => s ++ [.parentheseExpression]
  process_string_expression := fun s _ => s ++ [.stringExpression]
  process_table_expression := fun s _ => s ++ [.tableExpression]
  process_unary_expression := fun s _ => s ++ [.unaryExpression]
  process_lux_expression := fun s _ => s ++ [.luxExpression]
  process_lux_element := fun s _ => s ++ [.luxElement]
  process_lux_open_close_element := fun s _ => s ++ [.luxOpenCloseElement]
  process_lux_self_closing_element := fun s _ => s ++ [.luxSelfClosingElement]
  process_lux_fragment := fun s _ => s ++ [.luxFragment]
  process_lux_child := fun s _ => s ++ [.luxChild]
  process_lux_attribute := fun s _ => s ++ [.luxAttribute]
  process_lux_attribute_value := fun s _ => s ++ [.luxAttributeValue]

/-- Number of occurrences of tag `k` in an invocation trace. -/
def countKind : List HookKind → HookKind → Nat
  | [], _ => 0
  | h :: rest, k => (if h = k then 1 else 0) + countKind rest k

/-- Indicator: 1 if the two tags coincide, 0 otherwise. -/
def ind (h k : HookKind) : Nat := if h = k then 1 else 0

/-!
The `occ` family counts, for a hook tag `k`, the occurrences of nodes of
the corresponding kind in the tree — a purely structural count, independent
of the walker.  Conventions, following §3.1 of the specification:
the `variableExpression` tag counts identifier occurrences in expression
position, prefix position and assignment-variable position (the positions
§3.1 lists for identifiers); declared names (local-assign identifiers,
function and local-function names, loop variables, field names) are not
identifier-expression occurrences.  The `parentheseExpression` tag counts
`Parenthese` variants both of `Expression` and of `Prefix`.
-/

mutual

/-- Structural node-kind occurrence count for a block. -/
def occ_block (k : HookKind) : Block → Nat
  | .mk statements lastStatement =>
    ind .block k + occ_statement_list k statements +
      (match lastStatement with
       | none => 0
       | some .breakStmt => ind .lastStatement k
       | some (.returnStmt es) => ind .lastStatement k + occ_expression_list k es)

/-- Structural occurrence count over a statement list. -/
def occ_statement_list (k : HookKind) : List Statement → Nat
  | [] => 0
  | st :: rest => occ_statement k st + occ_statement_list k rest

/-- Structural occurrence count over an expression list. -/
def occ_expression_list (k : HookKind) : List Expression → Nat
  | [] => 0
  | e :: rest => occ_expression k e + occ_expression_list k rest

/-- Structural node-kind occurrence count for a statement. -/
def occ_statement (k : HookKind) : Statement → Nat
  | .assign st => ind .statement k + occ_assign_statement k st
  | .doStmt st => ind .statement k + occ_do_statement k st
  | .call c => ind .statement k + occ_function_call k c
  | .functionStmt st => ind .statement k + occ_function_statement k st
  | .genericFor st => ind .statement k + occ_generic_for k st
  | .ifStmt st => ind .statement k + occ_if_statement k st
  | .localAssign st => ind .statement k + occ_local_assign k st
  | .localFunction st => ind .statement k + occ_local_function k st
  | .numericFor st => ind .statement k + occ_numeric_for k st
  | .repeatStmt st => ind .statement k + occ_repeat_statement k st
  | .whileStmt st => ind .statement k + occ_while_statement k st

/-- Structural occurrence count for an assignment statement. -/
def occ_assign_statement (k : HookKind) : AssignStatement → Nat
  | .mk vars values =>
    ind .assignStatement k + occ_variable_list k vars + occ_expression_list k values

/-- Structural occurrence count for an assignment variable: an identifier
variable is an identifier occurrence. -/
def occ_variable (k : HookKind) : Variable → Nat
  | .identifier _name => ind .variableExpression k
  | .field f => occ_field_expression k f
  | .index i => occ_index_expression k i

/-- Structural occurrence count over assignment variables. -/
def occ_variable_list (k : HookKind) : List Variable → Nat
  | [] => 0
  | v :: rest => occ_variable k v + occ_variable_list k rest

/-- Structural occurrence count for a `do` statement. -/
def occ_do_statement (k : HookKind) : DoStatement → Nat
  | .mk block => ind .doStatement k + occ_block k block

/-- Structural occurrence count for a function statement; its declared name
is not an identifier-expression occurrence. -/
def occ_function_statement (k : HookKind) : FunctionStatement → Nat
  | .mk _name _parameters block => ind .functionStatement k + occ_block k block

/-- Structural occurrence count for a generic `for`. -/
def occ_generic_for (k : HookKind) : GenericForStatement → Nat
  | .mk _identifiers expressions block =>
    ind .genericForStatement k + occ_expression_list k expressions + occ_block k block

/-- Structural occurrence count for an `if` statement. -/
def occ_if_statement (k : HookKind) : IfStatement → Nat
  | .mk branches elseBlock =>
    ind .ifStatement k + occ_branch_list k branches +
      (match elseBlock with
       | none => 0
       | some block => occ_block k block)

/-- Structural occurrence count over `if` branches. -/
def occ_branch_list (k : HookKind) : List IfBranch → Nat
  | [] => 0
  | .mk condition block :: rest =>
    occ_expression k condition + occ_block k block + occ_branch_list k rest

/-- Structural occurrence count for a local assignment; the declared
identifiers are identifier objects, not identifier expressions. -/
def occ_local_assign (k : HookKind) : LocalAssignStatement → Nat
  | .mk _vars values _tokens => ind .localAssignStatement k + occ_expression_list k values

/-- Structural occurrence count for a local function statement. -/
def occ_local_function (k : HookKind) : LocalFunctionStatement → Nat
  | .mk _name _parameters block => ind .localFunctionStatement k + occ_block k block

/-- Structural occurrence count for a numeric `for`. -/
def occ_numeric_for (k : HookKind) : NumericForStatement → Nat
  | .mk _identifier startExpr endExpr stepExpr block =>
    ind .numericForStatement k + occ_expression k startExpr + occ_expression k endExpr +
      (match stepExpr with
       | none => 0
       | some step => occ_expression k step) + occ_block k block

/-- Structural occurrence count for a `repeat` statement. -/
def occ_repeat_statement (k : HookKind) : RepeatStatement → Nat
  | .mk block condition =>
    ind .repeatStatement k + occ_expression k condition + occ_block k block

/-- Structural occurrence count for a `while` statement. -/
def occ_while_statement (k : HookKind) : WhileStatement → Nat
  | .mk block condition =>
    ind .whileStatement k + occ_expression k condition + occ_block k block

/-- Structural node-kind occurrence count for an expression.  A
`Parenthese` expression is an occurrence of the parenthese kind; an
`Identifier` expression is an identifier-expression occurrence. -/
def occ_expression (k : HookKind) : Expression → Nat
  | .nilExpr => ind .expression k
  | .trueExpr => ind .expression k
  | .falseExpr => ind .expression k
  | .variableArguments => ind .expression k
  | .number _n => ind .expression k + ind .numberExpression k
  | .stringExpr _s => ind .expression k + ind .stringExpression k
  | .identifier _name => ind .expression k + ind .variableExpression k
  | .binary (.mk _op l r) =>
    ind .expression k + ind .binaryExpression k + occ_expression k l + occ_expression k r
  | .unary (.mk _op e) => ind .expression k + ind .unaryExpression k + occ_expression k e
  | .parenthese e => ind .expression k + ind .parentheseExpression k + occ_expression k e
  | .functionExpr f => ind .expression k + occ_function_expression k f
  | .call c => ind .expression k + occ_function_call k c
  | .field f => ind .expression k + occ_field_expression k f
  | .index i => ind .expression k + occ_index_expression k i
  | .table t => ind .expression k + occ_table k t
  | .lux l => ind .expression k + occ_lux_expression k l

/-- Structural occurrence count for an anonymous function expression. -/
def occ_function_expression (k : HookKind) : FunctionExpression → Nat
  | .mk _parameters _isVariadic block => ind .functionExpression k + occ_block k block

/-- Structural occurrence count for a function call. -/
def occ_function_call (k : HookKind) : FunctionCall → Nat
  | .mk callPrefix arguments _method =>
    ind .functionCall k + occ_prefix k callPrefix + occ_arguments k arguments

/-- Structural occurrence count for call arguments: string arguments are
string-expression occurrences, table arguments table-expression
occurrences. -/
def occ_arguments (k : HookKind) : Arguments → Nat
  | .string _s => ind .stringExpression k
  | .table t => occ_table k t
  | .tuple expressions => occ_expression_list k expressions

/-- Structural occurrence count for a field access. -/
def occ_field_expression (k : HookKind) : FieldExpression → Nat
  | .mk fieldPrefix _field => ind .fieldExpression k + occ_prefix k fieldPrefix

/-- Structural occurrence count for an index access. -/
def occ_index_expression (k : HookKind) : IndexExpression → Nat
  | .mk indexPrefix index =>
    ind .indexExpression k + occ_prefix k indexPrefix + occ_expression k index

/-- Structural occurrence count for a table constructor. -/
def occ_table (k : HookKind) : TableExpression → Nat
  | .mk entries => ind .tableExpression k + occ_table_entry_list k entries

/-- Structural occurrence count for a table entry. -/
def occ_table_entry (k : HookKind) : TableEntry → Nat
  | .fieldEntry _name value => occ_expression k value
  | .indexEntry key value => occ_expression k key + occ_expression k value
  | .valueEntry value => occ_expression k value

/-- Structural occurrence count over table entries. -/
def occ_table_entry_list (k : HookKind) : List TableEntry → Nat
  | [] => 0
  | entry :: rest => occ_table_entry k entry + occ_table_entry_list k rest

/-- Structural node-kind occurrence count for a prefix: an identifier
prefix is an identifier occurrence, a parenthese prefix a parenthese
occurrence. -/
def occ_prefix (k : HookKind) : Prefix → Nat
  | .identifier _name => ind .prefixExpression k + ind .variableExpression k
  | .call c => ind .prefixExpression k + occ_function_call k c
  | .field f => ind .prefixExpression k + occ_field_expression k f
  | .index i => ind .prefixExpression k + occ_index_expression k i
  | .parenthese e => ind .prefixExpression k + ind .parentheseExpression k + occ_expression k e

/-- Structural occurrence count for a markup expression. -/
def occ_lux_expression (k : HookKind) : LUXExpression → Nat
  | .luxElement e => ind .luxExpression k + occ_lux_element k e
  | .luxFragment f => ind .luxExpression k + occ_lux_fragment k f

/-- Structural occurrence count for a markup element. -/
def occ_lux_element (k : HookKind) : LUXElement → Nat
  | .element (.mk _name attributes children) =>
    ind .luxElement k + ind .luxOpenCloseElement k +
      occ_lux_attribute_list k attributes + occ_lux_child_list k children
  | .selfClosingElement (.mk _name attributes) =>
    ind .luxElement k + ind .luxSelfClosingElement k + occ_lux_attribute_list k attributes

/-- Structural occurrence count for a markup fragment. -/
def occ_lux_fragment (k : HookKind) : LUXFragment → Nat
  | .mk children => ind .luxFragment k + occ_lux_child_list k children

/-- Structural occurrence count over markup children: each child is one
child occurrence. -/
def occ_lux_child_list (k : HookKind) : List LUXChild → Nat
  | [] => 0
  | child :: rest => occ_lux_child k child + occ_lux_child_list k rest

/-- Structural occurrence count for one markup child. -/
def occ_lux_child (k : HookKind) : LUXChild → Nat
  | .childElement e => ind .luxChild k + occ_lux_element k e
  | .childFragment f => ind .luxChild k + occ_lux_fragment k f
  | .expandedExpression e => ind .luxChild k + occ_expression k e
  | .expression none => ind .luxChild k
  | .expression (some e) => ind .luxChild k + occ_expression k e

/-- Structural occurrence count over markup attributes. -/
def occ_lux_attribute_list (k : HookKind) : List LUXAttribute → Nat
  | [] => 0
  | a :: rest => occ_lux_attribute k a + occ_lux_attribute_list k rest

/-- Structural occurrence count for a markup attribute. -/
def occ_lux_attribute (k : HookKind) : LUXAttribute → Nat
  | .named _name none => ind .luxAttribute k
  | .named _name (some value) => ind .luxAttribute k + occ_lux_attribute_value k value
  | .spread e => ind .luxAttribute k + occ_expression k e

/-- Structural occurrence count for a markup attribute value. -/
def occ_lux_attribute_value (k : HookKind) : LUXAttributeValue → Nat
  | .doubleQuoteString _s => ind .luxAttributeValue k
  | .singleQuoteString _s => ind .luxAttributeValue k
  | .luaExpression e => ind .luxAttributeValue k + occ_expression k e
  | .luxElementValue e => ind .luxAttributeValue k + occ_lux_element k e
  | .luxFragmentValue f => ind .luxAttributeValue k + occ_lux_fragment k f

end

/-!
The `cnt` family counts the hook invocations the walker performs on each
node, read off `visit_*` case by case.  It agrees with `occ` everywhere
except in the three places where the walker deviates from
once-per-occurrence: no parenthese hook is ever emitted, `process_lux_child`
is emitted twice per child (once by the children loop, once by
`visit_lux_child`), and `visit_function_statement` emits one extra
`process_variable_expression` for the function name.
-/

mutual

/-- Hook invocation count of `visit_block`. -/
def cnt_block (k : HookKind) : Block → Nat
  | .mk statements lastStatement =>
    ind .block k + cnt_statement_list k statements +
      (match lastStatement with
       | none => 0
       | some .breakStmt => ind .lastStatement k
       | some (.returnStmt es) => ind .lastStatement k + cnt_expression_list k es)

/-- Hook invocation count over a statement list. -/
def cnt_statement_list (k : HookKind) : List Statement → Nat
  | [] => 0
  | st :: rest => cnt_statement k st + cnt_statement_list k rest

/-- Hook invocation count over an expression list. -/
def cnt_expression_list (k : HookKind) : List Expression → Nat
  | [] => 0
  | e :: rest => cnt_expression k e + cnt_expression_list k rest

/-- Hook invocation count of `visit_statement`. -/
def cnt_statement (k : HookKind) : Statement → Nat
  | .assign st => ind .statement k + cnt_assign_statement k st
  | .doStmt st => ind .statement k + cnt_do_statement k st
  | .call c => ind .statement k + cnt_function_call k c
  | .functionStmt st => ind .statement k + cnt_function_statement k st
  | .genericFor st => ind .statement k + cnt_generic_for k st
  | .ifStmt st => ind .statement k + cnt_if_statement k st
  | .localAssign st => ind .statement k + cnt_local_assign k st
  | .localFunction st => ind .statement k + cnt_local_function k st
  | .numericFor st => ind .statement k + cnt_numeric_for k st
  | .repeatStmt st => ind .statement k + cnt_repeat_statement k st
  | .whileStmt st => ind .statement k + cnt_while_statement k st

/-- Hook invocation count of `visit_assign_statement`. -/
def cnt_assign_statement (k : HookKind) : AssignStatement → Nat
  | .mk vars values =>
    ind .assignStatement k + cnt_variable_list k vars + cnt_expression_list k values

/-- Hook invocation count of the variable dispatch. -/
def cnt_variable (k : HookKind) : Variable → Nat
  | .identifier _name => ind .variableExpression k
  | .field f => cnt_field_expression k f
  | .index i => cnt_index_expression k i

/-- Hook invocation count over assignment variables. -/
def cnt_variable_list (k : HookKind) : List Variable → Nat
  | [] => 0
  | v :: rest => cnt_variable k v + cnt_variable_list k rest

/-- Hook invocation count of `visit_do_statement`. -/
def cnt_do_statement (k : HookKind) : DoStatement → Nat
  | .mk block => ind .doStatement k + cnt_block k block

/-- Hook invocation count of `visit_function_statement`: it emits the
function-statement hook, one `process_variable_expression` for the name,
then the body. -/
def cnt_function_statement (k : HookKind) : FunctionStatement → Nat
  | .mk _name _parameters block =>
    ind .functionStatement k + ind .variableExpression k + cnt_block k block

/-- Hook invocation count of `visit_generic_for`. -/
def cnt_generic_for (k : HookKind) : GenericForStatement → Nat
  | .mk _identifiers expressions block =>
    ind .genericForStatement k + cnt_expression_list k expressions + cnt_block k block

/-- Hook invocation count of `visit_if_statement`. -/
def cnt_if_statement (k : HookKind) : IfStatement → Nat
  | .mk branches elseBlock =>
    ind .ifStatement k + cnt_branch_list k branches +
      (match elseBlock with
       | none => 0
       | some block => cnt_block k block)

/-- Hook invocation count over `if` branches. -/
def cnt_branch_list (k : HookKind) : List IfBranch → Nat
  | [] => 0
  | .mk condition block :: rest =>
    cnt_expression k condition + cnt_block k block + cnt_branch_list k rest

/-- Hook invocation count of `visit_local_assign`. -/
def cnt_local_assign (k : HookKind) : LocalAssignStatement → Nat
  | .mk _vars values _tokens => ind .localAssignStatement k + cnt_expression_list k values

/-- Hook invocation count of `visit_local_function`. -/
def cnt_local_function (k : HookKind) : LocalFunctionStatement → Nat
  | .mk _name _parameters block => ind .localFunctionStatement k + cnt_block k block

/-- Hook invocation count of `visit_numeric_for`. -/
def cnt_numeric_for (k : HookKind) : NumericForStatement → Nat
  | .mk _identifier startExpr endExpr stepExpr block =>
    ind .numericForStatement k + cnt_expression k startExpr + cnt_expression k endExpr +
      (match stepExpr with
       | none => 0
       | some step => cnt_expression k step) + cnt_block k block

/-- Hook invocation count of `visit_repeat_statement`. -/
def cnt_repeat_statement (k : HookKind) : RepeatStatement → Nat
  | .mk block condition =>
    ind .repeatStatement k + cnt_expression k condition + cnt_block k block

/-- Hook invocation count of `visit_while_statement`. -/
def cnt_while_statement (k : HookKind) : WhileStatement → Nat
  | .mk block condition =>
    ind .whileStatement k + cnt_expression k condition + cnt_block k block

/-- Hook invocation count of `visit_expression`; the `Parenthese` arm emits
no parenthese hook (visitors.rs line 61). -/
def cnt_expression (k : HookKind) : Expression → Nat
  | .nilExpr => ind .expression k
  | .trueExpr => ind .expression k
  | .falseExpr => ind .expression k
  | .variableArguments => ind .expression k
  | .number _n => ind .expression k + ind .numberExpression k
  | .stringExpr _s => ind .expression k + ind .stringExpression k
  | .identifier _name => ind .expression k + ind .variableExpression k
  | .binary (.mk _op l r) =>
    ind .expression k + ind .binaryExpression k + cnt_expression k l + cnt_expression k r
  | .unary (.mk _op e) => ind .expression k + ind .unaryExpression k + cnt_expression k e
  | .parenthese e => ind .expression k + cnt_expression k e
  | .functionExpr f => ind .expression k + cnt_function_expression k f
  | .call c => ind .expression k + cnt_function_call k c
  | .field f => ind .expression k + cnt_field_expression k f
  | .index i => ind .expression k + cnt_index_expression k i
  | .table t => ind .expression k + cnt_table k t
  | .lux l => ind .expression k + cnt_lux_expression k l

/-- Hook invocation count of `visit_function_expression`. -/
def cnt_function_expression (k : HookKind) : FunctionExpression → Nat
  | .mk _parameters _isVariadic block => ind .functionExpression k + cnt_block k block

/-- Hook invocation count of `visit_function_call`. -/
def cnt_function_call (k : HookKind) : FunctionCall → Nat
  | .mk callPrefix arguments _method =>
    ind .functionCall k + cnt_prefix k callPrefix + cnt_arguments k arguments

/-- Hook invocation count of `visit_arguments`. -/
def cnt_arguments (k : HookKind) : Arguments → Nat
  | .string _s => ind .stringExpression k
  | .table t => cnt_table k t
  | .tuple expressions => cnt_expression_list k expressions

/-- Hook invocation count of `visit_field_expression`. -/
def cnt_field_expression (k : HookKind) : FieldExpression → Nat
  | .mk fieldPrefix _field => ind .fieldExpression k + cnt_prefix k fieldPrefix

/-- Hook invocation count of `visit_index_expression`. -/
def cnt_index_expression (k : HookKind) : IndexExpression → Nat
  | .mk indexPrefix index =>
    ind .indexExpression k + cnt_prefix k indexPrefix + cnt_expression k index

/-- Hook invocation count of `visit_table`. -/
def cnt_table (k : HookKind) : TableExpression → Nat
  | .mk entries => ind .tableExpression k + cnt_table_entry_list k entries

/-- Hook invocation count of the table-entry dispatch. -/
def cnt_table_entry (k : HookKind) : TableEntry → Nat
  | .fieldEntry _name value => cnt_expression k value
  | .indexEntry key value => cnt_expression k key + cnt_expression k value
  | .valueEntry value => cnt_expression k value

/-- Hook invocation count over table entries. -/
def cnt_table_entry_list (k : HookKind) : List TableEntry → Nat
  | [] => 0
  | entry :: rest => cnt_table_entry k entry + cnt_table_entry_list k rest

/-- Hook invocation count of `visit_prefix_expression`; the `Parenthese`
arm emits no parenthese hook (visitors.rs line 220). -/
def cnt_prefix (k : HookKind) : Prefix → Nat
  | .identifier _name => ind .prefixExpression k + ind .variableExpression k
  | .call c => ind .prefixExpression k + cnt_function_call k c
  | .field f => ind .prefixExpression k + cnt_field_expression k f
  | .index i => ind .prefixExpression k + cnt_index_expression k i
  | .parenthese e => ind .prefixExpression k + cnt_expression k e

/-- Hook invocation count of `visit_lux_expression`. -/
def cnt_lux_expression (k : HookKind) : LUXExpression → Nat
  | .luxElement e => ind .luxExpression k + cnt_lux_element k e
  | .luxFragment f => ind .luxExpression k + cnt_lux_fragment k f

/-- Hook invocation count of `visit_lux_element`. -/
def cnt_lux_element (k : HookKind) : LUXElement → Nat
  | .element (.mk _name attributes children) =>
    ind .luxElement k + ind .luxOpenCloseElement k +
      cnt_lux_attribute_list k attributes + cnt_lux_child_list k children
  | .selfClosingElement (.mk _name attributes) =>
    ind .luxElement k + ind .luxSelfClosingElement k + cnt_lux_attribute_list k attributes

/-- Hook invocation count of `visit_lux_fragment`. -/
def cnt_lux_fragment (k : HookKind) : LUXFragment → Nat
  | .mk children => ind .luxFragment k + cnt_lux_child_list k children

/-- Hook invocation count of the children loops: one `process_lux_child`
from the loop itself, plus those of `visit_lux_child`. -/
def cnt_lux_child_list (k : HookKind) : List LUXChild → Nat
  | [] => 0
  | child :: rest => ind .luxChild k + cnt_lux_child k child + cnt_lux_child_list k rest

/-- Hook invocation count of `visit_lux_child`, which emits its own
`process_lux_child` before dispatching (visitors.rs line 273). -/
def cnt_lux_child (k : HookKind) : LUXChild → Nat
  | .childElement e => ind .luxChild k + cnt_lux_element k e
  | .childFragment f => ind .luxChild k + cnt_lux_fragment k f
  | .expandedExpression e => ind .luxChild k + cnt_expression k e
  | .expression none => ind .luxChild k
  | .expression (some e) => ind .luxChild k + cnt_expression k e

/-- Hook invocation count over markup attributes. -/
def cnt_lux_attribute_list (k : HookKind) : List LUXAttribute → Nat
  | [] => 0
  | a :: rest => cnt_lux_attribute k a + cnt_lux_attribute_list k rest

/-- Hook invocation count of `visit_lux_attribute`. -/
def cnt_lux_attribute (k : HookKind) : LUXAttribute → Nat
  | .named _name none => ind .luxAttribute k
  | .named _name (some value) => ind .luxAttribute k + cnt_lux_attribute_value k value
  | .spread e => ind .luxAttribute k + cnt_expression k e

/-- Hook invocation count of `visit_lux_attribute_value`. -/
def cnt_lux_attribute_value (k : HookKind) : LUXAttributeValue → Nat
  | .doubleQuoteString _s => ind .luxAttributeValue k
  | .singleQuoteString _s => ind .luxAttributeValue k
  | .luaExpression e => ind .luxAttributeValue k + cnt_expression k e
  | .luxElementValue e => ind .luxAttributeValue k + cnt_lux_element k e
  | .luxFragmentValue f => ind .luxAttributeValue k + cnt_lux_fragment k f

end


/-- Relation between the walker's hook-invocation counts and the structural
occurrence counts: they agree on every tag except the parenthese tag (never
emitted), the markup-child tag (emitted twice per occurrence) and the
identifier tag (emitted once extra per function statement, for its name). -/
def CntOcc (c o : HookKind → Nat) : Prop :=
  (∀ k, k ≠ HookKind.parentheseExpression → k ≠ HookKind.luxChild →
      k ≠ HookKind.variableExpression → c k = o k) ∧
  c HookKind.parentheseExpression = 0 ∧
  c HookKind.luxChild = 2 * o HookKind.luxChild ∧
  c HookKind.variableExpression
    = o HookKind.variableExpression + o HookKind.functionStatement


/-- The mutating node-processor capability bag, from
`src/process/node_processor.rs` lines 40-71 (trait `NodeProcessorMut`),
together with the markup hooks used by the walker.  Each hook may rewrite
the node it receives (`&mut` access) and update the processor state. -/
structure NodeProcessorMut (σ : Type) where
  process_block : σ → Block → Block × σ
  process_statement : σ → Statement → Statement × σ
  process_function_call : σ → FunctionCall → FunctionCall × σ
  process_assign_statement : σ → AssignStatement → AssignStatement × σ
  process_do_statement : σ → DoStatement → DoStatement × σ
  process_function_statement : σ → FunctionStatement → FunctionStatement × σ
  process_generic_for_statement : σ → GenericForStatement → GenericForStatement × σ
  process_if_statement : σ → IfStatement → IfStatement × σ
  process_last_statement : σ → LastStatement → LastStatement × σ
  process_local_assign_statement : σ → LocalAssignStatement → LocalAssignStatement × σ
  process_local_function_statement : σ → LocalFunctionStatement → LocalFunctionStatement × σ
  process_numeric_for_statement : σ → NumericForStatement → NumericForStatement × σ
  process_repeat_statement : σ → RepeatStatement → RepeatStatement × σ
  process_while_statement : σ → WhileStatement → WhileStatement × σ
  process_expression : σ → Expression → Expression × σ
  process_binary_expression : σ → BinaryExpression → BinaryExpression × σ
  process_field_expression : σ → FieldExpression → FieldExpression × σ
  process_function_expression : σ → FunctionExpression → FunctionExpression × σ
  process_variable_expression : σ → String → String × σ
  process_index_expression : σ → IndexExpression → IndexExpression × σ
  process_number_expression : σ → NumberExpression → NumberExpression × σ
  process_prefix_expression : σ → Prefix → Prefix × σ
  process_parenthese_expression : σ → Expression → Expression × σ
  process_string_expression : σ → StringExpression → StringExpression × σ
  process_table_expression : σ → TableExpression → TableExpression × σ
  process_unary_expression : σ → UnaryExpression → UnaryExpression × σ
  process_lux_expression : σ → LUXExpression → LUXExpression × σ
  process_lux_element : σ → LUXElement → LUXElement × σ
  process_lux_open_close_element : σ → LUXOpenCloseElement → LUXOpenCloseElement × σ
  process_lux_self_closing_element : σ → LUXSelfClosingElement → LUXSelfClosingElement × σ
  process_lux_fragment : σ → LUXFragment → LUXFragment × σ
  process_lux_child : σ → LUXChild → LUXChild × σ
  process_lux_attribute : σ → LUXAttribute → LUXAttribute × σ
  process_lux_attribute_value : σ → LUXAttributeValue → LUXAttributeValue × σ

/-- The processor whose every hook is the default no-op: it returns the
node unchanged and leaves the state untouched (every `NodeProcessorMut`
method in the source has an empty default body). -/
def noopProcessorMut (σ : Type) : NodeProcessorMut σ where
  process_block := fun s n => (n, s)
  process_statement := fun s n => (n, s)
  process_function_call := fun s n => (n, s)
  process_assign_statement := fun s n => (n, s)
  process_do_statement := fun s n => (n, s)
  process_function_statement := fun s n => (n, s)
  process_generic_for_statement := fun s n => (n, s)
  process_if_statement := fun s n => (n, s)
  process_last_statement := fun s n => (n, s)
  process_local_assign_statement := fun s n => (n, s)
  process_local_function_statement := fun s n => (n, s)
  process_numeric_for_statement := fun s n => (n, s)
  process_repeat_statement := fun s n => (n, s)
  process_while_statement := fun s n => (n, s)
  process_expression := fun s n => (n, s)
  process_binary_expression := fun s n => (n, s)
  process_field_expression := fun s n => (n, s)
  process_function_expression := fun s n => (n, s)
  process_variable_expression := fun s n => (n, s)
  process_index_expression := fun s n => (n, s)
  process_number_expression := fun s n => (n, s)
  process_prefix_expression := fun s n => (n, s)
  process_parenthese_expression := fun s n => (n, s)
  process_string_expression := fun s n => (n, s)
  process_table_expression := fun s n => (n, s)
  process_unary_expression := fun s n => (n, s)
  process_lux_expression := fun s n => (n, s)
  process_lux_element := fun s n => (n, s)
  process_lux_open_close_element := fun s n => (n, s)
  process_lux_self_closing_element := fun s n => (n, s)
  process_lux_fragment := fun s n => (n, s)
  process_lux_child := fun s n => (n, s)
  process_lux_attribute := fun s n => (n, s)
  process_lux_attribute_value := fun s n => (n, s)

/-!
Modelled from the spec: the mutating walker (`NodeVisitorMut` /
`DefaultVisitorMut`, used by the rules but not among the extracted sources)
"shares the structural algorithm verbatim" with the read-only walker (§4.2)
and, after a hook rewrites the current node, "the walker then recurses into
the new variant" (§4.3).  Because a processor may grow the tree at every
hook, such a walk need not terminate; the model therefore takes a fuel
bound, decremented on entry of every visit function, and returns `none`
when the fuel runs out.  For any fuel of at least `sizeOf` of the visited
node, a non-growing processor's walk completes.
-/

mutual

/-- Mutating `visit_block`, following `NodeVisitor::visit_block` with
`&mut` hooks: hook on the block, statements in order, then the last
statement and the expressions of a `Return`. -/
def visit_block_mut {σ : Type} (p : NodeProcessorMut σ) :
    Nat → σ → Block → Option (Block × σ)
  | 0, _, _ => none
  | fuel+1, s, b =>
    match p.process_block s b with
    | (.mk statements lastStatement, s1) =>
      match visit_statement_list_mut p fuel s1 statements with
      | none => none
      | some (statements2, s2) =>
        match lastStatement with
        | none => some (.mk statements2 none, s2)
        | some last =>
          match p.process_last_statement s2 last with
          | (.breakStmt, s3) => some (.mk statements2 (some .breakStmt), s3)
          | (.returnStmt expressions, s3) =>
            match visit_expression_list_mut p fuel s3 expressions with
            | none => none
            | some (expressions4, s4) =>
              some (.mk statements2 (some (.returnStmt expressions4)), s4)

/-- Mutating iteration over a statement list. -/
def visit_statement_list_mut {σ : Type} (p : NodeProcessorMut σ) :
    Nat → σ → List Statement → Option (List Statement × σ)
  | 0, _, _ => none
  | _+1, s, [] => some ([], s)
  | fuel+1, s, st :: rest =>
    match visit_statement_mut p fuel s st with
    | none => none
    | some (st2, s2) =>
      match visit_statement_list_mut p fuel s2 rest with
      | none => none
      | some (rest3, s3) => some (st2 :: rest3, s3)

/-- Mutating iteration over an expression list. -/
def visit_expression_list_mut {σ : Type} (p : NodeProcessorMut σ) :
    Nat → σ → List Expression → Option (List Expression × σ)
  | 0, _, _ => none
  | _+1, s, [] => some ([], s)
  | fuel+1, s, e :: rest =>
    match visit_expression_mut p fuel s e with
    | none => none
    | some (e2, s2) =>
      match visit_expression_list_mut p fuel s2 rest with
      | none => none
      | some (rest3, s3) => some (e2 :: rest3, s3)

/-- Mutating `visit_statement`: generic hook first, then dispatch on the
(possibly rewritten) variant. -/
def visit_statement_mut {σ : Type} (p : NodeProcessorMut σ) :
    Nat → σ → Statement → Option (Statement × σ)
  | 0, _, _ => none
  | fuel+1, s, st =>
    match p.process_statement s st with
    | (.assign st1, s1) =>
      match visit_assign_statement_mut p fuel s1 st1 with
      | none => none
      | some (st2, s2) => some (.assign st2, s2)
    | (.doStmt st1, s1) =>
      match visit_do_statement_mut p fuel s1 st1 with
      | none => none
      | some (st2, s2) => some (.doStmt st2, s2)
    | (.call c1, s1) =>
      match visit_function_call_mut p fuel s1 c1 with
      | none => none
      | some (c2, s2) => some (.call c2, s2)
    | (.functionStmt st1, s1) =>
      match visit_function_statement_mut p fuel s1 st1 with
      | none => none
      | some (st2, s2) => some (.functionStmt st2, s2)
    | (.genericFor st1, s1) =>
      match visit_generic_for_mut p fuel s1 st1 with
      | none => none
      | some (st2, s2) => some (.genericFor st2, s2)
    | (.ifStmt st1, s1) =>
      match visit_if_statement_mut p fuel s1 st1 with
      | none => none
      | some (st2, s2) => some (.ifStmt st2, s2)
    | (.localAssign st1, s1) =>
      match visit_local_assign_mut p fuel s1 st1 with
      | none => none
      | some (st2, s2) => some (.localAssign st2, s2)
    | (.localFunction st1, s1) =>
      match visit_local_function_mut p fuel s1 st1 with
      | none => none
      | some (st2, s2) => some (.localFunction st2, s2)
    | (.numericFor st1, s1) =>
      match visit_numeric_for_mut p fuel s1 st1 with
      | none => none
      | some (st2, s2) => some (.numericFor st2, s2)
    | (.repeatStmt st1, s1) =>
      match visit_repeat_statement_mut p fuel s1 st1 with
      | none => none
      | some (st2, s2) => some (.repeatStmt st2, s2)
    | (.whileStmt st1, s1) =>
      match visit_while_statement_mut p fuel s1 st1 with
      | none => none
      | some (st2, s2) => some (.whileStmt st2, s2)

/-- Mutating `visit_expression`: generic hook first, then dispatch on the
(possibly rewritten) variant; the `Parenthese` arm recurses into the inner
expression with no parenthese hook. -/
def visit_expression_mut {σ : Type} (p : NodeProcessorMut σ) :
    Nat → σ → Expression → Option (Expression × σ)
  | 0, _, _ => none
  | fuel+1, s, e =>
    match p.process_expression s e with
    | (.nilExpr, s1) => some (.nilExpr, s1)
    | (.trueExpr, s1) => some (.trueExpr, s1)
    | (.falseExpr, s1) => some (.falseExpr, s1)
    | (.variableArguments, s1) => some (.variableArguments, s1)
    | (.number n1, s1) =>
      match p.process_number_expression s1 n1 with
      | (n2, s2) => some (.number n2, s2)
    | (.stringExpr str1, s1) =>
      match p.process_string_expression s1 str1 with
      | (str2, s2) => some (.stringExpr str2, s2)
    | (.identifier name1, s1) =>
      match p.process_variable_expression s1 name1 with
      | (name2, s2) => some (.identifier name2, s2)
    | (.binary b1, s1) =>
      match p.process_binary_expression s1 b1 with
      | (.mk op l r, s2) =>
        match visit_expression_mut p fuel s2 l with
        | none => none
        | some (l3, s3) =>
          match visit_expression_mut p fuel s3 r with
          | none => none
          | some (r4, s4) => some (.binary (.mk op l3 r4), s4)
    | (.unary u1, s1) =>
      match p.process_unary_expression s1 u1 with
      | (.mk op e1, s2) =>
        match visit_expression_mut p fuel s2 e1 with
        | none => none
        | some (e3, s3) => some (.unary (.mk op e3), s3)
    | (.parenthese e1, s1) =>
      match visit_expression_mut p fuel s1 e1 with
      | none => none
      | some (e2, s2) => some (.parenthese e2, s2)
    | (.functionExpr f1, s1) =>
      match visit_function_expression_mut p fuel s1 f1 with
      | none => none
      | some (f2, s2) => some (.functionExpr f2, s2)
    | (.call c1, s1) =>
      match visit_function_call_mut p fuel s1 c1 with
      | none => none
      | some (c2, s2) => some (.call c2, s2)
    | (.field f1, s1) =>
      match visit_field_expression_mut p fuel s1 f1 with
      | none => none
      | some (f2, s2) => some (.field f2, s2)
    | (.index i1, s1) =>
      match visit_index_expression_mut p fuel s1 i1 with
      | none => none
      | some (i2, s2) => some (.index i2, s2)
    | (.table t1, s1) =>
      match visit_table_mut p fuel s1 t1 with
      | none => none
      | some (t2, s2) => some (.table t2, s2)
    | (.lux l1, s1) =>
      match visit_lux_expression_mut p fuel s1 l1 with
      | none => none
      | some (l2, s2) => some (.lux l2, s2)

/-- Mutating `visit_function_expression`. -/
def visit_function_expression_mut {σ : Type} (p : NodeProcessorMut σ) :
    Nat → σ → FunctionExpression → Option (FunctionExpression × σ)
  | 0, _, _ => none
  | fuel+1, s, f =>
    match p.process_function_expression s f with
    | (.mk parameters isVariadic block, s1) =>
      match visit_block_mut p fuel s1 block with
      | none => none
      | some (block2, s2) => some (.mk parameters isVariadic block2, s2)

/-- Mutating `visit_assign_statement`: hook, variables, values. -/
def visit_assign_statement_mut {σ : Type} (p : NodeProcessorMut σ) :
    Nat → σ → AssignStatement → Option (AssignStatement × σ)
  | 0, _, _ => none
  | fuel+1, s, st =>
    match p.process_assign_statement s st with
    | (.mk vars values, s1) =>
      match visit_variable_list_mut p fuel s1 vars with
      | none => none
      | some (vars2, s2) =>
        match visit_expression_list_mut p fuel s2 values with
        | none => none
        | some (values3, s3) => some (.mk vars2 values3, s3)

/-- Mutating variable dispatch. -/
def visit_variable_mut {σ : Type} (p : NodeProcessorMut σ) :
    Nat → σ → Variable → Option (Variable × σ)
  | 0, _, _ => none
  | fuel+1, s, v =>
    match v with
    | .identifier name =>
      match p.process_variable_expression s name with
      | (name2, s2) => some (.identifier name2, s2)
    | .field f =>
      match visit_field_expression_mut p fuel s f with
      | none => none
      | some (f2, s2) => some (.field f2, s2)
    | .index i =>
      match visit_index_expression_mut p fuel s i with
      | none => none
      | some (i2, s2) => some (.index i2, s2)

/-- Mutating iteration over assignment variables. -/
def visit_variable_list_mut {σ : Type} (p : NodeProcessorMut σ) :
    Nat → σ → List Variable → Option (List Variable × σ)
  | 0, _, _ => none
  | _+1, s, [] => some ([], s)
  | fuel+1, s, v :: rest =>
    match visit_variable_mut p fuel s v with
    | none => none
    | some (v2, s2) =>
      match visit_variable_list_mut p fuel s2 rest with
      | none => none
      | some (rest3, s3) => some (v2 :: rest3, s3)

/-- Mutating `visit_do_statement`. -/
def visit_do_statement_mut {σ : Type} (p : NodeProcessorMut σ) :
    Nat → σ → DoStatement → Option (DoStatement × σ)
  | 0, _, _ => none
  | fuel+1, s, st =>
    match p.process_do_statement s st with
    | (.mk block, s1) =>
      match visit_block_mut p fuel s1 block with
      | none => none
      | some (block2, s2) => some (.mk block2, s2)

/-- Mutating `visit_function_statement`: hook, name identifier, body. -/
def visit_function_statement_mut {σ : Type} (p : NodeProcessorMut σ) :
    Nat → σ → FunctionStatement → Option (FunctionStatement × σ)
  | 0, _, _ => none
  | fuel+1, s, st =>
    match p.process_function_statement s st with
    | (.mk name parameters block, s1) =>
      match p.process_variable_expression s1 name with
      | (name2, s2) =>
        match visit_block_mut p fuel s2 block with
        | none => none
        | some (block3, s3) => some (.mk name2 parameters block3, s3)

/-- Mutating `visit_generic_for`. -/
def visit_generic_for_mut {σ : Type} (p : NodeProcessorMut σ) :
    Nat → σ → GenericForStatement → Option (GenericForStatement × σ)
  | 0, _, _ => none
  | fuel+1, s, st =>
    match p.process_generic_for_statement s st with
    | (.mk identifiers expressions block, s1) =>
      match visit_expression_list_mut p fuel s1 expressions with
      | none => none
      | some (expressions2, s2) =>
        match visit_block_mut p fuel s2 block with
        | none => none
        | some (block3, s3) => some (.mk identifiers expressions2 block3, s3)

/-- Mutating `visit_if_statement`. -/
def visit_if_statement_mut {σ : Type} (p : NodeProcessorMut σ) :
    Nat → σ → IfStatement → Option (IfStatement × σ)
  | 0, _, _ => none
  | fuel+1, s, st =>
    match p.process_if_statement s st with
    | (.mk branches elseBlock, s1) =>
      match visit_branch_list_mut p fuel s1 branches with
      | none => none
      | some (branches2, s2) =>
        match elseBlock with
        | none => some (.mk branches2 none, s2)
        | some block =>
          match visit_block_mut p fuel s2 block with
          | none => none
          | some (block3, s3) => some (.mk branches2 (some block3), s3)

/-- Mutating iteration over `if` branches: condition then block. -/
def visit_branch_list_mut {σ : Type} (p : NodeProcessorMut σ) :
    Nat → σ → List IfBranch → Option (List IfBranch × σ)
  | 0, _, _ => none
  | _+1, s, [] => some ([], s)
  | fuel+1, s, .mk condition block :: rest =>
    match visit_expression_mut p fuel s condition with
    | none => none
    | some (condition2, s2) =>
      match visit_block_mut p fuel s2 block with
      | none => none
      | some (block3, s3) =>
        match visit_branch_list_mut p fuel s3 rest with
        | none => none
        | some (rest4, s4) => some (.mk condition2 block3 :: rest4, s4)

/-- Mutating `visit_local_assign`: hook, then values only. -/
def visit_local_assign_mut {σ : Type} (p : NodeProcessorMut σ) :
    Nat → σ → LocalAssignStatement → Option (LocalAssignStatement × σ)
  | 0, _, _ => none
  | fuel+1, s, st =>
    match p.process_local_assign_statement s st with
    | (.mk vars values tokens, s1) =>
      match visit_expression_list_mut p fuel s1 values with
      | none => none
      | some (values2, s2) => some (.mk vars values2 tokens, s2)

/-- Mutating `visit_local_function`. -/
def visit_local_function_mut {σ : Type} (p : NodeProcessorMut σ) :
    Nat → σ → LocalFunctionStatement → Option (LocalFunctionStatement × σ)
  | 0, _, _ => none
  | fuel+1, s, st =>
    match p.process_local_function_statement s st with
    | (.mk name parameters block, s1) =>
      match visit_block_mut p fuel s1 block with
      | none => none
      | some (block2, s2) => some (.mk name parameters block2, s2)

/-- Mutating `visit_numeric_for`. -/
def visit_numeric_for_mut {σ : Type} (p : NodeProcessorMut σ) :
    Nat → σ → NumericForStatement → Option (NumericForStatement × σ)
  | 0, _, _ => none
  | fuel+1, s, st =>
    match p.process_numeric_for_statement s st with
    | (.mk identifier startExpr endExpr stepExpr block, s1) =>
      match visit_expression_mut p fuel s1 startExpr with
      | none => none
      | some (startExpr2, s2) =>
        match visit_expression_mut p fuel s2 endExpr with
        | none => none
        | some (endExpr3, s3) =>
          match (match stepExpr with
                 | none => some (none, s3)
                 | some step =>
                   match visit_expression_mut p fuel s3 step with
                   | none => none
                   | some (step4, s4) => some (some step4, s4)) with
          | none => none
          | some (stepExpr4, s4) =>
            match visit_block_mut p fuel s4 block with
            | none => none
            | some (block5, s5) =>
              some (.mk identifier startExpr2 endExpr3 stepExpr4 block5, s5)

/-- Mutating `visit_repeat_statement`: condition then body. -/
def visit_repeat_statement_mut {σ : Type} (p : NodeProcessorMut σ) :
    Nat → σ → RepeatStatement → Option (RepeatStatement × σ)
  | 0, _, _ => none
  | fuel+1, s, st =>
    match p.process_repeat_statement s st with
    | (.mk block condition, s1) =>
      match visit_expression_mut p fuel s1 condition with
      | none => none
      | some (condition2, s2) =>
        match visit_block_mut p fuel s2 block with
        | none => none
        | some (block3, s3) => some (.mk block3 condition2, s3)

/-- Mutating `visit_while_statement`: condition then body. -/
def visit_while_statement_mut {σ : Type} (p : NodeProcessorMut σ) :
    Nat → σ → WhileStatement → Option (WhileStatement × σ)
  | 0, _, _ => none
  | fuel+1, s, st =>
    match p.process_while_statement s st with
    | (.mk block condition, s1) =>
      match visit_expression_mut p fuel s1 condition with
      | none => none
      | some (condition2, s2) =>
        match visit_block_mut p fuel s2 block with
        | none => none
        | some (block3, s3) => some (.mk block3 condition2, s3)

/-- Mutating `visit_field_expression`. -/
def visit_field_expression_mut {σ : Type} (p : NodeProcessorMut σ) :
    Nat → σ → FieldExpression → Option (FieldExpression × σ)
  | 0, _, _ => none
  | fuel+1, s, f =>
    match p.process_field_expression s f with
    | (.mk fieldPrefix field, s1) =>
      match visit_prefix_expression_mut p fuel s1 fieldPrefix with
      | none => none
      | some (fieldPrefix2, s2) => some (.mk fieldPrefix2 field, s2)

/-- Mutating `visit_index_expression`. -/
def visit_index_expression_mut {σ : Type} (p : NodeProcessorMut σ) :
    Nat → σ → IndexExpression → Option (IndexExpression × σ)
  | 0, _, _ => none
  | fuel+1, s, i =>
    match p.process_index_expression s i with
    | (.mk indexPrefix index, s1) =>
      match visit_prefix_expression_mut p fuel s1 indexPrefix with
      | none => none
      | some (indexPrefix2, s2) =>
        match visit_expression_mut p fuel s2 index with
        | none => none
        | some (index3, s3) => some (.mk indexPrefix2 index3, s3)

/-- Mutating `visit_function_call`: hook, prefix, arguments. -/
def visit_function_call_mut {σ : Type} (p : NodeProcessorMut σ) :
    Nat → σ → FunctionCall → Option (FunctionCall × σ)
  | 0, _, _ => none
  | fuel+1, s, c =>
    match p.process_function_call s c with
    | (.mk callPrefix arguments method, s1) =>
      match visit_prefix_expression_mut p fuel s1 callPrefix with
      | none => none
      | some (callPrefix2, s2) =>
        match visit_arguments_mut p fuel s2 arguments with
        | none => none
        | some (arguments3, s3) => some (.mk callPrefix2 arguments3 method, s3)

/-- Mutating `visit_arguments`. -/
def visit_arguments_mut {σ : Type} (p : NodeProcessorMut σ) :
    Nat → σ → Arguments → Option (Arguments × σ)
  | 0, _, _ => none
  | fuel+1, s, a =>
    match a with
    | .string str =>
      match p.process_string_expression s str with
      | (str2, s2) => some (.string str2, s2)
    | .table t =>
      match visit_table_mut p fuel s t with
      | none => none
      | some (t2, s2) => some (.table t2, s2)
    | .tuple expressions =>
      match visit_expression_list_mut p fuel s expressions with
      | none => none
      | some (expressions2, s2) => some (.tuple expressions2, s2)

/-- Mutating `visit_table`. -/
def visit_table_mut {σ : Type} (p : NodeProcessorMut σ) :
    Nat → σ → TableExpression → Option (TableExpression × σ)
  | 0, _, _ => none
  | fuel+1, s, t =>
    match p.process_table_expression s t with
    | (.mk entries, s1) =>
      match visit_table_entry_list_mut p fuel s1 entries with
      | none => none
      | some (entries2, s2) => some (.mk entries2, s2)

/-- Mutating table-entry dispatch. -/
def visit_table_entry_mut {σ : Type} (p : NodeProcessorMut σ) :
    Nat → σ → TableEntry → Option (TableEntry × σ)
  | 0, _, _ => none
  | fuel+1, s, entry =>
    match entry with
    | .fieldEntry name value =>
      match visit_expression_mut p fuel s value with
      | none => none
      | some (value2, s2) => some (.fieldEntry name value2, s2)
    | .indexEntry key value =>
      match visit_expression_mut p fuel s key with
      | none => none
      | some (key2, s2) =>
        match visit_expression_mut p fuel s2 value with
        | none => none
        | some (value3, s3) => some (.indexEntry key2 value3, s3)
    | .valueEntry value =>
      match visit_expression_mut p fuel s value with
      | none => none
      | some (value2, s2) => some (.valueEntry value2, s2)

/-- Mutating iteration over table entries. -/
def visit_table_entry_list_mut {σ : Type} (p : NodeProcessorMut σ) :
    Nat → σ → List TableEntry → Option (List TableEntry × σ)
  | 0, _, _ => none
  | _+1, s, [] => some ([], s)
  | fuel+1, s, entry :: rest =>
    match visit_table_entry_mut p fuel s entry with
    | none => none
    | some (entry2, s2) =>
      match visit_table_entry_list_mut p fuel s2 rest with
      | none => none
      | some (rest3, s3) => some (entry2 :: rest3, s3)

/-- Mutating `visit_prefix_expression`: hook, then dispatch on the
(possibly rewritten) variant. -/
def visit_prefix_expression_mut {σ : Type} (p : NodeProcessorMut σ) :
    Nat → σ → Prefix → Option (Prefix × σ)
  | 0, _, _ => none
  | fuel+1, s, pfx =>
    match p.process_prefix_expression s pfx with
    | (.identifier name, s1) =>
      match p.process_variable_expression s1 name with
      | (name2, s2) => some (.identifier name2, s2)
    | (.call c1, s1) =>
      match visit_function_call_mut p fuel s1 c1 with
      | none => none
      | some (c2, s2) => some (.call c2, s2)
    | (.field f1, s1) =>
      match visit_field_expression_mut p fuel s1 f1 with
      | none => none
      | some (f2, s2) => some (.field f2, s2)
    | (.index i1, s1) =>
      match visit_index_expression_mut p fuel s1 i1 with
      | none => none
      | some (i2, s2) => some (.index i2, s2)
    | (.parenthese e1, s1) =>
      match visit_expression_mut p fuel s1 e1 with
      | none => none
      | some (e2, s2) => some (.parenthese e2, s2)

/-- Mutating `visit_lux_expression`. -/
def visit_lux_expression_mut {σ : Type} (p : NodeProcessorMut σ) :
    Nat → σ → LUXExpression → Option (LUXExpression × σ)
  | 0, _, _ => none
  | fuel+1, s, l =>
    match p.process_lux_expression s l with
    | (.luxElement e1, s1) =>
      match visit_lux_element_mut p fuel s1 e1 with
      | none => none
      | some (e2, s2) => some (.luxElement e2, s2)
    | (.luxFragment f1, s1) =>
      match visit_lux_fragment_mut p fuel s1 f1 with
      | none => none
      | some (f2, s2) => some (.luxFragment f2, s2)

/-- Mutating `visit_lux_element`. -/
def visit_lux_element_mut {σ : Type} (p : NodeProcessorMut σ) :
    Nat → σ → LUXElement → Option (LUXElement × σ)
  | 0, _, _ => none
  | fuel+1, s, e =>
    match p.process_lux_element s e with
    | (.element e1, s1) =>
      match p.process_lux_open_close_element s1 e1 with
      | (.mk name attributes children, s2) =>
        match visit_lux_attribute_list_mut p fuel s2 attributes with
        | none => none
        | some (attributes3, s3) =>
          match visit_lux_child_list_mut p fuel s3 children with
          | none => none
          | some (children4, s4) =>
            some (.element (.mk name attributes3 children4), s4)
    | (.selfClosingElement e1, s1) =>
      match p.process_lux_self_closing_element s1 e1 with
      | (.mk name attributes, s2) =>
        match visit_lux_attribute_list_mut p fuel s2 attributes with
        | none => none
        | some (attributes3, s3) => some (.selfClosingElement (.mk name attributes3), s3)

/-- Mutating `visit_lux_fragment`. -/
def visit_lux_fragment_mut {σ : Type} (p : NodeProcessorMut σ) :
    Nat → σ → LUXFragment → Option (LUXFragment × σ)
  | 0, _, _ => none
  | fuel+1, s, f =>
    match p.process_lux_fragment s f with
    | (.mk children, s1) =>
      match visit_lux_child_list_mut p fuel s1 children with
      | none => none
      | some (children2, s2) => some (.mk children2, s2)

/-- Mutating children loop: `process_lux_child` on each child and then
`visit_lux_child` on the (possibly rewritten) child. -/
def visit_lux_child_list_mut {σ : Type} (p : NodeProcessorMut σ) :
    Nat → σ → List LUXChild → Option (List LUXChild × σ)
  | 0, _, _ => none
  | _+1, s, [] => some ([], s)
  | fuel+1, s, child :: rest =>
    match p.process_lux_child s child with
    | (child1, s1) =>
      match visit_lux_child_mut p fuel s1 child1 with
      | none => none
      | some (child2, s2) =>
        match visit_lux_child_list_mut p fuel s2 rest with
        | none => none
        | some (rest3, s3) => some (child2 :: rest3, s3)

/-- Mutating `visit_lux_child`: its own `process_lux_child` first, then
dispatch on the (possibly rewritten) variant. -/
def visit_lux_child_mut {σ : Type} (p : NodeProcessorMut σ) :
    Nat → σ → LUXChild → Option (LUXChild × σ)
  | 0, _, _ => none
  | fuel+1, s, child =>
    match p.process_lux_child s child with
    | (.childElement e1, s1) =>
      match visit_lux_element_mut p fuel s1 e1 with
      | none => none
      | some (e2, s2) => some (.childElement e2, s2)
    | (.childFragment f1, s1) =>
      match visit_lux_fragment_mut p fuel s1 f1 with
      | none => none
      | some (f2, s2) => some (.childFragment f2, s2)
    | (.expandedExpression e1, s1) =>
      match visit_expression_mut p fuel s1 e1 with
      | none => none
      | some (e2, s2) => some (.expandedExpression e2, s2)
    | (.expression none, s1) => some (.expression none, s1)
    | (.expression (some e1), s1) =>
      match visit_expression_mut p fuel s1 e1 with
      | none => none
      | some (e2, s2) => some (.expression (some e2), s2)

/-- Mutating iteration over markup attributes. -/
def visit_lux_attribute_list_mut {σ : Type} (p : NodeProcessorMut σ) :
    Nat → σ → List LUXAttribute → Option (List LUXAttribute × σ)
  | 0, _, _ => none
  | _+1, s, [] => some ([], s)
  | fuel+1, s, a :: rest =>
    match visit_lux_attribute_mut p fuel s a with
    | none => none
    | some (a2, s2) =>
      match visit_lux_attribute_list_mut p fuel s2 rest with
      | none => none
      | some (rest3, s3) => some (a2 :: rest3, s3)

/-- Mutating `visit_lux_attribute`. -/
def visit_lux_attribute_mut {σ : Type} (p : NodeProcessorMut σ) :
    Nat → σ → LUXAttribute → Option (LUXAttribute × σ)
  | 0, _, _ => none
  | fuel+1, s, a =>
    match p.process_lux_attribute s a with
    | (.named name none, s1) => some (.named name none, s1)
    | (.named name (some value), s1) =>
      match visit_lux_attribute_value_mut p fuel s1 value with
      | none => none
      | some (value2, s2) => some (.named name (some value2), s2)
    | (.spread e1, s1) =>
      match visit_expression_mut p fuel s1 e1 with
      | none => none
      | some (e2, s2) => some (.spread e2, s2)

/-- Mutating `visit_lux_attribute_value`. -/
def visit_lux_attribute_value_mut {σ : Type} (p : NodeProcessorMut σ) :
    Nat → σ → LUXAttributeValue → Option (LUXAttributeValue × σ)
  | 0, _, _ => none
  | fuel+1, s, v =>
    match p.process_lux_attribute_value s v with
    | (.doubleQuoteString str, s1) => some (.doubleQuoteString str, s1)
    | (.singleQuoteString str, s1) => some (.singleQuoteString str, s1)
    | (.luaExpression e1, s1) =>
      match visit_expression_mut p fuel s1 e1 with
      | none => none
      | some (e2, s2) => some (.luaExpression e2, s2)
    | (.luxElementValue e1, s1) =>
      match visit_lux_element_mut p fuel s1 e1 with
      | none => none
      | some (e2, s2) => some (.luxElementValue e2, s2)
    | (.luxFragmentValue f1, s1) =>
      match visit_lux_fragment_mut p fuel s1 f1 with
      | none => none
      | some (f2, s2) => some (.luxFragmentValue f2, s2)

end

/-- A concrete block with trivia (a local assignment carrying comment and
whitespace tokens), a parenthese expression and a return statement. -/
def C2Block : Block :=
  .mk
    [ .localAssign (.mk [ .mk "x" (some (.mk ["comment"] [" "])) ]
        [ .parenthese .trueExpr ]
        (some (.mk (.mk [] [" "]) none [] []))) ]
    (some (.returnStmt [ .identifier "x" ]))


/-- A concrete block holding one parenthese expression (as a call argument):
`f((nil))`. -/
def parentheseExample : Block :=
  .mk [ .call (.mk (.identifier "f") (.tuple [ .parenthese .nilExpr ]) none) ] none

/-- A concrete block holding one markup child (a fragment with one empty
expression child) as a call argument. -/
def luxChildExample : Block :=
  .mk [ .call (.mk (.identifier "f")
    (.tuple [ .lux (.luxFragment (.mk [ .expression none ])) ]) none) ] none

/-- A concrete block holding one function statement `function f() end`. -/
def functionStatementExample : Block :=
  .mk [ .functionStmt (.mk "f" [] (.mk [] none)) ] none

/-- The `process_function_call` hook of the `remove_function_call_parens`
processor (`src/rules/call_parens.rs` lines 11-36): when the arguments are
a one-element tuple holding a string or a table, the arguments slot is
replaced with the corresponding `String`/`Table` variant (the element is
stolen by `mem::swap` and the whole slot overwritten); otherwise the call
is left untouched. -/
def RemoveFunctionCallParens.process_function_call (call : FunctionCall) : FunctionCall :=
  match call with
  | .mk callPrefix arguments method =>
    let new_arguments : Option Arguments :=
      match arguments with
      | .tuple expressions =>
        if expressions.length = 1 then
          match expressions.head? with
          | some (.stringExpr str) => some (.string str)
          | some (.table t) => some (.table t)
          | _ => none
        else none
      | _ => none
    match new_arguments with
    | some na => .mk callPrefix na method
    | none => .mk callPrefix arguments method

/-- `RobloxLocation` (`src/rules/mod.rs` lines 43-48); `PathBuf` payloads
are modelled as strings. -/
inductive RobloxLocation where
  | service (service : String) (path : String)
  | relativeToLibrary (relativePath : String)

/-- `ResolverConfig` (mod.rs lines 50-58). -/
inductive ResolverConfig where
  | robloxLibrary (libraryRoot : String) (externalDependencies : RobloxLocation)

/-- `RulePropertyValue` (mod.rs lines 62-72): the weakly-typed property
values a rule configuration may carry. -/
inductive RulePropertyValue where
  | boolean (b : Bool)
  | string (s : String)
  | usize (n : Nat)
  | float (x : Float)
  | stringList (l : List String)
  | resolver (r : ResolverConfig)
  | none

/-- The serde-level errors surfaced by rule deserialization:
`duplicate_field`, `missing_field`, `custom`, and a type mismatch for a
non-string `"rule"` value. -/
inductive DeError where
  | duplicateField (name : String)
  | missingField (name : String)
  | custom (msg : String)
  | invalidType

/-- Modelled from the spec: a configured rule is identified by its stable
name together with the map of its non-default property values (§4.4:
`get_name` / `serialize_to_properties`).  The Rust side stores the map in a
`HashMap`; here it is an association list, canonical when key-sorted. -/
structure RuleInstance where
  name : String
  props : List (String × RulePropertyValue)

/-- Key order on property entries. -/
def keyLE (a b : String × RulePropertyValue) : Prop := a.1 ≤ b.1

instance : DecidableRel keyLE := fun a b => inferInstanceAs (Decidable (a.1 ≤ b.1))

instance : IsTotal (String × RulePropertyValue) keyLE := ⟨fun a b => le_total a.1 b.1⟩

instance : IsTrans (String × RulePropertyValue) keyLE := ⟨fun _ _ _ => le_trans⟩

/-- `ordered.sort_by(|a, b| a.0.cmp(&b.0))` (mod.rs line 259): a stable
sort of the property entries by key.  Stable sorts under a fixed comparator
agree, so the sort is realized as an insertion sort. -/
def sortByKey (props : List (String × RulePropertyValue)) :
    List (String × RulePropertyValue) :=
  List.insertionSort keyLE props

/-- A serialized rule document value: the bare name string or the map form.
The serde representation is untagged, so the `"rule"` entry's name is
itself a string property value. -/
inductive ConfigValue where
  | str (s : String)
  | map (entries : List (String × RulePropertyValue))

/-- `impl Serialize for Box<dyn Rule>` (mod.rs lines 244-268): a rule with
no non-default properties serializes as the bare name; otherwise as a map
with the `"rule"` entry first and the properties in ascending key order. -/
def serializeRule (r : RuleInstance) : ConfigValue :=
  if r.props.isEmpty then .str r.name
  else .map (("rule", .string r.name) :: sortByKey r.props)

/-- Modelled from the spec: the rule-name constant of `compute_expression`
(registry §4.4; the constant's defining source file is not extracted). -/
def COMPUTE_EXPRESSIONS_RULE_NAME : String := "compute_expression"

/-- Modelled from the spec: the rule-name constant of
`convert_index_to_field`. -/
def CONVERT_INDEX_TO_FIELD_RULE_NAME : String := "convert_index_to_field"

/-- Modelled from the spec: the rule-name constant of
`convert_local_function_to_assign`. -/
def CONVERT_LOCAL_FUNCTION_TO_ASSIGN_RULE_NAME : String :=
  "convert_local_function_to_assign"

/-- Modelled from the spec: the rule-name constant of
`group_local_assignment` (the source constant has no `_RULE_NAME`
suffix). -/
def GROUP_LOCAL_ASSIGNMENT : String := "group_local_assignment"

/-- Modelled from the spec: the rule-name constant of
`inject_global_value` (registry entry `INJECT_GLOBAL_VALUE_RULE_NAME`). -/
def INJECT_GLOBAL_VALUE_RULE_NAME : String := "inject_global_value"

/-- Modelled from the spec: the rule-name constant of `remove_comments`. -/
def REMOVE_COMMENTS_RULE_NAME : String := "remove_comments"

/-- Modelled from the spec: the rule-name constant of `remove_empty_do`. -/
def REMOVE_EMPTY_DO_RULE_NAME : String := "remove_empty_do"

/-- `REMOVE_FUNCTION_CALL_PARENS` from `src/rules/call_parens.rs` line 39. -/
def REMOVE_FUNCTION_CALL_PARENS : String := "remove_function_call_parens"

/-- Modelled from the spec: the rule-name constant of
`remove_method_definition`. -/
def REMOVE_METHOD_DEFINITION_RULE_NAME : String := "remove_method_definition"

/-- Modelled from the spec: the rule-name constant of `remove_spaces`. -/
def REMOVE_SPACES_RULE_NAME : String := "remove_spaces"

/-- Modelled from the spec: the rule-name constant of
`remove_unused_if_branch`. -/
def REMOVE_UNUSED_IF_BRANCH_RULE_NAME : String := "remove_unused_if_branch"

/-- Modelled from the spec: the rule-name constant of
`remove_unused_while`. -/
def REMOVE_UNUSED_WHILE_RULE_NAME : String := "remove_unused_while"

/-- Modelled from the spec: the rule-name constant of `rename_variables`. -/
def RENAME_VARIABLES_RULE_NAME : String := "rename_variables"

/-- The default-configured rule of a given name: its property map is empty
(`serialize_to_properties` returns only non-default values, §4.4). -/
def defaultRule (name : String) : RuleInstance := ⟨name, []⟩

/-- The fixed set of rule names known to `FromStr` (mod.rs lines 221-237),
in the order of the match arms. -/
def knownRuleNames : List String :=
  [COMPUTE_EXPRESSIONS_RULE_NAME,
   CONVERT_INDEX_TO_FIELD_RULE_NAME,
   CONVERT_LOCAL_FUNCTION_TO_ASSIGN_RULE_NAME,
   GROUP_LOCAL_ASSIGNMENT,
   INJECT_GLOBAL_VALUE_RULE_NAME,
   REMOVE_COMMENTS_RULE_NAME,
   REMOVE_EMPTY_DO_RULE_NAME,
   REMOVE_FUNCTION_CALL_PARENS,
   REMOVE_METHOD_DEFINITION_RULE_NAME,
   REMOVE_SPACES_RULE_NAME,
   REMOVE_UNUSED_IF_BRANCH_RULE_NAME,
   REMOVE_UNUSED_WHILE_RULE_NAME,
   RENAME_VARIABLES_RULE_NAME]

/-- `impl FromStr for Box<dyn Rule>` (mod.rs lines 217-242): each known
name constructs the default rule of that name; any other string yields
`format!("invalid rule name: {}", string)`. -/
def ruleFromStr (s : String) : Except String RuleInstance :=
  if s = COMPUTE_EXPRESSIONS_RULE_NAME then .ok (defaultRule COMPUTE_EXPRESSIONS_RULE_NAME)
  else if s = CONVERT_INDEX_TO_FIELD_RULE_NAME then
    .ok (defaultRule CONVERT_INDEX_TO_FIELD_RULE_NAME)
  else if s = CONVERT_LOCAL_FUNCTION_TO_ASSIGN_RULE_NAME then
    .ok (defaultRule CONVERT_LOCAL_FUNCTION_TO_ASSIGN_RULE_NAME)
  else if s = GROUP_LOCAL_ASSIGNMENT then .ok (defaultRule GROUP_LOCAL_ASSIGNMENT)
  else if s = INJECT_GLOBAL_VALUE_RULE_NAME then
    .ok (defaultRule INJECT_GLOBAL_VALUE_RULE_NAME)
  else if s = REMOVE_COMMENTS_RULE_NAME then .ok (defaultRule REMOVE_COMMENTS_RULE_NAME)
  else if s = REMOVE_EMPTY_DO_RULE_NAME then .ok (defaultRule REMOVE_EMPTY_DO_RULE_NAME)
  else if s = REMOVE_FUNCTION_CALL_PARENS then .ok (defaultRule REMOVE_FUNCTION_CALL_PARENS)
  else if s = REMOVE_METHOD_DEFINITION_RULE_NAME then
    .ok (defaultRule REMOVE_METHOD_DEFINITION_RULE_NAME)
  else if s = REMOVE_SPACES_RULE_NAME then .ok (defaultRule REMOVE_SPACES_RULE_NAME)
  else if s = REMOVE_UNUSED_IF_BRANCH_RULE_NAME then
    .ok (defaultRule REMOVE_UNUSED_IF_BRANCH_RULE_NAME)
  else if s = REMOVE_UNUSED_WHILE_RULE_NAME then
    .ok (defaultRule REMOVE_UNUSED_WHILE_RULE_NAME)
  else if s = RENAME_VARIABLES_RULE_NAME then .ok (defaultRule RENAME_VARIABLES_RULE_NAME)
  else .error ("invalid rule name: " ++ s)

/-- Modelled from the spec: `configure` installs the given (valid) property
map as the rule's non-default configuration (§4.4); the map is stored in
canonical key-sorted form.  Per-rule validity checking is not modelled: the
round-trip law only exercises `configure` on maps produced by
`serialize_to_properties`, which satisfy the §4.4 contract. -/
def configureRule (r : RuleInstance) (props : List (String × RulePropertyValue)) :
    RuleInstance :=
  ⟨r.name, sortByKey props⟩

/-- The `visit_map` loop of rule deserialization (mod.rs lines 293-332):
iterate the entries; a `"rule"` key must carry a string and may be set only
once (`duplicate_field("rule")` otherwise), any other key is collected as a
property, and inserting a property that is already present produces the
custom duplicate-field error. -/
def visitMapEntries :
    Option String → List (String × RulePropertyValue) →
    List (String × RulePropertyValue) →
    Except DeError (String × List (String × RulePropertyValue))
  | ruleName, props, [] =>
    match ruleName with
    | some n => .ok (n, props)
    | Option.none => .error (.missingField "rule")
  | ruleName, props, (key, value) :: rest =>
    if key = "rule" then
      match ruleName with
      | Option.none =>
        match value with
        | .string s => visitMapEntries (some s) props rest
        | _ => .error .invalidType
      | some _ => .error (.duplicateField "rule")
    else
      if (props.lookup key).isSome then
        .error (.custom ("duplicate field " ++ key ++ " in rule object"))
      else
        visitMapEntries ruleName (props ++ [(key, value)]) rest

/-- `impl Deserialize for Box<dyn Rule>` (mod.rs lines 270-337): a string
goes through `FromStr` and `configure` with an empty property set; a map
goes through the `visit_map` loop, then `FromStr` on the collected name and
`configure` with the collected properties.  `FromStr` errors surface as
custom serde errors. -/
def deserializeRule : ConfigValue → Except DeError RuleInstance
  | .str s =>
    match ruleFromStr s with
    | .error e => .error (.custom e)
    | .ok r => .ok (configureRule r [])
  | .map entries =>
    match visitMapEntries Option.none [] entries with
    | .error e => .error e
    | .ok (ruleName, props) =>
      match ruleFromStr ruleName with
      | .error e => .error (.custom e)
      | .ok r => .ok (configureRule r props)

/-- `get_default_rules` (mod.rs lines 200-215): the default rule stack, in
source order. -/
def get_default_rules : List RuleInstance :=
  [defaultRule REMOVE_SPACES_RULE_NAME,
   defaultRule REMOVE_COMMENTS_RULE_NAME,
   defaultRule COMPUTE_EXPRESSIONS_RULE_NAME,
   defaultRule REMOVE_UNUSED_IF_BRANCH_RULE_NAME,
   defaultRule REMOVE_UNUSED_WHILE_RULE_NAME,
   defaultRule REMOVE_EMPTY_DO_RULE_NAME,
   defaultRule REMOVE_METHOD_DEFINITION_RULE_NAME,
   defaultRule CONVERT_INDEX_TO_FIELD_RULE_NAME,
   defaultRule CONVERT_LOCAL_FUNCTION_TO_ASSIGN_RULE_NAME,
   defaultRule GROUP_LOCAL_ASSIGNMENT,
   defaultRule RENAME_VARIABLES_RULE_NAME,
   defaultRule REMOVE_FUNCTION_CALL_PARENS]

/-- A rule configuration used to exhibit key sorting. -/
def C8Rule : RuleInstance :=
  ⟨"rename_variables", [("b", RulePropertyValue.none), ("a", RulePropertyValue.none)]⟩

/-- `LocalAssignStatement::for_each_assignment` (local_assign.rs lines
95-103): the values iterator is advanced once per variable, so the callback
receives each variable in order paired with the next remaining value, if
any. -/
def for_each_assignment_pairs :
    List Identifier → List Expression → List (Identifier × Option Expression)
  | [], _ => []
  | v :: vs, values => (v, values.head?) :: for_each_assignment_pairs vs values.tail

/-- `get_variables` (local_assign.rs lines 105-107). -/
def LocalAssignStatement.get_variables : LocalAssignStatement → List Identifier
  | .mk vars _ _ => vars

/-- `get_values` (local_assign.rs lines 125-127). -/
def LocalAssignStatement.get_values : LocalAssignStatement → List Expression
  | .mk _ values _ => values

/-- `for_each_assignment` as the list of pairs passed to the callback. -/
def LocalAssignStatement.for_each_assignment (s : LocalAssignStatement) :
    List (Identifier × Option Expression) :=
  for_each_assignment_pairs s.get_variables s.get_values

/-- `value_count` (local_assign.rs lines 155-157). -/
def LocalAssignStatement.value_count (s : LocalAssignStatement) : Nat :=
  s.get_values.length

/-- `variable_count` (local_assign.rs lines 160-162). -/
def LocalAssignStatement.variable_count (s : LocalAssignStatement) : Nat :=
  s.get_variables.length

/-- `has_values` (local_assign.rs lines 165-167). -/
def LocalAssignStatement.has_values (s : LocalAssignStatement) : Bool :=
  !s.get_values.isEmpty

/-- `Block::get_statements`. -/
def Block.get_statements : Block → List Statement
  | .mk statements _ => statements

/-- `Block::get_last_statement`. -/
def Block.get_last_statement : Block → Option LastStatement
  | .mk _ lastStatement => lastStatement

/-- The `while i != self.statements.len()` loop of
`Block::filter_statements` (block.rs lines 42-52): the callback may mutate
the statement in place and thread state; on `true` the index advances, on
`false` the statement is removed at the current index. -/
def filterStatementsLoop {σ : Type} (f : σ → Statement → Statement × Bool × σ)
    (s : σ) (stmts : List Statement) (i : Nat) : List Statement × σ :=
  match h : stmts[i]? with
  | Option.none => (stmts, s)
  | some st =>
    match f s st with
    | (st2, keep, s2) =>
      if keep then filterStatementsLoop f s2 (stmts.set i st2) (i + 1)
      else filterStatementsLoop f s2 ((stmts.set i st2).eraseIdx i) i
termination_by stmts.length - i
decreasing_by
· have hi : i < stmts.length := by
    by_contra hge
    rw [List.getElem?_eq_none (by omega)] at h
    exact Option.noConfusion h
  simp only [List.length_set]
  omega
· have hi : i < stmts.length := by
    by_contra hge
    rw [List.getElem?_eq_none (by omega)] at h
    exact Option.noConfusion h
  simp [List.length_eraseIdx, List.length_set, hi]
  omega

/-- `Block::filter_statements` (block.rs lines 42-52): run the loop from
index 0 over the statements; the last statement is untouched. -/
def Block.filter_statements {σ : Type} (b : Block)
    (f : σ → Statement → Statement × Bool × σ) (s : σ) : Block × σ :=
  match b with
  | .mk statements lastStatement =>
    match filterStatementsLoop f s statements 0 with
    | (statements2, s2) => (.mk statements2 lastStatement, s2)

/-- A concrete local assignment with two variables and one value. -/
def C9Stmt : LocalAssignStatement :=
  .mk [.mk "a" Option.none, .mk "b" Option.none] [.trueExpr] Option.none

/-- A predicate keeping everything but `do` statements. -/
def keepNonDo : Statement → Bool
  | .doStmt _ => false
  | _ => true

/-- A concrete block with a `do` statement between two calls and a
`break`. -/
def C10Block : Block :=
  .mk [ .call (.mk (.identifier "f") (.tuple []) Option.none),
        .doStmt (.mk (.mk [] Option.none)),
        .call (.mk (.identifier "g") (.tuple []) Option.none) ]
    (some .breakStmt)

theorem countKind_append (a b : List HookKind) (k : HookKind) :
    countKind (a ++ b) k = countKind a k + countKind b k := by
  induction a with
  | nil => simp [countKind]
  | cons h rest ih =>
    rw [List.cons_append]
    rw [show countKind (h :: (rest ++ b)) k
          = (if h = k then 1 else 0) + countKind (rest ++ b) k from rfl]
    rw [show countKind (h :: rest) k = (if h = k then 1 else 0) + countKind rest k from rfl]
    rw [ih]
    omega

theorem countKind_snoc (s : List HookKind) (h k : HookKind) :
    countKind (s ++ [h]) k = countKind s k + ind h k := by
  rw [countKind_append]
  simp [countKind, ind]

theorem ckt_block (s : List HookKind) (n : Block) (k : HookKind) :
    countKind (traceProcessor.process_block s n) k = countKind s k + ind .block k := by
  rw [show traceProcessor.process_block s n = s ++ [HookKind.block] from rfl, countKind_snoc]

theorem ckt_statement (s : List HookKind) (n : Statement) (k : HookKind) :
    countKind (traceProcessor.process_statement s n) k = countKind s k + ind .statement k := by
  rw [show traceProcessor.process_statement s n = s ++ [HookKind.statement] from rfl,
    countKind_snoc]

theorem ckt_functionCall (s : List HookKind) (n : FunctionCall) (k : HookKind) :
    countKind (traceProcessor.process_function_call s n) k
      = countKind s k + ind .functionCall k := by
  rw [show traceProcessor.process_function_call s n = s ++ [HookKind.functionCall] from rfl,
    countKind_snoc]

theorem ckt_assignStatement (s : List HookKind) (n : AssignStatement) (k : HookKind) :
    countKind (traceProcessor.process_assign_statement s n) k
      = countKind s k + ind .assignStatement k := by
  rw [show traceProcessor.process_assign_statement s n
        = s ++ [HookKind.assignStatement] from rfl, countKind_snoc]

theorem ckt_doStatement (s : List HookKind) (n : DoStatement) (k : HookKind) :
    countKind (traceProcessor.process_do_statement s n) k
      = countKind s k + ind .doStatement k := by
  rw [show traceProcessor.process_do_statement s n = s ++ [HookKind.doStatement] from rfl,
    countKind_snoc]

theorem ckt_functionStatement (s : List HookKind) (n : FunctionStatement) (k : HookKind) :
    countKind (traceProcessor.process_function_statement s n) k
      = countKind s k + ind .functionStatement k := by
  rw [show traceProcessor.process_function_statement s n
        = s ++ [HookKind.functionStatement] from rfl, countKind_snoc]

theorem ckt_genericForStatement (s : List HookKind) (n : GenericForStatement) (k : HookKind) :
    countKind (traceProcessor.process_generic_for_statement s n) k
      = countKind s k + ind .genericForStatement k := by
  rw [show traceProcessor.process_generic_for_statement s n
        = s ++ [HookKind.genericForStatement] from rfl, countKind_snoc]

theorem ckt_ifStatement (s : List HookKind) (n : IfStatement) (k : HookKind) :
    countKind (traceProcessor.process_if_statement s n) k
      = countKind s k + ind .ifStatement k := by
  rw [show traceProcessor.process_if_statement s n = s ++ [HookKind.ifStatement] from rfl,
    countKind_snoc]

theorem ckt_lastStatement (s : List HookKind) (n : LastStatement) (k : HookKind) :
    countKind (traceProcessor.process_last_statement s n) k
      = countKind s k + ind .lastStatement k := by
  rw [show traceProcessor.process_last_statement s n = s ++ [HookKind.lastStatement] from rfl,
    countKind_snoc]

theorem ckt_localAssignStatement (s : List HookKind) (n : LocalAssignStatement) (k : HookKind) :
    countKind (traceProcessor.process_local_assign_statement s n) k
      = countKind s k + ind .localAssignStatement k := by
  rw [show traceProcessor.process_local_assign_statement s n
        = s ++ [HookKind.localAssignStatement] from rfl, countKind_snoc]

theorem ckt_localFunctionStatement
    (s : List HookKind) (n : LocalFunctionStatement) (k : HookKind) :
    countKind (traceProcessor.process_local_function_statement s n) k
      = countKind s k + ind .localFunctionStatement k := by
  rw [show traceProcessor.process_local_function_statement s n
        = s ++ [HookKind.localFunctionStatement] from rfl, countKind_snoc]

theorem ckt_numericForStatement (s : List HookKind) (n : NumericForStatement) (k : HookKind) :
    countKind (traceProcessor.process_numeric_for_statement s n) k
      = countKind s k + ind .numericForStatement k := by
  rw [show traceProcessor.process_numeric_for_statement s n
        = s ++ [HookKind.numericForStatement] from rfl, countKind_snoc]

theorem ckt_repeatStatement (s : List HookKind) (n : RepeatStatement) (k : HookKind) :
    countKind (traceProcessor.process_repeat_statement s n) k
      = countKind s k + ind .repeatStatement k := by
  rw [show traceProcessor.process_repeat_statement s n
        = s ++ [HookKind.repeatStatement] from rfl, countKind_snoc]

theorem ckt_whileStatement (s : List HookKind) (n : WhileStatement) (k : HookKind) :
    countKind (traceProcessor.process_while_statement s n) k
      = countKind s k + ind .whileStatement k := by
  rw [show traceProcessor.process_while_statement s n
        = s ++ [HookKind.whileStatement] from rfl, countKind_snoc]

theorem ckt_expression (s : List HookKind) (n : Expression) (k : HookKind) :
    countKind (traceProcessor.process_expression s n) k
      = countKind s k + ind .expression k := by
  rw [show traceProcessor.process_expression s n = s ++ [HookKind.expression] from rfl,
    countKind_snoc]

theorem ckt_binaryExpression (s : List HookKind) (n : BinaryExpression) (k : HookKind) :
    countKind (traceProcessor.process_binary_expression s n) k
      = countKind s k + ind .binaryExpression k := by
  rw [show traceProcessor.process_binary_expression s n
        = s ++ [HookKind.binaryExpression] from rfl, countKind_snoc]

theorem ckt_fieldExpression (s : List HookKind) (n : FieldExpression) (k : HookKind) :
    countKind (traceProcessor.process_field_expression s n) k
      = countKind s k + ind .fieldExpression k := by
  rw [show traceProcessor.process_field_expression s n
        = s ++ [HookKind.fieldExpression] from rfl, countKind_snoc]

theorem ckt_functionExpression (s : List HookKind) (n : FunctionExpression) (k : HookKind) :
    countKind (traceProcessor.process_function_expression s n) k
      = countKind s k + ind .functionExpression k := by
  rw [show traceProcessor.process_function_expression s n
        = s ++ [HookKind.functionExpression] from rfl, countKind_snoc]

theorem ckt_variableExpression (s : List HookKind) (n : String) (k : HookKind) :
    countKind (traceProcessor.process_variable_expression s n) k
      = countKind s k + ind .variableExpression k := by
  rw [show traceProcessor.process_variable_expression s n
        = s ++ [HookKind.variableExpression] from rfl, countKind_snoc]

theorem ckt_indexExpression (s : List HookKind) (n : IndexExpression) (k : HookKind) :
    countKind (traceProcessor.process_index_expression s n) k
      = countKind s k + ind .indexExpression k := by
  rw [show traceProcessor.process_index_expression s n
        = s ++ [HookKind.indexExpression] from rfl, countKind_snoc]

theorem ckt_numberExpression (s : List HookKind) (n : NumberExpression) (k : HookKind) :
    countKind (traceProcessor.process_number_expression s n) k
      = countKind s k + ind .numberExpression k := by
  rw [show traceProcessor.process_number_expression s n
        = s ++ [HookKind.numberExpression] from rfl, countKind_snoc]

theorem ckt_prefixExpression (s : List HookKind) (n : Prefix) (k : HookKind) :
    countKind (traceProcessor.process_prefix_expression s n) k
      = countKind s k + ind .prefixExpression k := by
  rw [show traceProcessor.process_prefix_expression s n
        = s ++ [HookKind.prefixExpression] from rfl, countKind_snoc]

theorem ckt_stringExpression (s : List HookKind) (n : StringExpression) (k : HookKind) :
    countKind (traceProcessor.process_string_expression s n) k
      = countKind s k + ind .stringExpression k := by
  rw [show traceProcessor.process_string_expression s n
        = s ++ [HookKind.stringExpression] from rfl, countKind_snoc]

theorem ckt_tableExpression (s : List HookKind) (n : TableExpression) (k : HookKind) :
    countKind (traceProcessor.process_table_expression s n) k
      = countKind s k + ind .tableExpression k := by
  rw [show traceProcessor.process_table_expression s n
        = s ++ [HookKind.tableExpression] from rfl, countKind_snoc]

theorem ckt_unaryExpression (s : List HookKind) (n : UnaryExpression) (k : HookKind) :
    countKind (traceProcessor.process_unary_expression s n) k
      = countKind s k + ind .unaryExpression k := by
  rw [show traceProcessor.process_unary_expression s n
        = s ++ [HookKind.unaryExpression] from rfl, countKind_snoc]

theorem ckt_luxExpression (s : List HookKind) (n : LUXExpression) (k : HookKind) :
    countKind (traceProcessor.process_lux_expression s n) k
      = countKind s k + ind .luxExpression k := by
  rw [show traceProcessor.process_lux_expression s n
        = s ++ [HookKind.luxExpression] from rfl, countKind_snoc]

theorem ckt_luxElement (s : List HookKind) (n : LUXElement) (k : HookKind) :
    countKind (traceProcessor.process_lux_element s n) k
      = countKind s k + ind .luxElement k := by
  rw [show traceProcessor.process_lux_element s n = s ++ [HookKind.luxElement] from rfl,
    countKind_snoc]

theorem ckt_luxOpenCloseElement (s : List HookKind) (n : LUXOpenCloseElement) (k : HookKind) :
    countKind (traceProcessor.process_lux_open_close_element s n) k
      = countKind s k + ind .luxOpenCloseElement k := by
  rw [show traceProcessor.process_lux_open_close_element s n
        = s ++ [HookKind.luxOpenCloseElement] from rfl, countKind_snoc]

theorem ckt_luxSelfClosingElement
    (s : List HookKind) (n : LUXSelfClosingElement) (k : HookKind) :
    countKind (traceProcessor.process_lux_self_closing_element s n) k
      = countKind s k + ind .luxSelfClosingElement k := by
  rw [show traceProcessor.process_lux_self_closing_element s n
        = s ++ [HookKind.luxSelfClosingElement] from rfl, countKind_snoc]

theorem ckt_luxFragment (s : List HookKind) (n : LUXFragment) (k : HookKind) :
    countKind (traceProcessor.process_lux_fragment s n) k
      = countKind s k + ind .luxFragment k := by
  rw [show traceProcessor.process_lux_fragment s n = s ++ [HookKind.luxFragment] from rfl,
    countKind_snoc]

theorem ckt_luxChild (s : List HookKind) (n : LUXChild) (k : HookKind) :
    countKind (traceProcessor.process_lux_child s n) k
      = countKind s k + ind .luxChild k := by
  rw [show traceProcessor.process_lux_child s n = s ++ [HookKind.luxChild] from rfl,
    countKind_snoc]

theorem ckt_luxAttribute (s : List HookKind) (n : LUXAttribute) (k : HookKind) :
    countKind (traceProcessor.process_lux_attribute s n) k
      = countKind s k + ind .luxAttribute k := by
  rw [show traceProcessor.process_lux_attribute s n = s ++ [HookKind.luxAttribute] from rfl,
    countKind_snoc]

theorem ckt_luxAttributeValue (s : List HookKind) (n : LUXAttributeValue) (k : HookKind) :
    countKind (traceProcessor.process_lux_attribute_value s n) k
      = countKind s k + ind .luxAttributeValue k := by
  rw [show traceProcessor.process_lux_attribute_value s n
        = s ++ [HookKind.luxAttributeValue] from rfl, countKind_snoc]

mutual

theorem cntv_block : ∀ (s : List HookKind) (b : Block) (k : HookKind),
    countKind (visit_block traceProcessor s b) k = countKind s k + cnt_block k b
  | s, .mk stmts none, k => by
    simp only [visit_block]
    rw [cntv_statement_list]
    simp only [ckt_block, cnt_block]
    omega
  | s, .mk stmts (some .breakStmt), k => by
    simp only [visit_block]
    rw [ckt_lastStatement, cntv_statement_list]
    simp only [ckt_block, cnt_block]
    omega
  | s, .mk stmts (some (.returnStmt es)), k => by
    simp only [visit_block]
    rw [cntv_expression_list, ckt_lastStatement, cntv_statement_list]
    simp only [ckt_block, cnt_block]
    omega
termination_by s x k => sizeOf x

theorem cntv_statement_list : ∀ (s : List HookKind) (l : List Statement) (k : HookKind),
    countKind (visit_statement_list traceProcessor s l) k
      = countKind s k + cnt_statement_list k l
  | s, [], k => by simp [visit_statement_list, cnt_statement_list]
  | s, st :: rest, k => by
    simp only [visit_statement_list]
    rw [cntv_statement_list, cntv_statement]
    simp only [cnt_statement_list]
    omega
termination_by s x k => sizeOf x

theorem cntv_expression_list : ∀ (s : List HookKind) (l : List Expression) (k : HookKind),
    countKind (visit_expression_list traceProcessor s l) k
      = countKind s k + cnt_expression_list k l
  | s, [], k => by simp [visit_expression_list, cnt_expression_list]
  | s, e :: rest, k => by
    simp only [visit_expression_list]
    rw [cntv_expression_list, cntv_expression]
    simp only [cnt_expression_list]
    omega
termination_by s x k => sizeOf x

theorem cntv_statement : ∀ (s : List HookKind) (st : Statement) (k : HookKind),
    countKind (visit_statement traceProcessor s st) k = countKind s k + cnt_statement k st
  | s, .assign st, k => by
    simp only [visit_statement]
    rw [cntv_assign_statement]
    simp only [ckt_statement, cnt_statement]
    omega
  | s, .doStmt st, k => by
    simp only [visit_statement]
    rw [cntv_do_statement]
    simp only [ckt_statement, cnt_statement]
    omega
  | s, .call c, k => by
    simp only [visit_statement]
    rw [cntv_function_call]
    simp only [ckt_statement, cnt_statement]
    omega
  | s, .functionStmt st, k => by
    simp only [visit_statement]
    rw [cntv_function_statement]
    simp only [ckt_statement, cnt_statement]
    omega
  | s, .genericFor st, k => by
    simp only [visit_statement]
    rw [cntv_generic_for]
    simp only [ckt_statement, cnt_statement]
    omega
  | s, .ifStmt st, k => by
    simp only [visit_statement]
    rw [cntv_if_statement]
    simp only [ckt_statement, cnt_statement]
    omega
  | s, .localAssign st, k => by
    simp only [visit_statement]
    rw [cntv_local_assign]
    simp only [ckt_statement, cnt_statement]
    omega
  | s, .localFunction st, k => by
    simp only [visit_statement]
    rw [cntv_local_function]
    simp only [ckt_statement, cnt_statement]
    omega
  | s, .numericFor st, k => by
    simp only [visit_statement]
    rw [cntv_numeric_for]
    simp only [ckt_statement, cnt_statement]
    omega
  | s, .repeatStmt st, k => by
    simp only [visit_statement]
    rw [cntv_repeat_statement]
    simp only [ckt_statement, cnt_statement]
    omega
  | s, .whileStmt st, k => by
    simp only [visit_statement]
    rw [cntv_while_statement]
    simp only [ckt_statement, cnt_statement]
    omega
termination_by s x k => sizeOf x

theorem cntv_assign_statement : ∀ (s : List HookKind) (st : AssignStatement) (k : HookKind),
    countKind (visit_assign_statement traceProcessor s st) k
      = countKind s k + cnt_assign_statement k st
  | s, .mk vars values, k => by
    simp only [visit_assign_statement]
    rw [cntv_expression_list, cntv_variable_list]
    simp only [ckt_assignStatement, cnt_assign_statement]
    omega
termination_by s x k => sizeOf x

theorem cntv_variable : ∀ (s : List HookKind) (v : Variable) (k : HookKind),
    countKind (visit_variable traceProcessor s v) k = countKind s k + cnt_variable k v
  | s, .identifier name, k => by
    simp only [visit_variable]
    simp only [ckt_variableExpression, cnt_variable] <;> omega
  | s, .field f, k => by
    simp only [visit_variable]
    rw [cntv_field_expression]
    simp only [cnt_variable] <;> omega
  | s, .index i, k => by
    simp only [visit_variable]
    rw [cntv_index_expression]
    simp only [cnt_variable] <;> omega
termination_by s x k => sizeOf x

theorem cntv_variable_list : ∀ (s : List HookKind) (l : List Variable) (k : HookKind),
    countKind (visit_variable_list traceProcessor s l) k = countKind s k + cnt_variable_list k l
  | s, [], k => by simp [visit_variable_list, cnt_variable_list]
  | s, v :: rest, k => by
    simp only [visit_variable_list]
    rw [cntv_variable_list, cntv_variable]
    simp only [cnt_variable_list]
    omega
termination_by s x k => sizeOf x

theorem cntv_do_statement : ∀ (s : List HookKind) (st : DoStatement) (k : HookKind),
    countKind (visit_do_statement traceProcessor s st) k = countKind s k + cnt_do_statement k st
  | s, .mk block, k => by
    simp only [visit_do_statement]
    rw [cntv_block]
    simp only [ckt_doStatement, cnt_do_statement]
    omega
termination_by s x k => sizeOf x

theorem cntv_function_statement :
    ∀ (s : List HookKind) (st : FunctionStatement) (k : HookKind),
    countKind (visit_function_statement traceProcessor s st) k
      = countKind s k + cnt_function_statement k st
  | s, .mk name parameters block, k => by
    simp only [visit_function_statement]
    rw [cntv_block]
    simp only [ckt_variableExpression, ckt_functionStatement, cnt_function_statement]
    omega
termination_by s x k => sizeOf x

theorem cntv_generic_for : ∀ (s : List HookKind) (st : GenericForStatement) (k : HookKind),
    countKind (visit_generic_for traceProcessor s st) k = countKind s k + cnt_generic_for k st
  | s, .mk identifiers expressions block, k => by
    simp only [visit_generic_for]
    rw [cntv_block, cntv_expression_list]
    simp only [ckt_genericForStatement, cnt_generic_for]
    omega
termination_by s x k => sizeOf x

theorem cntv_if_statement : ∀ (s : List HookKind) (st : IfStatement) (k : HookKind),
    countKind (visit_if_statement traceProcessor s st) k = countKind s k + cnt_if_statement k st
  | s, .mk branches none, k => by
    simp only [visit_if_statement]
    rw [cntv_branch_list]
    simp only [ckt_ifStatement, cnt_if_statement]
    omega
  | s, .mk branches (some block), k => by
    simp only [visit_if_statement]
    rw [cntv_block, cntv_branch_list]
    simp only [ckt_ifStatement, cnt_if_statement]
    omega
termination_by s x k => sizeOf x

theorem cntv_branch_list : ∀ (s : List HookKind) (l : List IfBranch) (k : HookKind),
    countKind (visit_branch_list traceProcessor s l) k = countKind s k + cnt_branch_list k l
  | s, [], k => by simp [visit_branch_list, cnt_branch_list]
  | s, .mk condition block :: rest, k => by
    simp only [visit_branch_list]
    rw [cntv_branch_list, cntv_block, cntv_expression]
    simp only [cnt_branch_list]
    omega
termination_by s x k => sizeOf x

theorem cntv_local_assign : ∀ (s : List HookKind) (st : LocalAssignStatement) (k : HookKind),
    countKind (visit_local_assign traceProcessor s st) k = countKind s k + cnt_local_assign k st
  | s, .mk vars values tokens, k => by
    simp only [visit_local_assign]
    rw [cntv_expression_list]
    simp only [ckt_localAssignStatement, cnt_local_assign]
    omega
termination_by s x k => sizeOf x

theorem cntv_local_function :
    ∀ (s : List HookKind) (st : LocalFunctionStatement) (k : HookKind),
    countKind (visit_local_function traceProcessor s st) k
      = countKind s k + cnt_local_function k st
  | s, .mk name parameters block, k => by
    simp only [visit_local_function]
    rw [cntv_block]
    simp only [ckt_localFunctionStatement, cnt_local_function]
    omega
termination_by s x k => sizeOf x

theorem cntv_numeric_for : ∀ (s : List HookKind) (st : NumericForStatement) (k : HookKind),
    countKind (visit_numeric_for traceProcessor s st) k = countKind s k + cnt_numeric_for k st
  | s, .mk identifier startExpr endExpr none block, k => by
    simp only [visit_numeric_for]
    rw [cntv_block, cntv_expression, cntv_expression]
    simp only [ckt_numericForStatement, cnt_numeric_for]
    omega
  | s, .mk identifier startExpr endExpr (some step) block, k => by
    simp only [visit_numeric_for]
    rw [cntv_block, cntv_expression, cntv_expression, cntv_expression]
    simp only [ckt_numericForStatement, cnt_numeric_for]
    omega
termination_by s x k => sizeOf x

theorem cntv_repeat_statement : ∀ (s : List HookKind) (st : RepeatStatement) (k : HookKind),
    countKind (visit_repeat_statement traceProcessor s st) k
      = countKind s k + cnt_repeat_statement k st
  | s, .mk block condition, k => by
    simp only [visit_repeat_statement]
    rw [cntv_block, cntv_expression]
    simp only [ckt_repeatStatement, cnt_repeat_statement]
    omega
termination_by s x k => sizeOf x

theorem cntv_while_statement : ∀ (s : List HookKind) (st : WhileStatement) (k : HookKind),
    countKind (visit_while_statement traceProcessor s st) k
      = countKind s k + cnt_while_statement k st
  | s, .mk block condition, k => by
    simp only [visit_while_statement]
    rw [cntv_block, cntv_expression]
    simp only [ckt_whileStatement, cnt_while_statement]
    omega
termination_by s x k => sizeOf x

theorem cntv_expression : ∀ (s : List HookKind) (e : Expression) (k : HookKind),
    countKind (visit_expression traceProcessor s e) k = countKind s k + cnt_expression k e
  | s, .nilExpr, k => by
    simp only [visit_expression]
    simp only [ckt_expression, cnt_expression] <;> omega
  | s, .trueExpr, k => by
    simp only [visit_expression]
    simp only [ckt_expression, cnt_expression] <;> omega
  | s, .falseExpr, k => by
    simp only [visit_expression]
    simp only [ckt_expression, cnt_expression] <;> omega
  | s, .variableArguments, k => by
    simp only [visit_expression]
    simp only [ckt_expression, cnt_expression] <;> omega
  | s, .number n, k => by
    simp only [visit_expression]
    simp only [ckt_numberExpression, ckt_expression, cnt_expression] <;> omega
  | s, .stringExpr str, k => by
    simp only [visit_expression]
    simp only [ckt_stringExpression, ckt_expression, cnt_expression] <;> omega
  | s, .identifier name, k => by
    simp only [visit_expression]
    simp only [ckt_variableExpression, ckt_expression, cnt_expression] <;> omega
  | s, .binary (.mk op l r), k => by
    simp only [visit_expression]
    rw [cntv_expression, cntv_expression]
    simp only [ckt_binaryExpression, ckt_expression, cnt_expression]
    omega
  | s, .unary (.mk op e), k => by
    simp only [visit_expression]
    rw [cntv_expression]
    simp only [ckt_unaryExpression, ckt_expression, cnt_expression]
    omega
  | s, .parenthese e, k => by
    simp only [visit_expression]
    rw [cntv_expression]
    simp only [ckt_expression, cnt_expression]
    omega
  | s, .functionExpr f, k => by
    simp only [visit_expression]
    rw [cntv_function_expression]
    simp only [ckt_expression, cnt_expression]
    omega
  | s, .call c, k => by
    simp only [visit_expression]
    rw [cntv_function_call]
    simp only [ckt_expression, cnt_expression]
    omega
  | s, .field f, k => by
    simp only [visit_expression]
    rw [cntv_field_expression]
    simp only [ckt_expression, cnt_expression]
    omega
  | s, .index i, k => by
    simp only [visit_expression]
    rw [cntv_index_expression]
    simp only [ckt_expression, cnt_expression]
    omega
  | s, .table t, k => by
    simp only [visit_expression]
    rw [cntv_table]
    simp only [ckt_expression, cnt_expression]
    omega
  | s, .lux l, k => by
    simp only [visit_expression]
    rw [cntv_lux_expression]
    simp only [ckt_expression, cnt_expression]
    omega
termination_by s x k => sizeOf x

theorem cntv_function_expression :
    ∀ (s : List HookKind) (f : FunctionExpression) (k : HookKind),
    countKind (visit_function_expression traceProcessor s f) k
      = countKind s k + cnt_function_expression k f
  | s, .mk parameters isVariadic block, k => by
    simp only [visit_function_expression]
    rw [cntv_block]
    simp only [ckt_functionExpression, cnt_function_expression]
    omega
termination_by s x k => sizeOf x

theorem cntv_function_call : ∀ (s : List HookKind) (c : FunctionCall) (k : HookKind),
    countKind (visit_function_call traceProcessor s c) k = countKind s k + cnt_function_call k c
  | s, .mk callPrefix arguments method, k => by
    simp only [visit_function_call]
    rw [cntv_arguments, cntv_prefix]
    simp only [ckt_functionCall, cnt_function_call]
    omega
termination_by s x k => sizeOf x

theorem cntv_arguments : ∀ (s : List HookKind) (a : Arguments) (k : HookKind),
    countKind (visit_arguments traceProcessor s a) k = countKind s k + cnt_arguments k a
  | s, .string str, k => by
    simp only [visit_arguments]
    simp only [ckt_stringExpression, cnt_arguments] <;> omega
  | s, .table t, k => by
    simp only [visit_arguments]
    rw [cntv_table]
    simp only [cnt_arguments] <;> omega
  | s, .tuple expressions, k => by
    simp only [visit_arguments]
    rw [cntv_expression_list]
    simp only [cnt_arguments] <;> omega
termination_by s x k => sizeOf x

theorem cntv_field_expression : ∀ (s : List HookKind) (f : FieldExpression) (k : HookKind),
    countKind (visit_field_expression traceProcessor s f) k
      = countKind s k + cnt_field_expression k f
  | s, .mk fieldPrefix field, k => by
    simp only [visit_field_expression]
    rw [ cntv_prefix]
    simp only [ckt_fieldExpression, cnt_field_expression]
    omega
termination_by s x k => sizeOf x

theorem cntv_index_expression : ∀ (s : List HookKind) (i : IndexExpression) (k : HookKind),
    countKind (visit_index_expression traceProcessor s i) k
      = countKind s k + cnt_index_expression k i
  | s, .mk indexPrefix index, k => by
    simp only [visit_index_expression]
    rw [cntv_expression, cntv_prefix]
    simp only [ckt_indexExpression, cnt_index_expression]
    omega
termination_by s x k => sizeOf x

theorem cntv_table : ∀ (s : List HookKind) (t : TableExpression) (k : HookKind),
    countKind (visit_table traceProcessor s t) k = countKind s k + cnt_table k t
  | s, .mk entries, k => by
    simp only [visit_table]
    rw [cntv_table_entry_list]
    simp only [ckt_tableExpression, cnt_table]
    omega
termination_by s x k => sizeOf x

theorem cntv_table_entry : ∀ (s : List HookKind) (entry : TableEntry) (k : HookKind),
    countKind (visit_table_entry traceProcessor s entry) k
      = countKind s k + cnt_table_entry k entry
  | s, .fieldEntry name value, k => by
    simp only [visit_table_entry]
    rw [cntv_expression]
    simp only [cnt_table_entry] <;> omega
  | s, .indexEntry key value, k => by
    simp only [visit_table_entry]
    rw [cntv_expression, cntv_expression]
    simp only [cnt_table_entry]
    omega
  | s, .valueEntry value, k => by
    simp only [visit_table_entry]
    rw [cntv_expression]
    simp only [cnt_table_entry] <;> omega
termination_by s x k => sizeOf x

theorem cntv_table_entry_list : ∀ (s : List HookKind) (l : List TableEntry) (k : HookKind),
    countKind (visit_table_entry_list traceProcessor s l) k
      = countKind s k + cnt_table_entry_list k l
  | s, [], k => by simp [visit_table_entry_list, cnt_table_entry_list]
  | s, entry :: rest, k => by
    simp only [visit_table_entry_list]
    rw [cntv_table_entry_list, cntv_table_entry]
    simp only [cnt_table_entry_list]
    omega
termination_by s x k => sizeOf x

theorem cntv_prefix : ∀ (s : List HookKind) (pfx : Prefix) (k : HookKind),
    countKind (visit_prefix_expression traceProcessor s pfx) k = countKind s k + cnt_prefix k pfx
  | s, .identifier name, k => by
    simp only [visit_prefix_expression]
    simp only [ckt_variableExpression, ckt_prefixExpression, cnt_prefix] <;> omega
  | s, .call c, k => by
    simp only [visit_prefix_expression]
    rw [cntv_function_call]
    simp only [ckt_prefixExpression, cnt_prefix]
    omega
  | s, .field f, k => by
    simp only [visit_prefix_expression]
    rw [cntv_field_expression]
    simp only [ckt_prefixExpression, cnt_prefix]
    omega
  | s, .index i, k => by
    simp only [visit_prefix_expression]
    rw [cntv_index_expression]
    simp only [ckt_prefixExpression, cnt_prefix]
    omega
  | s, .parenthese e, k => by
    simp only [visit_prefix_expression]
    rw [cntv_expression]
    simp only [ckt_prefixExpression, cnt_prefix]
    omega
termination_by s x k => sizeOf x

theorem cntv_lux_expression : ∀ (s : List HookKind) (l : LUXExpression) (k : HookKind),
    countKind (visit_lux_expression traceProcessor s l) k
      = countKind s k + cnt_lux_expression k l
  | s, .luxElement e, k => by
    simp only [visit_lux_expression]
    rw [cntv_lux_element]
    simp only [ckt_luxExpression, cnt_lux_expression]
    omega
  | s, .luxFragment f, k => by
    simp only [visit_lux_expression]
    rw [cntv_lux_fragment]
    simp only [ckt_luxExpression, cnt_lux_expression]
    omega
termination_by s x k => sizeOf x

theorem cntv_lux_element : ∀ (s : List HookKind) (e : LUXElement) (k : HookKind),
    countKind (visit_lux_element traceProcessor s e) k = countKind s k + cnt_lux_element k e
  | s, .element (.mk name attributes children), k => by
    simp only [visit_lux_element]
    rw [cntv_lux_child_list, cntv_lux_attribute_list]
    simp only [ckt_luxOpenCloseElement, ckt_luxElement, cnt_lux_element]
    omega
  | s, .selfClosingElement (.mk name attributes), k => by
    simp only [visit_lux_element]
    rw [cntv_lux_attribute_list]
    simp only [ckt_luxSelfClosingElement, ckt_luxElement, cnt_lux_element]
    omega
termination_by s x k => sizeOf x

theorem cntv_lux_fragment : ∀ (s : List HookKind) (f : LUXFragment) (k : HookKind),
    countKind (visit_lux_fragment traceProcessor s f) k = countKind s k + cnt_lux_fragment k f
  | s, .mk children, k => by
    simp only [visit_lux_fragment]
    rw [cntv_lux_child_list]
    simp only [ckt_luxFragment, cnt_lux_fragment]
    omega
termination_by s x k => sizeOf x

theorem cntv_lux_child_list : ∀ (s : List HookKind) (l : List LUXChild) (k : HookKind),
    countKind (visit_lux_child_list traceProcessor s l) k
      = countKind s k + cnt_lux_child_list k l
  | s, [], k => by simp [visit_lux_child_list, cnt_lux_child_list]
  | s, child :: rest, k => by
    simp only [visit_lux_child_list]
    rw [cntv_lux_child_list, cntv_lux_child]
    simp only [ckt_luxChild, cnt_lux_child_list]
    omega
termination_by s x k => sizeOf x

theorem cntv_lux_child : ∀ (s : List HookKind) (child : LUXChild) (k : HookKind),
    countKind (visit_lux_child traceProcessor s child) k = countKind s k + cnt_lux_child k child
  | s, .childElement e, k => by
    simp only [visit_lux_child]
    rw [cntv_lux_element]
    simp only [ckt_luxChild, cnt_lux_child]
    omega
  | s, .childFragment f, k => by
    simp only [visit_lux_child]
    rw [cntv_lux_fragment]
    simp only [ckt_luxChild, cnt_lux_child]
    omega
  | s, .expandedExpression e, k => by
    simp only [visit_lux_child]
    rw [cntv_expression]
    simp only [ckt_luxChild, cnt_lux_child]
    omega
  | s, .expression none, k => by
    simp only [visit_lux_child]
    simp only [ckt_luxChild, cnt_lux_child] <;> omega
  | s, .expression (some e), k => by
    simp only [visit_lux_child]
    rw [cntv_expression]
    simp only [ckt_luxChild, cnt_lux_child]
    omega
termination_by s x k => sizeOf x

theorem cntv_lux_attribute_list : ∀ (s : List HookKind) (l : List LUXAttribute) (k : HookKind),
    countKind (visit_lux_attribute_list traceProcessor s l) k
      = countKind s k + cnt_lux_attribute_list k l
  | s, [], k => by simp [visit_lux_attribute_list, cnt_lux_attribute_list]
  | s, a :: rest, k => by
    simp only [visit_lux_attribute_list]
    rw [cntv_lux_attribute_list, cntv_lux_attribute]
    simp only [cnt_lux_attribute_list]
    omega
termination_by s x k => sizeOf x

theorem cntv_lux_attribute : ∀ (s : List HookKind) (a : LUXAttribute) (k : HookKind),
    countKind (visit_lux_attribute traceProcessor s a) k = countKind s k + cnt_lux_attribute k a
  | s, .named name none, k => by
    simp only [visit_lux_attribute]
    simp only [ckt_luxAttribute, cnt_lux_attribute] <;> omega
  | s, .named name (some value), k => by
    simp only [visit_lux_attribute]
    rw [cntv_lux_attribute_value]
    simp only [ckt_luxAttribute, cnt_lux_attribute]
    omega
  | s, .spread e, k => by
    simp only [visit_lux_attribute]
    rw [cntv_expression]
    simp only [ckt_luxAttribute, cnt_lux_attribute]
    omega
termination_by s x k => sizeOf x

theorem cntv_lux_attribute_value :
    ∀ (s : List HookKind) (v : LUXAttributeValue) (k : HookKind),
    countKind (visit_lux_attribute_value traceProcessor s v) k
      = countKind s k + cnt_lux_attribute_value k v
  | s, .doubleQuoteString str, k => by
    simp only [visit_lux_attribute_value]
    simp only [ckt_luxAttributeValue, cnt_lux_attribute_value] <;> omega
  | s, .singleQuoteString str, k => by
    simp only [visit_lux_attribute_value]
    simp only [ckt_luxAttributeValue, cnt_lux_attribute_value] <;> omega
  | s, .luaExpression e, k => by
    simp only [visit_lux_attribute_value]
    rw [cntv_expression]
    simp only [ckt_luxAttributeValue, cnt_lux_attribute_value]
    omega
  | s, .luxElementValue e, k => by
    simp only [visit_lux_attribute_value]
    rw [cntv_lux_element]
    simp only [ckt_luxAttributeValue, cnt_lux_attribute_value]
    omega
  | s, .luxFragmentValue f, k => by
    simp only [visit_lux_attribute_value]
    rw [cntv_lux_fragment]
    simp only [ckt_luxAttributeValue, cnt_lux_attribute_value]
    omega
termination_by s x k => sizeOf x

end

theorem ind_ne (h k : HookKind) (hne : h ≠ k) : ind h k = 0 := by
  simp [ind, hne]

mutual

theorem cnt_occ_block : ∀ (b : Block),
    CntOcc (fun k => cnt_block k b) (fun k => occ_block k b)
  | .mk stmts none => by
    obtain ⟨ia1, ia2, ia3, ia4⟩ := cnt_occ_statement_list stmts
    refine ⟨fun k h1 h2 h3 => ?_, ?_, ?_, ?_⟩
    · simp [cnt_block, occ_block, ia1 k h1 h2 h3] <;> omega
    · simp [cnt_block, occ_block, ind, ia2] <;> omega
    · simp [cnt_block, occ_block, ind, ia3] <;> omega
    · simp [cnt_block, occ_block, ind, ia4] <;> omega
  | .mk stmts (some .breakStmt) => by
    obtain ⟨ia1, ia2, ia3, ia4⟩ := cnt_occ_statement_list stmts
    refine ⟨fun k h1 h2 h3 => ?_, ?_, ?_, ?_⟩
    · simp [cnt_block, occ_block, ia1 k h1 h2 h3] <;> omega
    · simp [cnt_block, occ_block, ind, ia2] <;> omega
    · simp [cnt_block, occ_block, ind, ia3] <;> omega
    · simp [cnt_block, occ_block, ind, ia4] <;> omega
  | .mk stmts (some (.returnStmt es)) => by
    obtain ⟨ia1, ia2, ia3, ia4⟩ := cnt_occ_statement_list stmts
    obtain ⟨ib1, ib2, ib3, ib4⟩ := cnt_occ_expression_list es
    refine ⟨fun k h1 h2 h3 => ?_, ?_, ?_, ?_⟩
    · simp [cnt_block, occ_block, ia1 k h1 h2 h3, ib1 k h1 h2 h3] <;> omega
    · simp [cnt_block, occ_block, ind, ia2, ib2] <;> omega
    · simp [cnt_block, occ_block, ind, ia3, ib3] <;> omega
    · simp [cnt_block, occ_block, ind, ia4, ib4] <;> omega
termination_by x => sizeOf x

theorem cnt_occ_statement_list : ∀ (l : List Statement),
    CntOcc (fun k => cnt_statement_list k l) (fun k => occ_statement_list k l)
  | [] => by
    refine ⟨fun k h1 h2 h3 => ?_, ?_, ?_, ?_⟩ <;>
      simp [cnt_statement_list, occ_statement_list]
  | st :: rest => by
    obtain ⟨ia1, ia2, ia3, ia4⟩ := cnt_occ_statement st
    obtain ⟨ib1, ib2, ib3, ib4⟩ := cnt_occ_statement_list rest
    refine ⟨fun k h1 h2 h3 => ?_, ?_, ?_, ?_⟩
    · simp [cnt_statement_list, occ_statement_list, ia1 k h1 h2 h3, ib1 k h1 h2 h3] <;> omega
    · simp [cnt_statement_list, occ_statement_list, ia2, ib2] <;> omega
    · simp [cnt_statement_list, occ_statement_list, ia3, ib3] <;> omega
    · simp [cnt_statement_list, occ_statement_list, ia4, ib4] <;> omega
termination_by x => sizeOf x

theorem cnt_occ_expression_list : ∀ (l : List Expression),
    CntOcc (fun k => cnt_expression_list k l) (fun k => occ_expression_list k l)
  | [] => by
    refine ⟨fun k h1 h2 h3 => ?_, ?_, ?_, ?_⟩ <;>
      simp [cnt_expression_list, occ_expression_list]
  | e :: rest => by
    obtain ⟨ia1, ia2, ia3, ia4⟩ := cnt_occ_expression e
    obtain ⟨ib1, ib2, ib3, ib4⟩ := cnt_occ_expression_list rest
    refine ⟨fun k h1 h2 h3 => ?_, ?_, ?_, ?_⟩
    · simp [cnt_expression_list, occ_expression_list, ia1 k h1 h2 h3, ib1 k h1 h2 h3] <;> omega
    · simp [cnt_expression_list, occ_expression_list, ia2, ib2] <;> omega
    · simp [cnt_expression_list, occ_expression_list, ia3, ib3] <;> omega
    · simp [cnt_expression_list, occ_expression_list, ia4, ib4] <;> omega
termination_by x => sizeOf x

theorem cnt_occ_statement : ∀ (st : Statement),
    CntOcc (fun k => cnt_statement k st) (fun k => occ_statement k st)
  | .assign st => by
    obtain ⟨ia1, ia2, ia3, ia4⟩ := cnt_occ_assign_statement st
    refine ⟨fun k h1 h2 h3 => ?_, ?_, ?_, ?_⟩
    · simp [cnt_statement, occ_statement, ia1 k h1 h2 h3] <;> omega
    · simp [cnt_statement, occ_statement, ind, ia2] <;> omega
    · simp [cnt_statement, occ_statement, ind, ia3] <;> omega
    · simp [cnt_statement, occ_statement, ind, ia4] <;> omega
  | .doStmt st => by
    obtain ⟨ia1, ia2, ia3, ia4⟩ := cnt_occ_do_statement st
    refine ⟨fun k h1 h2 h3 => ?_, ?_, ?_, ?_⟩
    · simp [cnt_statement, occ_statement, ia1 k h1 h2 h3] <;> omega
    · simp [cnt_statement, occ_statement, ind, ia2] <;> omega
    · simp [cnt_statement, occ_statement, ind, ia3] <;> omega
    · simp [cnt_statement, occ_statement, ind, ia4] <;> omega
  | .call c => by
    obtain ⟨ia1, ia2, ia3, ia4⟩ := cnt_occ_function_call c
    refine ⟨fun k h1 h2 h3 => ?_, ?_, ?_, ?_⟩
    · simp [cnt_statement, occ_statement, ia1 k h1 h2 h3] <;> omega
    · simp [cnt_statement, occ_statement, ind, ia2] <;> omega
    · simp [cnt_statement, occ_statement, ind, ia3] <;> omega
    · simp [cnt_statement, occ_statement, ind, ia4] <;> omega
  | .functionStmt st => by
    obtain ⟨ia1, ia2, ia3, ia4⟩ := cnt_occ_function_statement st
    refine ⟨fun k h1 h2 h3 => ?_, ?_, ?_, ?_⟩
    · simp [cnt_statement, occ_statement, ia1 k h1 h2 h3] <;> omega
    · simp [cnt_statement, occ_statement, ind, ia2] <;> omega
    · simp [cnt_statement, occ_statement, ind, ia3] <;> omega
    · simp [cnt_statement, occ_statement, ind, ia4] <;> omega
  | .genericFor st => by
    obtain ⟨ia1, ia2, ia3, ia4⟩ := cnt_occ_generic_for st
    refine ⟨fun k h1 h2 h3 => ?_, ?_, ?_, ?_⟩
    · simp [cnt_statement, occ_statement, ia1 k h1 h2 h3] <;> omega
    · simp [cnt_statement, occ_statement, ind, ia2] <;> omega
    · simp [cnt_statement, occ_statement, ind, ia3] <;> omega
    · simp [cnt_statement, occ_statement, ind, ia4] <;> omega
  | .ifStmt st => by
    obtain ⟨ia1, ia2, ia3, ia4⟩ := cnt_occ_if_statement st
    refine ⟨fun k h1 h2 h3 => ?_, ?_, ?_, ?_⟩
    · simp [cnt_statement, occ_statement, ia1 k h1 h2 h3] <;> omega
    · simp [cnt_statement, occ_statement, ind, ia2] <;> omega
    · simp [cnt_statement, occ_statement, ind, ia3] <;> omega
    · simp [cnt_statement, occ_statement, ind, ia4] <;> omega
  | .localAssign st => by
    obtain ⟨ia1, ia2, ia3, ia4⟩ := cnt_occ_local_assign st
    refine ⟨fun k h1 h2 h3 => ?_, ?_, ?_, ?_⟩
    · simp [cnt_statement, occ_statement, ia1 k h1 h2 h3] <;> omega
    · simp [cnt_statement, occ_statement, ind, ia2] <;> omega
    · simp [cnt_statement, occ_statement, ind, ia3] <;> omega
    · simp [cnt_statement, occ_statement, ind, ia4] <;> omega
  | .localFunction st => by
    obtain ⟨ia1, ia2, ia3, ia4⟩ := cnt_occ_local_function st
    refine ⟨fun k h1 h2 h3 => ?_, ?_, ?_, ?_⟩
    · simp [cnt_statement, occ_statement, ia1 k h1 h2 h3] <;> omega
    · simp [cnt_statement, occ_statement, ind, ia2] <;> omega
    · simp [cnt_statement, occ_statement, ind, ia3] <;> omega
    · simp [cnt_statement, occ_statement, ind, ia4] <;> omega
  | .numericFor st => by
    obtain ⟨ia1, ia2, ia3, ia4⟩ := cnt_occ_numeric_for st
    refine ⟨fun k h1 h2 h3 => ?_, ?_, ?_, ?_⟩
    · simp [cnt_statement, occ_statement, ia1 k h1 h2 h3] <;> omega
    · simp [cnt_statement, occ_statement, ind, ia2] <;> omega
    · simp [cnt_statement, occ_statement, ind, ia3] <;> omega
    · simp [cnt_statement, occ_statement, ind, ia4] <;> omega
  | .repeatStmt st => by
    obtain ⟨ia1, ia2, ia3, ia4⟩ := cnt_occ_repeat_statement st
    refine ⟨fun k h1 h2 h3 => ?_, ?_, ?_, ?_⟩
    · simp [cnt_statement, occ_statement, ia1 k h1 h2 h3] <;> omega
    · simp [cnt_statement, occ_statement, ind, ia2] <;> omega
    · simp [cnt_statement, occ_statement, ind, ia3] <;> omega
    · simp [cnt_statement, occ_statement, ind, ia4] <;> omega
  | .whileStmt st => by
    obtain ⟨ia1, ia2, ia3, ia4⟩ := cnt_occ_while_statement st
    refine ⟨fun k h1 h2 h3 => ?_, ?_, ?_, ?_⟩
    · simp [cnt_statement, occ_statement, ia1 k h1 h2 h3] <;> omega
    · simp [cnt_statement, occ_statement, ind, ia2] <;> omega
    · simp [cnt_statement, occ_statement, ind, ia3] <;> omega
    · simp [cnt_statement, occ_statement, ind, ia4] <;> omega
termination_by x => sizeOf x

theorem cnt_occ_assign_statement : ∀ (st : AssignStatement),
    CntOcc (fun k => cnt_assign_statement k st) (fun k => occ_assign_statement k st)
  | .mk vars values => by
    obtain ⟨ia1, ia2, ia3, ia4⟩ := cnt_occ_variable_list vars
    obtain ⟨ib1, ib2, ib3, ib4⟩ := cnt_occ_expression_list values
    refine ⟨fun k h1 h2 h3 => ?_, ?_, ?_, ?_⟩
    · simp [cnt_assign_statement, occ_assign_statement, ia1 k h1 h2 h3,
        ib1 k h1 h2 h3] <;> omega
    · simp [cnt_assign_statement, occ_assign_statement, ind, ia2, ib2] <;> omega
    · simp [cnt_assign_statement, occ_assign_statement, ind, ia3, ib3] <;> omega
    · simp [cnt_assign_statement, occ_assign_statement, ind, ia4, ib4] <;> omega
termination_by x => sizeOf x

theorem cnt_occ_variable : ∀ (v : Variable),
    CntOcc (fun k => cnt_variable k v) (fun k => occ_variable k v)
  | .identifier name => by
    refine ⟨fun k h1 h2 h3 => ?_, ?_, ?_, ?_⟩ <;>
      simp [cnt_variable, occ_variable, ind]
  | .field f => by
    obtain ⟨ia1, ia2, ia3, ia4⟩ := cnt_occ_field_expression f
    refine ⟨fun k h1 h2 h3 => ?_, ?_, ?_, ?_⟩
    · simp [cnt_variable, occ_variable, ia1 k h1 h2 h3] <;> omega
    · simp [cnt_variable, occ_variable, ia2] <;> omega
    · simp [cnt_variable, occ_variable, ia3] <;> omega
    · simp [cnt_variable, occ_variable, ia4] <;> omega
  | .index i => by
    obtain ⟨ia1, ia2, ia3, ia4⟩ := cnt_occ_index_expression i
    refine ⟨fun k h1 h2 h3 => ?_, ?_, ?_, ?_⟩
    · simp [cnt_variable, occ_variable, ia1 k h1 h2 h3] <;> omega
    · simp [cnt_variable, occ_variable, ia2] <;> omega
    · simp [cnt_variable, occ_variable, ia3] <;> omega
    · simp [cnt_variable, occ_variable, ia4] <;> omega
termination_by x => sizeOf x

theorem cnt_occ_variable_list : ∀ (l : List Variable),
    CntOcc (fun k => cnt_variable_list k l) (fun k => occ_variable_list k l)
  | [] => by
    refine ⟨fun k h1 h2 h3 => ?_, ?_, ?_, ?_⟩ <;>
      simp [cnt_variable_list, occ_variable_list]
  | v :: rest => by
    obtain ⟨ia1, ia2, ia3, ia4⟩ := cnt_occ_variable v
    obtain ⟨ib1, ib2, ib3, ib4⟩ := cnt_occ_variable_list rest
    refine ⟨fun k h1 h2 h3 => ?_, ?_, ?_, ?_⟩
    · simp [cnt_variable_list, occ_variable_list, ia1 k h1 h2 h3, ib1 k h1 h2 h3] <;> omega
    · simp [cnt_variable_list, occ_variable_list, ia2, ib2] <;> omega
    · simp [cnt_variable_list, occ_variable_list, ia3, ib3] <;> omega
    · simp [cnt_variable_list, occ_variable_list, ia4, ib4] <;> omega
termination_by x => sizeOf x

theorem cnt_occ_do_statement : ∀ (st : DoStatement),
    CntOcc (fun k => cnt_do_statement k st) (fun k => occ_do_statement k st)
  | .mk block => by
    obtain ⟨ia1, ia2, ia3, ia4⟩ := cnt_occ_block block
    refine ⟨fun k h1 h2 h3 => ?_, ?_, ?_, ?_⟩
    · simp [cnt_do_statement, occ_do_statement, ia1 k h1 h2 h3] <;> omega
    · simp [cnt_do_statement, occ_do_statement, ind, ia2] <;> omega
    · simp [cnt_do_statement, occ_do_statement, ind, ia3] <;> omega
    · simp [cnt_do_statement, occ_do_statement, ind, ia4] <;> omega
termination_by x => sizeOf x

theorem cnt_occ_function_statement : ∀ (st : FunctionStatement),
    CntOcc (fun k => cnt_function_statement k st) (fun k => occ_function_statement k st)
  | .mk name parameters block => by
    obtain ⟨ia1, ia2, ia3, ia4⟩ := cnt_occ_block block
    refine ⟨fun k h1 h2 h3 => ?_, ?_, ?_, ?_⟩
    · simp [cnt_function_statement, occ_function_statement, ia1 k h1 h2 h3,
        ind_ne _ _ (Ne.symm h3)] <;> omega
    · simp [cnt_function_statement, occ_function_statement, ind, ia2] <;> omega
    · simp [cnt_function_statement, occ_function_statement, ind, ia3] <;> omega
    · simp [cnt_function_statement, occ_function_statement, ind, ia4] <;> omega
termination_by x => sizeOf x

theorem cnt_occ_generic_for : ∀ (st : GenericForStatement),
    CntOcc (fun k => cnt_generic_for k st) (fun k => occ_generic_for k st)
  | .mk identifiers expressions block => by
    obtain ⟨ia1, ia2, ia3, ia4⟩ := cnt_occ_expression_list expressions
    obtain ⟨ib1, ib2, ib3, ib4⟩ := cnt_occ_block block
    refine ⟨fun k h1 h2 h3 => ?_, ?_, ?_, ?_⟩
    · simp [cnt_generic_for, occ_generic_for, ia1 k h1 h2 h3, ib1 k h1 h2 h3] <;> omega
    · simp [cnt_generic_for, occ_generic_for, ind, ia2, ib2] <;> omega
    · simp [cnt_generic_for, occ_generic_for, ind, ia3, ib3] <;> omega
    · simp [cnt_generic_for, occ_generic_for, ind, ia4, ib4] <;> omega
termination_by x => sizeOf x

theorem cnt_occ_if_statement : ∀ (st : IfStatement),
    CntOcc (fun k => cnt_if_statement k st) (fun k => occ_if_statement k st)
  | .mk branches none => by
    obtain ⟨ia1, ia2, ia3, ia4⟩ := cnt_occ_branch_list branches
    refine ⟨fun k h1 h2 h3 => ?_, ?_, ?_, ?_⟩
    · simp [cnt_if_statement, occ_if_statement, ia1 k h1 h2 h3] <;> omega
    · simp [cnt_if_statement, occ_if_statement, ind, ia2] <;> omega
    · simp [cnt_if_statement, occ_if_statement, ind, ia3] <;> omega
    · simp [cnt_if_statement, occ_if_statement, ind, ia4] <;> omega
  | .mk branches (some block) => by
    obtain ⟨ia1, ia2, ia3, ia4⟩ := cnt_occ_branch_list branches
    obtain ⟨ib1, ib2, ib3, ib4⟩ := cnt_occ_block block
    refine ⟨fun k h1 h2 h3 => ?_, ?_, ?_, ?_⟩
    · simp [cnt_if_statement, occ_if_statement, ia1 k h1 h2 h3, ib1 k h1 h2 h3] <;> omega
    · simp [cnt_if_statement, occ_if_statement, ind, ia2, ib2] <;> omega
    · simp [cnt_if_statement, occ_if_statement, ind, ia3, ib3] <;> omega
    · simp [cnt_if_statement, occ_if_statement, ind, ia4, ib4] <;> omega
termination_by x => sizeOf x

theorem cnt_occ_branch_list : ∀ (l : List IfBranch),
    CntOcc (fun k => cnt_branch_list k l) (fun k => occ_branch_list k l)
  | [] => by
    refine ⟨fun k h1 h2 h3 => ?_, ?_, ?_, ?_⟩ <;>
      simp [cnt_branch_list, occ_branch_list]
  | .mk condition block :: rest => by
    obtain ⟨ia1, ia2, ia3, ia4⟩ := cnt_occ_expression condition
    obtain ⟨ib1, ib2, ib3, ib4⟩ := cnt_occ_block block
    obtain ⟨ic1, ic2, ic3, ic4⟩ := cnt_occ_branch_list rest
    refine ⟨fun k h1 h2 h3 => ?_, ?_, ?_, ?_⟩
    · simp [cnt_branch_list, occ_branch_list, ia1 k h1 h2 h3, ib1 k h1 h2 h3,
        ic1 k h1 h2 h3] <;> omega
    · simp [cnt_branch_list, occ_branch_list, ia2, ib2, ic2] <;> omega
    · simp [cnt_branch_list, occ_branch_list, ia3, ib3, ic3] <;> omega
    · simp [cnt_branch_list, occ_branch_list, ia4, ib4, ic4] <;> omega
termination_by x => sizeOf x

theorem cnt_occ_local_assign : ∀ (st : LocalAssignStatement),
    CntOcc (fun k => cnt_local_assign k st) (fun k => occ_local_assign k st)
  | .mk vars values tokens => by
    obtain ⟨ia1, ia2, ia3, ia4⟩ := cnt_occ_expression_list values
    refine ⟨fun k h1 h2 h3 => ?_, ?_, ?_, ?_⟩
    · simp [cnt_local_assign, occ_local_assign, ia1 k h1 h2 h3] <;> omega
    · simp [cnt_local_assign, occ_local_assign, ind, ia2] <;> omega
    · simp [cnt_local_assign, occ_local_assign, ind, ia3] <;> omega
    · simp [cnt_local_assign, occ_local_assign, ind, ia4] <;> omega
termination_by x => sizeOf x

theorem cnt_occ_local_function : ∀ (st : LocalFunctionStatement),
    CntOcc (fun k => cnt_local_function k st) (fun k => occ_local_function k st)
  | .mk name parameters block => by
    obtain ⟨ia1, ia2, ia3, ia4⟩ := cnt_occ_block block
    refine ⟨fun k h1 h2 h3 => ?_, ?_, ?_, ?_⟩
    · simp [cnt_local_function, occ_local_function, ia1 k h1 h2 h3] <;> omega
    · simp [cnt_local_function, occ_local_function, ind, ia2] <;> omega
    · simp [cnt_local_function, occ_local_function, ind, ia3] <;> omega
    · simp [cnt_local_function, occ_local_function, ind, ia4] <;> omega
termination_by x => sizeOf x

theorem cnt_occ_numeric_for : ∀ (st : NumericForStatement),
    CntOcc (fun k => cnt_numeric_for k st) (fun k => occ_numeric_for k st)
  | .mk identifier startExpr endExpr none block => by
    obtain ⟨ia1, ia2, ia3, ia4⟩ := cnt_occ_expression startExpr
    obtain ⟨ib1, ib2, ib3, ib4⟩ := cnt_occ_expression endExpr
    obtain ⟨ic1, ic2, ic3, ic4⟩ := cnt_occ_block block
    refine ⟨fun k h1 h2 h3 => ?_, ?_, ?_, ?_⟩
    · simp [cnt_numeric_for, occ_numeric_for, ia1 k h1 h2 h3, ib1 k h1 h2 h3,
        ic1 k h1 h2 h3] <;> omega
    · simp [cnt_numeric_for, occ_numeric_for, ind, ia2, ib2, ic2] <;> omega
    · simp [cnt_numeric_for, occ_numeric_for, ind, ia3, ib3, ic3] <;> omega
    · simp [cnt_numeric_for, occ_numeric_for, ind, ia4, ib4, ic4] <;> omega
  | .mk identifier startExpr endExpr (some step) block => by
    obtain ⟨ia1, ia2, ia3, ia4⟩ := cnt_occ_expression startExpr
    obtain ⟨ib1, ib2, ib3, ib4⟩ := cnt_occ_expression endExpr
    obtain ⟨id1, id2, id3, id4⟩ := cnt_occ_expression step
    obtain ⟨ic1, ic2, ic3, ic4⟩ := cnt_occ_block block
    refine ⟨fun k h1 h2 h3 => ?_, ?_, ?_, ?_⟩
    · simp [cnt_numeric_for, occ_numeric_for, ia1 k h1 h2 h3, ib1 k h1 h2 h3,
        id1 k h1 h2 h3, ic1 k h1 h2 h3] <;> omega
    · simp [cnt_numeric_for, occ_numeric_for, ind, ia2, ib2, id2, ic2] <;> omega
    · simp [cnt_numeric_for, occ_numeric_for, ind, ia3, ib3, id3, ic3] <;> omega
    · simp [cnt_numeric_for, occ_numeric_for, ind, ia4, ib4, id4, ic4] <;> omega
termination_by x => sizeOf x

theorem cnt_occ_repeat_statement : ∀ (st : RepeatStatement),
    CntOcc (fun k => cnt_repeat_statement k st) (fun k => occ_repeat_statement k st)
  | .mk block condition => by
    obtain ⟨ia1, ia2, ia3, ia4⟩ := cnt_occ_expression condition
    obtain ⟨ib1, ib2, ib3, ib4⟩ := cnt_occ_block block
    refine ⟨fun k h1 h2 h3 => ?_, ?_, ?_, ?_⟩
    · simp [cnt_repeat_statement, occ_repeat_statement, ia1 k h1 h2 h3,
        ib1 k h1 h2 h3] <;> omega
    · simp [cnt_repeat_statement, occ_repeat_statement, ind, ia2, ib2] <;> omega
    · simp [cnt_repeat_statement, occ_repeat_statement, ind, ia3, ib3] <;> omega
    · simp [cnt_repeat_statement, occ_repeat_statement, ind, ia4, ib4] <;> omega
termination_by x => sizeOf x

theorem cnt_occ_while_statement : ∀ (st : WhileStatement),
    CntOcc (fun k => cnt_while_statement k st) (fun k => occ_while_statement k st)
  | .mk block condition => by
    obtain ⟨ia1, ia2, ia3, ia4⟩ := cnt_occ_expression condition
    obtain ⟨ib1, ib2, ib3, ib4⟩ := cnt_occ_block block
    refine ⟨fun k h1 h2 h3 => ?_, ?_, ?_, ?_⟩
    · simp [cnt_while_statement, occ_while_statement, ia1 k h1 h2 h3,
        ib1 k h1 h2 h3] <;> omega
    · simp [cnt_while_statement, occ_while_statement, ind, ia2, ib2] <;> omega
    · simp [cnt_while_statement, occ_while_statement, ind, ia3, ib3] <;> omega
    · simp [cnt_while_statement, occ_while_statement, ind, ia4, ib4] <;> omega
termination_by x => sizeOf x

theorem cnt_occ_expression : ∀ (e : Expression),
    CntOcc (fun k => cnt_expression k e) (fun k => occ_expression k e)
  | .nilExpr => by
    refine ⟨fun k h1 h2 h3 => ?_, ?_, ?_, ?_⟩ <;> simp [cnt_expression, occ_expression, ind]
  | .trueExpr => by
    refine ⟨fun k h1 h2 h3 => ?_, ?_, ?_, ?_⟩ <;> simp [cnt_expression, occ_expression, ind]
  | .falseExpr => by
    refine ⟨fun k h1 h2 h3 => ?_, ?_, ?_, ?_⟩ <;> simp [cnt_expression, occ_expression, ind]
  | .variableArguments => by
    refine ⟨fun k h1 h2 h3 => ?_, ?_, ?_, ?_⟩ <;> simp [cnt_expression, occ_expression, ind]
  | .number n => by
    refine ⟨fun k h1 h2 h3 => ?_, ?_, ?_, ?_⟩ <;> simp [cnt_expression, occ_expression, ind]
  | .stringExpr str => by
    refine ⟨fun k h1 h2 h3 => ?_, ?_, ?_, ?_⟩ <;> simp [cnt_expression, occ_expression, ind]
  | .identifier name => by
    refine ⟨fun k h1 h2 h3 => ?_, ?_, ?_, ?_⟩ <;> simp [cnt_expression, occ_expression, ind]
  | .binary (.mk op l r) => by
    obtain ⟨ia1, ia2, ia3, ia4⟩ := cnt_occ_expression l
    obtain ⟨ib1, ib2, ib3, ib4⟩ := cnt_occ_expression r
    refine ⟨fun k h1 h2 h3 => ?_, ?_, ?_, ?_⟩
    · simp [cnt_expression, occ_expression, ia1 k h1 h2 h3, ib1 k h1 h2 h3] <;> omega
    · simp [cnt_expression, occ_expression, ind, ia2, ib2] <;> omega
    · simp [cnt_expression, occ_expression, ind, ia3, ib3] <;> omega
    · simp [cnt_expression, occ_expression, ind, ia4, ib4] <;> omega
  | .unary (.mk op e) => by
    obtain ⟨ia1, ia2, ia3, ia4⟩ := cnt_occ_expression e
    refine ⟨fun k h1 h2 h3 => ?_, ?_, ?_, ?_⟩
    · simp [cnt_expression, occ_expression, ia1 k h1 h2 h3] <;> omega
    · simp [cnt_expression, occ_expression, ind, ia2] <;> omega
    · simp [cnt_expression, occ_expression, ind, ia3] <;> omega
    · simp [cnt_expression, occ_expression, ind, ia4] <;> omega
  | .parenthese e => by
    obtain ⟨ia1, ia2, ia3, ia4⟩ := cnt_occ_expression e
    refine ⟨fun k h1 h2 h3 => ?_, ?_, ?_, ?_⟩
    · simp [cnt_expression, occ_expression, ia1 k h1 h2 h3,
        ind_ne _ _ (Ne.symm h1)] <;> omega
    · simp [cnt_expression, occ_expression, ind, ia2] <;> omega
    · simp [cnt_expression, occ_expression, ind, ia3] <;> omega
    · simp [cnt_expression, occ_expression, ind, ia4] <;> omega
  | .functionExpr f => by
    obtain ⟨ia1, ia2, ia3, ia4⟩ := cnt_occ_function_expression f
    refine ⟨fun k h1 h2 h3 => ?_, ?_, ?_, ?_⟩
    · simp [cnt_expression, occ_expression, ia1 k h1 h2 h3] <;> omega
    · simp [cnt_expression, occ_expression, ind, ia2] <;> omega
    · simp [cnt_expression, occ_expression, ind, ia3] <;> omega
    · simp [cnt_expression, occ_expression, ind, ia4] <;> omega
  | .call c => by
    obtain ⟨ia1, ia2, ia3, ia4⟩ := cnt_occ_function_call c
    refine ⟨fun k h1 h2 h3 => ?_, ?_, ?_, ?_⟩
    · simp [cnt_expression, occ_expression, ia1 k h1 h2 h3] <;> omega
    · simp [cnt_expression, occ_expression, ind, ia2] <;> omega
    · simp [cnt_expression, occ_expression, ind, ia3] <;> omega
    · simp [cnt_expression, occ_expression, ind, ia4] <;> omega
  | .field f => by
    obtain ⟨ia1, ia2, ia3, ia4⟩ := cnt_occ_field_expression f
    refine ⟨fun k h1 h2 h3 => ?_, ?_, ?_, ?_⟩
    · simp [cnt_expression, occ_expression, ia1 k h1 h2 h3] <;> omega
    · simp [cnt_expression, occ_expression, ind, ia2] <;> omega
    · simp [cnt_expression, occ_expression, ind, ia3] <;> omega
    · simp [cnt_expression, occ_expression, ind, ia4] <;> omega
  | .index i => by
    obtain ⟨ia1, ia2, ia3, ia4⟩ := cnt_occ_index_expression i
    refine ⟨fun k h1 h2 h3 => ?_, ?_, ?_, ?_⟩
    · simp [cnt_expression, occ_expression, ia1 k h1 h2 h3] <;> omega
    · simp [cnt_expression, occ_expression, ind, ia2] <;> omega
    · simp [cnt_expression, occ_expression, ind, ia3] <;> omega
    · simp [cnt_expression, occ_expression, ind, ia4] <;> omega
  | .table t => by
    obtain ⟨ia1, ia2, ia3, ia4⟩ := cnt_occ_table t
    refine ⟨fun k h1 h2 h3 => ?_, ?_, ?_, ?_⟩
    · simp [cnt_expression, occ_expression, ia1 k h1 h2 h3] <;> omega
    · simp [cnt_expression, occ_expression, ind, ia2] <;> omega
    · simp [cnt_expression, occ_expression, ind, ia3] <;> omega
    · simp [cnt_expression, occ_expression, ind, ia4] <;> omega
  | .lux l => by
    obtain ⟨ia1, ia2, ia3, ia4⟩ := cnt_occ_lux_expression l
    refine ⟨fun k h1 h2 h3 => ?_, ?_, ?_, ?_⟩
    · simp [cnt_expression, occ_expression, ia1 k h1 h2 h3] <;> omega
    · simp [cnt_expression, occ_expression, ind, ia2] <;> omega
    · simp [cnt_expression, occ_expression, ind, ia3] <;> omega
    · simp [cnt_expression, occ_expression, ind, ia4] <;> omega
termination_by x => sizeOf x

theorem cnt_occ_function_expression : ∀ (f : FunctionExpression),
    CntOcc (fun k => cnt_function_expression k f) (fun k => occ_function_expression k f)
  | .mk parameters isVariadic block => by
    obtain ⟨ia1, ia2, ia3, ia4⟩ := cnt_occ_block block
    refine ⟨fun k h1 h2 h3 => ?_, ?_, ?_, ?_⟩
    · simp [cnt_function_expression, occ_function_expression, ia1 k h1 h2 h3] <;> omega
    · simp [cnt_function_expression, occ_function_expression, ind, ia2] <;> omega
    · simp [cnt_function_expression, occ_function_expression, ind, ia3] <;> omega
    · simp [cnt_function_expression, occ_function_expression, ind, ia4] <;> omega
termination_by x => sizeOf x

theorem cnt_occ_function_call : ∀ (c : FunctionCall),
    CntOcc (fun k => cnt_function_call k c) (fun k => occ_function_call k c)
  | .mk callPrefix arguments method => by
    obtain ⟨ia1, ia2, ia3, ia4⟩ := cnt_occ_prefix callPrefix
    obtain ⟨ib1, ib2, ib3, ib4⟩ := cnt_occ_arguments arguments
    refine ⟨fun k h1 h2 h3 => ?_, ?_, ?_, ?_⟩
    · simp [cnt_function_call, occ_function_call, ia1 k h1 h2 h3, ib1 k h1 h2 h3] <;> omega
    · simp [cnt_function_call, occ_function_call, ind, ia2, ib2] <;> omega
    · simp [cnt_function_call, occ_function_call, ind, ia3, ib3] <;> omega
    · simp [cnt_function_call, occ_function_call, ind, ia4, ib4] <;> omega
termination_by x => sizeOf x

theorem cnt_occ_arguments : ∀ (a : Arguments),
    CntOcc (fun k => cnt_arguments k a) (fun k => occ_arguments k a)
  | .string str => by
    refine ⟨fun k h1 h2 h3 => ?_, ?_, ?_, ?_⟩ <;> simp [cnt_arguments, occ_arguments, ind]
  | .table t => by
    obtain ⟨ia1, ia2, ia3, ia4⟩ := cnt_occ_table t
    refine ⟨fun k h1 h2 h3 => ?_, ?_, ?_, ?_⟩
    · simp [cnt_arguments, occ_arguments, ia1 k h1 h2 h3] <;> omega
    · simp [cnt_arguments, occ_arguments, ia2] <;> omega
    · simp [cnt_arguments, occ_arguments, ia3] <;> omega
    · simp [cnt_arguments, occ_arguments, ia4] <;> omega
  | .tuple expressions => by
    obtain ⟨ia1, ia2, ia3, ia4⟩ := cnt_occ_expression_list expressions
    refine ⟨fun k h1 h2 h3 => ?_, ?_, ?_, ?_⟩
    · simp [cnt_arguments, occ_arguments, ia1 k h1 h2 h3] <;> omega
    · simp [cnt_arguments, occ_arguments, ia2] <;> omega
    · simp [cnt_arguments, occ_arguments, ia3] <;> omega
    · simp [cnt_arguments, occ_arguments, ia4] <;> omega
termination_by x => sizeOf x

theorem cnt_occ_field_expression : ∀ (f : FieldExpression),
    CntOcc (fun k => cnt_field_expression k f) (fun k => occ_field_expression k f)
  | .mk fieldPrefix field => by
    obtain ⟨ia1, ia2, ia3, ia4⟩ := cnt_occ_prefix fieldPrefix
    refine ⟨fun k h1 h2 h3 => ?_, ?_, ?_, ?_⟩
    · simp [cnt_field_expression, occ_field_expression, ia1 k h1 h2 h3] <;> omega
    · simp [cnt_field_expression, occ_field_expression, ind, ia2] <;> omega
    · simp [cnt_field_expression, occ_field_expression, ind, ia3] <;> omega
    · simp [cnt_field_expression, occ_field_expression, ind, ia4] <;> omega
termination_by x => sizeOf x

theorem cnt_occ_index_expression : ∀ (i : IndexExpression),
    CntOcc (fun k => cnt_index_expression k i) (fun k => occ_index_expression k i)
  | .mk indexPrefix index => by
    obtain ⟨ia1, ia2, ia3, ia4⟩ := cnt_occ_prefix indexPrefix
    obtain ⟨ib1, ib2, ib3, ib4⟩ := cnt_occ_expression index
    refine ⟨fun k h1 h2 h3 => ?_, ?_, ?_, ?_⟩
    · simp [cnt_index_expression, occ_index_expression, ia1 k h1 h2 h3,
        ib1 k h1 h2 h3] <;> omega
    · simp [cnt_index_expression, occ_index_expression, ind, ia2, ib2] <;> omega
    · simp [cnt_index_expression, occ_index_expression, ind, ia3, ib3] <;> omega
    · simp [cnt_index_expression, occ_index_expression, ind, ia4, ib4] <;> omega
termination_by x => sizeOf x

theorem cnt_occ_table : ∀ (t : TableExpression),
    CntOcc (fun k => cnt_table k t) (fun k => occ_table k t)
  | .mk entries => by
    obtain ⟨ia1, ia2, ia3, ia4⟩ := cnt_occ_table_entry_list entries
    refine ⟨fun k h1 h2 h3 => ?_, ?_, ?_, ?_⟩
    · simp [cnt_table, occ_table, ia1 k h1 h2 h3] <;> omega
    · simp [cnt_table, occ_table, ind, ia2] <;> omega
    · simp [cnt_table, occ_table, ind, ia3] <;> omega
    · simp [cnt_table, occ_table, ind, ia4] <;> omega
termination_by x => sizeOf x

theorem cnt_occ_table_entry : ∀ (entry : TableEntry),
    CntOcc (fun k => cnt_table_entry k entry) (fun k => occ_table_entry k entry)
  | .fieldEntry name value => by
    obtain ⟨ia1, ia2, ia3, ia4⟩ := cnt_occ_expression value
    refine ⟨fun k h1 h2 h3 => ?_, ?_, ?_, ?_⟩
    · simp [cnt_table_entry, occ_table_entry, ia1 k h1 h2 h3] <;> omega
    · simp [cnt_table_entry, occ_table_entry, ia2] <;> omega
    · simp [cnt_table_entry, occ_table_entry, ia3] <;> omega
    · simp [cnt_table_entry, occ_table_entry, ia4] <;> omega
  | .indexEntry key value => by
    obtain ⟨ia1, ia2, ia3, ia4⟩ := cnt_occ_expression key
    obtain ⟨ib1, ib2, ib3, ib4⟩ := cnt_occ_expression value
    refine ⟨fun k h1 h2 h3 => ?_, ?_, ?_, ?_⟩
    · simp [cnt_table_entry, occ_table_entry, ia1 k h1 h2 h3, ib1 k h1 h2 h3] <;> omega
    · simp [cnt_table_entry, occ_table_entry, ia2, ib2] <;> omega
    · simp [cnt_table_entry, occ_table_entry, ia3, ib3] <;> omega
    · simp [cnt_table_entry, occ_table_entry, ia4, ib4] <;> omega
  | .valueEntry value => by
    obtain ⟨ia1, ia2, ia3, ia4⟩ := cnt_occ_expression value
    refine ⟨fun k h1 h2 h3 => ?_, ?_, ?_, ?_⟩
    · simp [cnt_table_entry, occ_table_entry, ia1 k h1 h2 h3] <;> omega
    · simp [cnt_table_entry, occ_table_entry, ia2] <;> omega
    · simp [cnt_table_entry, occ_table_entry, ia3] <;> omega
    · simp [cnt_table_entry, occ_table_entry, ia4] <;> omega
termination_by x => sizeOf x

theorem cnt_occ_table_entry_list : ∀ (l : List TableEntry),
    CntOcc (fun k => cnt_table_entry_list k l) (fun k => occ_table_entry_list k l)
  | [] => by
    refine ⟨fun k h1 h2 h3 => ?_, ?_, ?_, ?_⟩ <;>
      simp [cnt_table_entry_list, occ_table_entry_list]
  | entry :: rest => by
    obtain ⟨ia1, ia2, ia3, ia4⟩ := cnt_occ_table_entry entry
    obtain ⟨ib1, ib2, ib3, ib4⟩ := cnt_occ_table_entry_list rest
    refine ⟨fun k h1 h2 h3 => ?_, ?_, ?_, ?_⟩
    · simp [cnt_table_entry_list, occ_table_entry_list, ia1 k h1 h2 h3,
        ib1 k h1 h2 h3] <;> omega
    · simp [cnt_table_entry_list, occ_table_entry_list, ia2, ib2] <;> omega
    · simp [cnt_table_entry_list, occ_table_entry_list, ia3, ib3] <;> omega
    · simp [cnt_table_entry_list, occ_table_entry_list, ia4, ib4] <;> omega
termination_by x => sizeOf x

theorem cnt_occ_prefix : ∀ (pfx : Prefix),
    CntOcc (fun k => cnt_prefix k pfx) (fun k => occ_prefix k pfx)
  | .identifier name => by
    refine ⟨fun k h1 h2 h3 => ?_, ?_, ?_, ?_⟩ <;> simp [ cnt_prefix, occ_prefix, ind]
  | .call c => by
    obtain ⟨ia1, ia2, ia3, ia4⟩ := cnt_occ_function_call c
    refine ⟨fun k h1 h2 h3 => ?_, ?_, ?_, ?_⟩
    · simp [ cnt_prefix, occ_prefix, ia1 k h1 h2 h3] <;> omega
    · simp [ cnt_prefix, occ_prefix, ind, ia2] <;> omega
    · simp [ cnt_prefix, occ_prefix, ind, ia3] <;> omega
    · simp [ cnt_prefix, occ_prefix, ind, ia4] <;> omega
  | .field f => by
    obtain ⟨ia1, ia2, ia3, ia4⟩ := cnt_occ_field_expression f
    refine ⟨fun k h1 h2 h3 => ?_, ?_, ?_, ?_⟩
    · simp [ cnt_prefix, occ_prefix, ia1 k h1 h2 h3] <;> omega
    · simp [ cnt_prefix, occ_prefix, ind, ia2] <;> omega
    · simp [ cnt_prefix, occ_prefix, ind, ia3] <;> omega
    · simp [ cnt_prefix, occ_prefix, ind, ia4] <;> omega
  | .index i => by
    obtain ⟨ia1, ia2, ia3, ia4⟩ := cnt_occ_index_expression i
    refine ⟨fun k h1 h2 h3 => ?_, ?_, ?_, ?_⟩
    · simp [ cnt_prefix, occ_prefix, ia1 k h1 h2 h3] <;> omega
    · simp [ cnt_prefix, occ_prefix, ind, ia2] <;> omega
    · simp [ cnt_prefix, occ_prefix, ind, ia3] <;> omega
    · simp [ cnt_prefix, occ_prefix, ind, ia4] <;> omega
  | .parenthese e => by
    obtain ⟨ia1, ia2, ia3, ia4⟩ := cnt_occ_expression e
    refine ⟨fun k h1 h2 h3 => ?_, ?_, ?_, ?_⟩
    · simp [ cnt_prefix, occ_prefix, ia1 k h1 h2 h3, ind_ne _ _ (Ne.symm h1)] <;> omega
    · simp [ cnt_prefix, occ_prefix, ind, ia2] <;> omega
    · simp [ cnt_prefix, occ_prefix, ind, ia3] <;> omega
    · simp [ cnt_prefix, occ_prefix, ind, ia4] <;> omega
termination_by x => sizeOf x

theorem cnt_occ_lux_expression : ∀ (l : LUXExpression),
    CntOcc (fun k => cnt_lux_expression k l) (fun k => occ_lux_expression k l)
  | .luxElement e => by
    obtain ⟨ia1, ia2, ia3, ia4⟩ := cnt_occ_lux_element e
    refine ⟨fun k h1 h2 h3 => ?_, ?_, ?_, ?_⟩
    · simp [cnt_lux_expression, occ_lux_expression, ia1 k h1 h2 h3] <;> omega
    · simp [cnt_lux_expression, occ_lux_expression, ind, ia2] <;> omega
    · simp [cnt_lux_expression, occ_lux_expression, ind, ia3] <;> omega
    · simp [cnt_lux_expression, occ_lux_expression, ind, ia4] <;> omega
  | .luxFragment f => by
    obtain ⟨ia1, ia2, ia3, ia4⟩ := cnt_occ_lux_fragment f
    refine ⟨fun k h1 h2 h3 => ?_, ?_, ?_, ?_⟩
    · simp [cnt_lux_expression, occ_lux_expression, ia1 k h1 h2 h3] <;> omega
    · simp [cnt_lux_expression, occ_lux_expression, ind, ia2] <;> omega
    · simp [cnt_lux_expression, occ_lux_expression, ind, ia3] <;> omega
    · simp [cnt_lux_expression, occ_lux_expression, ind, ia4] <;> omega
termination_by x => sizeOf x

theorem cnt_occ_lux_element : ∀ (e : LUXElement),
    CntOcc (fun k => cnt_lux_element k e) (fun k => occ_lux_element k e)
  | .element (.mk name attributes children) => by
    obtain ⟨ia1, ia2, ia3, ia4⟩ := cnt_occ_lux_attribute_list attributes
    obtain ⟨ib1, ib2, ib3, ib4⟩ := cnt_occ_lux_child_list children
    refine ⟨fun k h1 h2 h3 => ?_, ?_, ?_, ?_⟩
    · simp [cnt_lux_element, occ_lux_element, ia1 k h1 h2 h3, ib1 k h1 h2 h3] <;> omega
    · simp [cnt_lux_element, occ_lux_element, ind, ia2, ib2] <;> omega
    · simp [cnt_lux_element, occ_lux_element, ind, ia3, ib3] <;> omega
    · simp [cnt_lux_element, occ_lux_element, ind, ia4, ib4] <;> omega
  | .selfClosingElement (.mk name attributes) => by
    obtain ⟨ia1, ia2, ia3, ia4⟩ := cnt_occ_lux_attribute_list attributes
    refine ⟨fun k h1 h2 h3 => ?_, ?_, ?_, ?_⟩
    · simp [cnt_lux_element, occ_lux_element, ia1 k h1 h2 h3] <;> omega
    · simp [cnt_lux_element, occ_lux_element, ind, ia2] <;> omega
    · simp [cnt_lux_element, occ_lux_element, ind, ia3] <;> omega
    · simp [cnt_lux_element, occ_lux_element, ind, ia4] <;> omega
termination_by x => sizeOf x

theorem cnt_occ_lux_fragment : ∀ (f : LUXFragment),
    CntOcc (fun k => cnt_lux_fragment k f) (fun k => occ_lux_fragment k f)
  | .mk children => by
    obtain ⟨ia1, ia2, ia3, ia4⟩ := cnt_occ_lux_child_list children
    refine ⟨fun k h1 h2 h3 => ?_, ?_, ?_, ?_⟩
    · simp [cnt_lux_fragment, occ_lux_fragment, ia1 k h1 h2 h3] <;> omega
    · simp [cnt_lux_fragment, occ_lux_fragment, ind, ia2] <;> omega
    · simp [cnt_lux_fragment, occ_lux_fragment, ind, ia3] <;> omega
    · simp [cnt_lux_fragment, occ_lux_fragment, ind, ia4] <;> omega
termination_by x => sizeOf x

theorem cnt_occ_lux_child_list : ∀ (l : List LUXChild),
    CntOcc (fun k => cnt_lux_child_list k l) (fun k => occ_lux_child_list k l)
  | [] => by
    refine ⟨fun k h1 h2 h3 => ?_, ?_, ?_, ?_⟩ <;>
      simp [cnt_lux_child_list, occ_lux_child_list]
  | child :: rest => by
    obtain ⟨ia1, ia2, ia3, ia4⟩ := cnt_occ_lux_child child
    obtain ⟨ib1, ib2, ib3, ib4⟩ := cnt_occ_lux_child_list rest
    refine ⟨fun k h1 h2 h3 => ?_, ?_, ?_, ?_⟩
    · simp [cnt_lux_child_list, occ_lux_child_list, ia1 k h1 h2 h3, ib1 k h1 h2 h3,
        ind_ne _ _ (Ne.symm h2)] <;> omega
    · simp [cnt_lux_child_list, occ_lux_child_list, ind, ia2, ib2] <;> omega
    · have hb : cnt_lux_child_list HookKind.luxChild rest
          = 2 * occ_lux_child_list HookKind.luxChild rest := ib3
      simp [cnt_lux_child_list, occ_lux_child_list, ind]
      omega
    · simp [cnt_lux_child_list, occ_lux_child_list, ind, ia4, ib4] <;> omega
termination_by x => sizeOf x

theorem cnt_occ_lux_child : ∀ (c : LUXChild),
    (∀ k, k ≠ HookKind.parentheseExpression → k ≠ HookKind.luxChild →
        k ≠ HookKind.variableExpression → cnt_lux_child k c = occ_lux_child k c) ∧
    cnt_lux_child HookKind.parentheseExpression c = 0 ∧
    cnt_lux_child HookKind.luxChild c + 1 = 2 * occ_lux_child HookKind.luxChild c ∧
    cnt_lux_child HookKind.variableExpression c
      = occ_lux_child HookKind.variableExpression c
        + occ_lux_child HookKind.functionStatement c
  | .childElement e => by
    obtain ⟨ia1, ia2, ia3, ia4⟩ := cnt_occ_lux_element e
    refine ⟨fun k h1 h2 h3 => ?_, ?_, ?_, ?_⟩
    · simp [cnt_lux_child, occ_lux_child, ia1 k h1 h2 h3] <;> omega
    · simp [cnt_lux_child, occ_lux_child, ind, ia2] <;> omega
    · simp [cnt_lux_child, occ_lux_child, ind, ia3] <;> omega
    · simp [cnt_lux_child, occ_lux_child, ind, ia4] <;> omega
  | .childFragment f => by
    obtain ⟨ia1, ia2, ia3, ia4⟩ := cnt_occ_lux_fragment f
    refine ⟨fun k h1 h2 h3 => ?_, ?_, ?_, ?_⟩
    · simp [cnt_lux_child, occ_lux_child, ia1 k h1 h2 h3] <;> omega
    · simp [cnt_lux_child, occ_lux_child, ind, ia2] <;> omega
    · simp [cnt_lux_child, occ_lux_child, ind, ia3] <;> omega
    · simp [cnt_lux_child, occ_lux_child, ind, ia4] <;> omega
  | .expandedExpression e => by
    obtain ⟨ia1, ia2, ia3, ia4⟩ := cnt_occ_expression e
    refine ⟨fun k h1 h2 h3 => ?_, ?_, ?_, ?_⟩
    · simp [cnt_lux_child, occ_lux_child, ia1 k h1 h2 h3] <;> omega
    · simp [cnt_lux_child, occ_lux_child, ind, ia2] <;> omega
    · simp [cnt_lux_child, occ_lux_child, ind, ia3] <;> omega
    · simp [cnt_lux_child, occ_lux_child, ind, ia4] <;> omega
  | .expression none => by
    refine ⟨fun k h1 h2 h3 => ?_, ?_, ?_, ?_⟩ <;>
      simp [cnt_lux_child, occ_lux_child, ind]
  | .expression (some e) => by
    obtain ⟨ia1, ia2, ia3, ia4⟩ := cnt_occ_expression e
    refine ⟨fun k h1 h2 h3 => ?_, ?_, ?_, ?_⟩
    · simp [cnt_lux_child, occ_lux_child, ia1 k h1 h2 h3] <;> omega
    · simp [cnt_lux_child, occ_lux_child, ind, ia2] <;> omega
    · simp [cnt_lux_child, occ_lux_child, ind, ia3] <;> omega
    · simp [cnt_lux_child, occ_lux_child, ind, ia4] <;> omega
termination_by x => sizeOf x

theorem cnt_occ_lux_attribute_list : ∀ (l : List LUXAttribute),
    CntOcc (fun k => cnt_lux_attribute_list k l) (fun k => occ_lux_attribute_list k l)
  | [] => by
    refine ⟨fun k h1 h2 h3 => ?_, ?_, ?_, ?_⟩ <;>
      simp [cnt_lux_attribute_list, occ_lux_attribute_list]
  | a :: rest => by
    obtain ⟨ia1, ia2, ia3, ia4⟩ := cnt_occ_lux_attribute a
    obtain ⟨ib1, ib2, ib3, ib4⟩ := cnt_occ_lux_attribute_list rest
    refine ⟨fun k h1 h2 h3 => ?_, ?_, ?_, ?_⟩
    · simp [cnt_lux_attribute_list, occ_lux_attribute_list, ia1 k h1 h2 h3,
        ib1 k h1 h2 h3] <;> omega
    · simp [cnt_lux_attribute_list, occ_lux_attribute_list, ia2, ib2] <;> omega
    · simp [cnt_lux_attribute_list, occ_lux_attribute_list, ia3, ib3] <;> omega
    · simp [cnt_lux_attribute_list, occ_lux_attribute_list, ia4, ib4] <;> omega
termination_by x => sizeOf x

theorem cnt_occ_lux_attribute : ∀ (a : LUXAttribute),
    CntOcc (fun k => cnt_lux_attribute k a) (fun k => occ_lux_attribute k a)
  | .named name none => by
    refine ⟨fun k h1 h2 h3 => ?_, ?_, ?_, ?_⟩ <;>
      simp [cnt_lux_attribute, occ_lux_attribute, ind]
  | .named name (some value) => by
    obtain ⟨ia1, ia2, ia3, ia4⟩ := cnt_occ_lux_attribute_value value
    refine ⟨fun k h1 h2 h3 => ?_, ?_, ?_, ?_⟩
    · simp [cnt_lux_attribute, occ_lux_attribute, ia1 k h1 h2 h3] <;> omega
    · simp [cnt_lux_attribute, occ_lux_attribute, ind, ia2] <;> omega
    · simp [cnt_lux_attribute, occ_lux_attribute, ind, ia3] <;> omega
    · simp [cnt_lux_attribute, occ_lux_attribute, ind, ia4] <;> omega
  | .spread e => by
    obtain ⟨ia1, ia2, ia3, ia4⟩ := cnt_occ_expression e
    refine ⟨fun k h1 h2 h3 => ?_, ?_, ?_, ?_⟩
    · simp [cnt_lux_attribute, occ_lux_attribute, ia1 k h1 h2 h3] <;> omega
    · simp [cnt_lux_attribute, occ_lux_attribute, ind, ia2] <;> omega
    · simp [cnt_lux_attribute, occ_lux_attribute, ind, ia3] <;> omega
    · simp [cnt_lux_attribute, occ_lux_attribute, ind, ia4] <;> omega
termination_by x => sizeOf x

theorem cnt_occ_lux_attribute_value : ∀ (v : LUXAttributeValue),
    CntOcc (fun k => cnt_lux_attribute_value k v) (fun k => occ_lux_attribute_value k v)
  | .doubleQuoteString str => by
    refine ⟨fun k h1 h2 h3 => ?_, ?_, ?_, ?_⟩ <;>
      simp [cnt_lux_attribute_value, occ_lux_attribute_value, ind]
  | .singleQuoteString str => by
    refine ⟨fun k h1 h2 h3 => ?_, ?_, ?_, ?_⟩ <;>
      simp [cnt_lux_attribute_value, occ_lux_attribute_value, ind]
  | .luaExpression e => by
    obtain ⟨ia1, ia2, ia3, ia4⟩ := cnt_occ_expression e
    refine ⟨fun k h1 h2 h3 => ?_, ?_, ?_, ?_⟩
    · simp [cnt_lux_attribute_value, occ_lux_attribute_value, ia1 k h1 h2 h3] <;> omega
    · simp [cnt_lux_attribute_value, occ_lux_attribute_value, ind, ia2] <;> omega
    · simp [cnt_lux_attribute_value, occ_lux_attribute_value, ind, ia3] <;> omega
    · simp [cnt_lux_attribute_value, occ_lux_attribute_value, ind, ia4] <;> omega
  | .luxElementValue e => by
    obtain ⟨ia1, ia2, ia3, ia4⟩ := cnt_occ_lux_element e
    refine ⟨fun k h1 h2 h3 => ?_, ?_, ?_, ?_⟩
    · simp [cnt_lux_attribute_value, occ_lux_attribute_value, ia1 k h1 h2 h3] <;> omega
    · simp [cnt_lux_attribute_value, occ_lux_attribute_value, ind, ia2] <;> omega
    · simp [cnt_lux_attribute_value, occ_lux_attribute_value, ind, ia3] <;> omega
    · simp [cnt_lux_attribute_value, occ_lux_attribute_value, ind, ia4] <;> omega
  | .luxFragmentValue f => by
    obtain ⟨ia1, ia2, ia3, ia4⟩ := cnt_occ_lux_fragment f
    refine ⟨fun k h1 h2 h3 => ?_, ?_, ?_, ?_⟩
    · simp [cnt_lux_attribute_value, occ_lux_attribute_value, ia1 k h1 h2 h3] <;> omega
    · simp [cnt_lux_attribute_value, occ_lux_attribute_value, ind, ia2] <;> omega
    · simp [cnt_lux_attribute_value, occ_lux_attribute_value, ind, ia3] <;> omega
    · simp [cnt_lux_attribute_value, occ_lux_attribute_value, ind, ia4] <;> omega
termination_by x => sizeOf x

end

theorem np_block {σ : Type} (s : σ) (n : Block) :
    (noopProcessorMut σ).process_block s n = (n, s) := rfl

theorem np_statement {σ : Type} (s : σ) (n : Statement) :
    (noopProcessorMut σ).process_statement s n = (n, s) := rfl

theorem np_function_call {σ : Type} (s : σ) (n : FunctionCall) :
    (noopProcessorMut σ).process_function_call s n = (n, s) := rfl

theorem np_assign {σ : Type} (s : σ) (n : AssignStatement) :
    (noopProcessorMut σ).process_assign_statement s n = (n, s) := rfl

theorem np_do {σ : Type} (s : σ) (n : DoStatement) :
    (noopProcessorMut σ).process_do_statement s n = (n, s) := rfl

theorem np_function_statement {σ : Type} (s : σ) (n : FunctionStatement) :
    (noopProcessorMut σ).process_function_statement s n = (n, s) := rfl

theorem np_generic_for {σ : Type} (s : σ) (n : GenericForStatement) :
    (noopProcessorMut σ).process_generic_for_statement s n = (n, s) := rfl

theorem np_if {σ : Type} (s : σ) (n : IfStatement) :
    (noopProcessorMut σ).process_if_statement s n = (n, s) := rfl

theorem np_last {σ : Type} (s : σ) (n : LastStatement) :
    (noopProcessorMut σ).process_last_statement s n = (n, s) := rfl

theorem np_local_assign {σ : Type} (s : σ) (n : LocalAssignStatement) :
    (noopProcessorMut σ).process_local_assign_statement s n = (n, s) := rfl

theorem np_local_function {σ : Type} (s : σ) (n : LocalFunctionStatement) :
    (noopProcessorMut σ).process_local_function_statement s n = (n, s) := rfl

theorem np_numeric_for {σ : Type} (s : σ) (n : NumericForStatement) :
    (noopProcessorMut σ).process_numeric_for_statement s n = (n, s) := rfl

theorem np_repeat {σ : Type} (s : σ) (n : RepeatStatement) :
    (noopProcessorMut σ).process_repeat_statement s n = (n, s) := rfl

theorem np_while {σ : Type} (s : σ) (n : WhileStatement) :
    (noopProcessorMut σ).process_while_statement s n = (n, s) := rfl

theorem np_expression {σ : Type} (s : σ) (n : Expression) :
    (noopProcessorMut σ).process_expression s n = (n, s) := rfl

theorem np_binary {σ : Type} (s : σ) (n : BinaryExpression) :
    (noopProcessorMut σ).process_binary_expression s n = (n, s) := rfl

theorem np_field {σ : Type} (s : σ) (n : FieldExpression) :
    (noopProcessorMut σ).process_field_expression s n = (n, s) := rfl

theorem np_function_expression {σ : Type} (s : σ) (n : FunctionExpression) :
    (noopProcessorMut σ).process_function_expression s n = (n, s) := rfl

theorem np_variable {σ : Type} (s : σ) (n : String) :
    (noopProcessorMut σ).process_variable_expression s n = (n, s) := rfl

theorem np_index {σ : Type} (s : σ) (n : IndexExpression) :
    (noopProcessorMut σ).process_index_expression s n = (n, s) := rfl

theorem np_number {σ : Type} (s : σ) (n : NumberExpression) :
    (noopProcessorMut σ).process_number_expression s n = (n, s) := rfl

theorem np_prefix_expression {σ : Type} (s : σ) (n : Prefix) :
    (noopProcessorMut σ).process_prefix_expression s n = (n, s) := rfl

theorem np_string {σ : Type} (s : σ) (n : StringExpression) :
    (noopProcessorMut σ).process_string_expression s n = (n, s) := rfl

theorem np_table {σ : Type} (s : σ) (n : TableExpression) :
    (noopProcessorMut σ).process_table_expression s n = (n, s) := rfl

theorem np_unary {σ : Type} (s : σ) (n : UnaryExpression) :
    (noopProcessorMut σ).process_unary_expression s n = (n, s) := rfl

theorem np_lux_expression {σ : Type} (s : σ) (n : LUXExpression) :
    (noopProcessorMut σ).process_lux_expression s n = (n, s) := rfl

theorem np_lux_element {σ : Type} (s : σ) (n : LUXElement) :
    (noopProcessorMut σ).process_lux_element s n = (n, s) := rfl

theorem np_lux_open_close {σ : Type} (s : σ) (n : LUXOpenCloseElement) :
    (noopProcessorMut σ).process_lux_open_close_element s n = (n, s) := rfl

theorem np_lux_self_closing {σ : Type} (s : σ) (n : LUXSelfClosingElement) :
    (noopProcessorMut σ).process_lux_self_closing_element s n = (n, s) := rfl

theorem np_lux_fragment {σ : Type} (s : σ) (n : LUXFragment) :
    (noopProcessorMut σ).process_lux_fragment s n = (n, s) := rfl

theorem np_lux_child {σ : Type} (s : σ) (n : LUXChild) :
    (noopProcessorMut σ).process_lux_child s n = (n, s) := rfl

theorem np_lux_attribute {σ : Type} (s : σ) (n : LUXAttribute) :
    (noopProcessorMut σ).process_lux_attribute s n = (n, s) := rfl

theorem np_lux_attribute_value {σ : Type} (s : σ) (n : LUXAttributeValue) :
    (noopProcessorMut σ).process_lux_attribute_value s n = (n, s) := rfl


mutual

theorem noop_visit_block_mut {σ : Type} : ∀ (fuel : Nat) (s : σ) (b : Block),
    sizeOf b ≤ fuel → visit_block_mut (noopProcessorMut σ) fuel s b = some (b, s)
  | 0, _s, b, h => absurd h (by cases b <;> simp <;> omega)
  | fuel+1, s, .mk stmts none, h => by
    simp only [visit_block_mut, np_block]
    simp only [noop_visit_statement_list_mut fuel s stmts (by simp at h; omega)]
  | fuel+1, s, .mk stmts (some .breakStmt), h => by
    simp only [visit_block_mut, np_block, np_last]
    simp only [noop_visit_statement_list_mut fuel s stmts (by simp at h; omega)]
  | fuel+1, s, .mk stmts (some (.returnStmt es)), h => by
    simp only [visit_block_mut, np_block, np_last]
    simp only [noop_visit_statement_list_mut fuel s stmts (by simp at h; omega)]
    simp only [noop_visit_expression_list_mut fuel s es (by simp at h; omega)]
termination_by fuel s x h => fuel

theorem noop_visit_statement_list_mut {σ : Type} : ∀ (fuel : Nat) (s : σ) (l : List Statement),
    sizeOf l ≤ fuel →
    visit_statement_list_mut (noopProcessorMut σ) fuel s l = some (l, s)
  | 0, _s, l, h => absurd h (by cases l <;> simp <;> omega)
  | _fuel+1, _s, [], _h => rfl
  | fuel+1, s, st :: rest, h => by
    simp only [visit_statement_list_mut]
    simp only [noop_visit_statement_mut fuel s st (by simp at h; omega)]
    simp only [noop_visit_statement_list_mut fuel s rest (by simp at h; omega)]
termination_by fuel s x h => fuel

theorem noop_visit_expression_list_mut {σ : Type} :
    ∀ (fuel : Nat) (s : σ) (l : List Expression),
    sizeOf l ≤ fuel →
    visit_expression_list_mut (noopProcessorMut σ) fuel s l = some (l, s)
  | 0, _s, l, h => absurd h (by cases l <;> simp <;> omega)
  | _fuel+1, _s, [], _h => rfl
  | fuel+1, s, e :: rest, h => by
    simp only [visit_expression_list_mut]
    simp only [noop_visit_expression_mut fuel s e (by simp at h; omega)]
    simp only [noop_visit_expression_list_mut fuel s rest (by simp at h; omega)]
termination_by fuel s x h => fuel

theorem noop_visit_statement_mut {σ : Type} : ∀ (fuel : Nat) (s : σ) (st : Statement),
    sizeOf st ≤ fuel → visit_statement_mut (noopProcessorMut σ) fuel s st = some (st, s)
  | 0, _s, st, h => absurd h (by cases st <;> simp <;> omega)
  | fuel+1, s, .assign st, h => by
    simp only [visit_statement_mut, np_statement]
    simp only [noop_visit_assign_statement_mut fuel s st (by simp at h; omega)]
  | fuel+1, s, .doStmt st, h => by
    simp only [visit_statement_mut, np_statement]
    simp only [noop_visit_do_statement_mut fuel s st (by simp at h; omega)]
  | fuel+1, s, .call c, h => by
    simp only [visit_statement_mut, np_statement]
    simp only [noop_visit_function_call_mut fuel s c (by simp at h; omega)]
  | fuel+1, s, .functionStmt st, h => by
    simp only [visit_statement_mut, np_statement]
    simp only [noop_visit_function_statement_mut fuel s st (by simp at h; omega)]
  | fuel+1, s, .genericFor st, h => by
    simp only [visit_statement_mut, np_statement]
    simp only [noop_visit_generic_for_mut fuel s st (by simp at h; omega)]
  | fuel+1, s, .ifStmt st, h => by
    simp only [visit_statement_mut, np_statement]
    simp only [noop_visit_if_statement_mut fuel s st (by simp at h; omega)]
  | fuel+1, s, .localAssign st, h => by
    simp only [visit_statement_mut, np_statement]
    simp only [noop_visit_local_assign_mut fuel s st (by simp at h; omega)]
  | fuel+1, s, .localFunction st, h => by
    simp only [visit_statement_mut, np_statement]
    simp only [noop_visit_local_function_mut fuel s st (by simp at h; omega)]
  | fuel+1, s, .numericFor st, h => by
    simp only [visit_statement_mut, np_statement]
    simp only [noop_visit_numeric_for_mut fuel s st (by simp at h; omega)]
  | fuel+1, s, .repeatStmt st, h => by
    simp only [visit_statement_mut, np_statement]
    simp only [noop_visit_repeat_statement_mut fuel s st (by simp at h; omega)]
  | fuel+1, s, .whileStmt st, h => by
    simp only [visit_statement_mut, np_statement]
    simp only [noop_visit_while_statement_mut fuel s st (by simp at h; omega)]
termination_by fuel s x h => fuel

theorem noop_visit_expression_mut {σ : Type} : ∀ (fuel : Nat) (s : σ) (e : Expression),
    sizeOf e ≤ fuel → visit_expression_mut (noopProcessorMut σ) fuel s e = some (e, s)
  | 0, _s, e, h => absurd h (by cases e <;> simp <;> omega)
  | _fuel+1, _s, .nilExpr, _h => rfl
  | _fuel+1, _s, .trueExpr, _h => rfl
  | _fuel+1, _s, .falseExpr, _h => rfl
  | _fuel+1, _s, .variableArguments, _h => rfl
  | _fuel+1, _s, .number _n, _h => rfl
  | _fuel+1, _s, .stringExpr _str, _h => rfl
  | _fuel+1, _s, .identifier _name, _h => rfl
  | fuel+1, s, .binary (.mk op l r), h => by
    simp only [visit_expression_mut, np_expression, np_binary]
    simp only [noop_visit_expression_mut fuel s l (by simp at h; omega)]
    simp only [noop_visit_expression_mut fuel s r (by simp at h; omega)]
  | fuel+1, s, .unary (.mk op e), h => by
    simp only [visit_expression_mut, np_expression, np_unary]
    simp only [noop_visit_expression_mut fuel s e (by simp at h; omega)]
  | fuel+1, s, .parenthese e, h => by
    simp only [visit_expression_mut, np_expression]
    simp only [noop_visit_expression_mut fuel s e (by simp at h; omega)]
  | fuel+1, s, .functionExpr f, h => by
    simp only [visit_expression_mut, np_expression]
    simp only [noop_visit_function_expression_mut fuel s f (by simp at h; omega)]
  | fuel+1, s, .call c, h => by
    simp only [visit_expression_mut, np_expression]
    simp only [noop_visit_function_call_mut fuel s c (by simp at h; omega)]
  | fuel+1, s, .field f, h => by
    simp only [visit_expression_mut, np_expression]
    simp only [noop_visit_field_expression_mut fuel s f (by simp at h; omega)]
  | fuel+1, s, .index i, h => by
    simp only [visit_expression_mut, np_expression]
    simp only [noop_visit_index_expression_mut fuel s i (by simp at h; omega)]
  | fuel+1, s, .table t, h => by
    simp only [visit_expression_mut, np_expression]
    simp only [noop_visit_table_mut fuel s t (by simp at h; omega)]
  | fuel+1, s, .lux l, h => by
    simp only [visit_expression_mut, np_expression]
    simp only [noop_visit_lux_expression_mut fuel s l (by simp at h; omega)]
termination_by fuel s x h => fuel

theorem noop_visit_function_expression_mut {σ : Type} :
    ∀ (fuel : Nat) (s : σ) (f : FunctionExpression),
    sizeOf f ≤ fuel →
    visit_function_expression_mut (noopProcessorMut σ) fuel s f = some (f, s)
  | 0, _s, f, h => absurd h (by cases f <;> simp <;> omega)
  | fuel+1, s, .mk parameters isVariadic block, h => by
    simp only [visit_function_expression_mut, np_function_expression]
    simp only [noop_visit_block_mut fuel s block (by simp at h; omega)]
termination_by fuel s x h => fuel

theorem noop_visit_assign_statement_mut {σ : Type} :
    ∀ (fuel : Nat) (s : σ) (st : AssignStatement),
    sizeOf st ≤ fuel →
    visit_assign_statement_mut (noopProcessorMut σ) fuel s st = some (st, s)
  | 0, _s, st, h => absurd h (by cases st <;> simp <;> omega)
  | fuel+1, s, .mk vars values, h => by
    simp only [visit_assign_statement_mut, np_assign]
    simp only [noop_visit_variable_list_mut fuel s vars (by simp at h; omega)]
    simp only [noop_visit_expression_list_mut fuel s values (by simp at h; omega)]
termination_by fuel s x h => fuel

theorem noop_visit_variable_mut {σ : Type} : ∀ (fuel : Nat) (s : σ) (v : Variable),
    sizeOf v ≤ fuel → visit_variable_mut (noopProcessorMut σ) fuel s v = some (v, s)
  | 0, _s, v, h => absurd h (by cases v <;> simp <;> omega)
  | _fuel+1, _s, .identifier _name, _h => rfl
  | fuel+1, s, .field f, h => by
    simp only [visit_variable_mut]
    simp only [noop_visit_field_expression_mut fuel s f (by simp at h; omega)]
  | fuel+1, s, .index i, h => by
    simp only [visit_variable_mut]
    simp only [noop_visit_index_expression_mut fuel s i (by simp at h; omega)]
termination_by fuel s x h => fuel

theorem noop_visit_variable_list_mut {σ : Type} : ∀ (fuel : Nat) (s : σ) (l : List Variable),
    sizeOf l ≤ fuel →
    visit_variable_list_mut (noopProcessorMut σ) fuel s l = some (l, s)
  | 0, _s, l, h => absurd h (by cases l <;> simp <;> omega)
  | _fuel+1, _s, [], _h => rfl
  | fuel+1, s, v :: rest, h => by
    simp only [visit_variable_list_mut]
    simp only [noop_visit_variable_mut fuel s v (by simp at h; omega)]
    simp only [noop_visit_variable_list_mut fuel s rest (by simp at h; omega)]
termination_by fuel s x h => fuel

theorem noop_visit_do_statement_mut {σ : Type} : ∀ (fuel : Nat) (s : σ) (st : DoStatement),
    sizeOf st ≤ fuel → visit_do_statement_mut (noopProcessorMut σ) fuel s st = some (st, s)
  | 0, _s, st, h => absurd h (by cases st <;> simp <;> omega)
  | fuel+1, s, .mk block, h => by
    simp only [visit_do_statement_mut, np_do]
    simp only [noop_visit_block_mut fuel s block (by simp at h; omega)]
termination_by fuel s x h => fuel

theorem noop_visit_function_statement_mut {σ : Type} :
    ∀ (fuel : Nat) (s : σ) (st : FunctionStatement),
    sizeOf st ≤ fuel →
    visit_function_statement_mut (noopProcessorMut σ) fuel s st = some (st, s)
  | 0, _s, st, h => absurd h (by cases st <;> simp <;> omega)
  | fuel+1, s, .mk name parameters block, h => by
    simp only [visit_function_statement_mut, np_function_statement, np_variable]
    simp only [noop_visit_block_mut fuel s block (by simp at h; omega)]
termination_by fuel s x h => fuel

theorem noop_visit_generic_for_mut {σ : Type} :
    ∀ (fuel : Nat) (s : σ) (st : GenericForStatement),
    sizeOf st ≤ fuel → visit_generic_for_mut (noopProcessorMut σ) fuel s st = some (st, s)
  | 0, _s, st, h => absurd h (by cases st <;> simp <;> omega)
  | fuel+1, s, .mk identifiers expressions block, h => by
    simp only [visit_generic_for_mut, np_generic_for]
    simp only [noop_visit_expression_list_mut fuel s expressions (by simp at h; omega)]
    simp only [noop_visit_block_mut fuel s block (by simp at h; omega)]
termination_by fuel s x h => fuel

theorem noop_visit_if_statement_mut {σ : Type} : ∀ (fuel : Nat) (s : σ) (st : IfStatement),
    sizeOf st ≤ fuel → visit_if_statement_mut (noopProcessorMut σ) fuel s st = some (st, s)
  | 0, _s, st, h => absurd h (by cases st <;> simp <;> omega)
  | fuel+1, s, .mk branches none, h => by
    simp only [visit_if_statement_mut, np_if]
    simp only [noop_visit_branch_list_mut fuel s branches (by simp at h; omega)]
  | fuel+1, s, .mk branches (some block), h => by
    simp only [visit_if_statement_mut, np_if]
    simp only [noop_visit_branch_list_mut fuel s branches (by simp at h; omega)]
    simp only [noop_visit_block_mut fuel s block (by simp at h; omega)]
termination_by fuel s x h => fuel

theorem noop_visit_branch_list_mut {σ : Type} : ∀ (fuel : Nat) (s : σ) (l : List IfBranch),
    sizeOf l ≤ fuel →
    visit_branch_list_mut (noopProcessorMut σ) fuel s l = some (l, s)
  | 0, _s, l, h => absurd h (by cases l <;> simp <;> omega)
  | _fuel+1, _s, [], _h => rfl
  | fuel+1, s, .mk condition block :: rest, h => by
    simp only [visit_branch_list_mut]
    simp only [noop_visit_expression_mut fuel s condition (by simp at h; omega)]
    simp only [noop_visit_block_mut fuel s block (by simp at h; omega)]
    simp only [noop_visit_branch_list_mut fuel s rest (by simp at h; omega)]
termination_by fuel s x h => fuel

theorem noop_visit_local_assign_mut {σ : Type} :
    ∀ (fuel : Nat) (s : σ) (st : LocalAssignStatement),
    sizeOf st ≤ fuel → visit_local_assign_mut (noopProcessorMut σ) fuel s st = some (st, s)
  | 0, _s, st, h => absurd h (by cases st <;> simp <;> omega)
  | fuel+1, s, .mk vars values tokens, h => by
    simp only [visit_local_assign_mut, np_local_assign]
    simp only [noop_visit_expression_list_mut fuel s values (by simp at h; omega)]
termination_by fuel s x h => fuel

theorem noop_visit_local_function_mut {σ : Type} :
    ∀ (fuel : Nat) (s : σ) (st : LocalFunctionStatement),
    sizeOf st ≤ fuel → visit_local_function_mut (noopProcessorMut σ) fuel s st = some (st, s)
  | 0, _s, st, h => absurd h (by cases st <;> simp <;> omega)
  | fuel+1, s, .mk name parameters block, h => by
    simp only [visit_local_function_mut, np_local_function]
    simp only [noop_visit_block_mut fuel s block (by simp at h; omega)]
termination_by fuel s x h => fuel

theorem noop_visit_numeric_for_mut {σ : Type} :
    ∀ (fuel : Nat) (s : σ) (st : NumericForStatement),
    sizeOf st ≤ fuel → visit_numeric_for_mut (noopProcessorMut σ) fuel s st = some (st, s)
  | 0, _s, st, h => absurd h (by cases st <;> simp <;> omega)
  | fuel+1, s, .mk identifier startExpr endExpr none block, h => by
    simp only [visit_numeric_for_mut, np_numeric_for]
    simp only [noop_visit_expression_mut fuel s startExpr (by simp at h; omega)]
    simp only [noop_visit_expression_mut fuel s endExpr (by simp at h; omega)]
    simp only [noop_visit_block_mut fuel s block (by simp at h; omega)]
  | fuel+1, s, .mk identifier startExpr endExpr (some step) block, h => by
    simp only [visit_numeric_for_mut, np_numeric_for]
    simp only [noop_visit_expression_mut fuel s startExpr (by simp at h; omega)]
    simp only [noop_visit_expression_mut fuel s endExpr (by simp at h; omega)]
    simp only [noop_visit_expression_mut fuel s step (by simp at h; omega)]
    simp only [noop_visit_block_mut fuel s block (by simp at h; omega)]
termination_by fuel s x h => fuel

theorem noop_visit_repeat_statement_mut {σ : Type} :
    ∀ (fuel : Nat) (s : σ) (st : RepeatStatement),
    sizeOf st ≤ fuel → visit_repeat_statement_mut (noopProcessorMut σ) fuel s st = some (st, s)
  | 0, _s, st, h => absurd h (by cases st <;> simp <;> omega)
  | fuel+1, s, .mk block condition, h => by
    simp only [visit_repeat_statement_mut, np_repeat]
    simp only [noop_visit_expression_mut fuel s condition (by simp at h; omega)]
    simp only [noop_visit_block_mut fuel s block (by simp at h; omega)]
termination_by fuel s x h => fuel

theorem noop_visit_while_statement_mut {σ : Type} :
    ∀ (fuel : Nat) (s : σ) (st : WhileStatement),
    sizeOf st ≤ fuel → visit_while_statement_mut (noopProcessorMut σ) fuel s st = some (st, s)
  | 0, _s, st, h => absurd h (by cases st <;> simp <;> omega)
  | fuel+1, s, .mk block condition, h => by
    simp only [visit_while_statement_mut, np_while]
    simp only [noop_visit_expression_mut fuel s condition (by simp at h; omega)]
    simp only [noop_visit_block_mut fuel s block (by simp at h; omega)]
termination_by fuel s x h => fuel

theorem noop_visit_field_expression_mut {σ : Type} :
    ∀ (fuel : Nat) (s : σ) (f : FieldExpression),
    sizeOf f ≤ fuel →
    visit_field_expression_mut (noopProcessorMut σ) fuel s f = some (f, s)
  | 0, _s, f, h => absurd h (by cases f <;> simp <;> omega)
  | fuel+1, s, .mk fieldPrefix field, h => by
    simp only [visit_field_expression_mut, np_field]
    simp only [noop_visit_prefix_expression_mut fuel s fieldPrefix (by simp at h; omega)]
termination_by fuel s x h => fuel

theorem noop_visit_index_expression_mut {σ : Type} :
    ∀ (fuel : Nat) (s : σ) (i : IndexExpression),
    sizeOf i ≤ fuel →
    visit_index_expression_mut (noopProcessorMut σ) fuel s i = some (i, s)
  | 0, _s, i, h => absurd h (by cases i <;> simp <;> omega)
  | fuel+1, s, .mk indexPrefix index, h => by
    simp only [visit_index_expression_mut, np_index]
    simp only [noop_visit_prefix_expression_mut fuel s indexPrefix (by simp at h; omega)]
    simp only [noop_visit_expression_mut fuel s index (by simp at h; omega)]
termination_by fuel s x h => fuel

theorem noop_visit_function_call_mut {σ : Type} : ∀ (fuel : Nat) (s : σ) (c : FunctionCall),
    sizeOf c ≤ fuel → visit_function_call_mut (noopProcessorMut σ) fuel s c = some (c, s)
  | 0, _s, c, h => absurd h (by cases c <;> simp <;> omega)
  | fuel+1, s, .mk callPrefix arguments method, h => by
    simp only [visit_function_call_mut, np_function_call]
    simp only [noop_visit_prefix_expression_mut fuel s callPrefix (by simp at h; omega)]
    simp only [noop_visit_arguments_mut fuel s arguments (by simp at h; omega)]
termination_by fuel s x h => fuel

theorem noop_visit_arguments_mut {σ : Type} : ∀ (fuel : Nat) (s : σ) (a : Arguments),
    sizeOf a ≤ fuel → visit_arguments_mut (noopProcessorMut σ) fuel s a = some (a, s)
  | 0, _s, a, h => absurd h (by cases a <;> simp <;> omega)
  | _fuel+1, _s, .string _str, _h => rfl
  | fuel+1, s, .table t, h => by
    simp only [visit_arguments_mut]
    simp only [noop_visit_table_mut fuel s t (by simp at h; omega)]
  | fuel+1, s, .tuple expressions, h => by
    simp only [visit_arguments_mut]
    simp only [noop_visit_expression_list_mut fuel s expressions (by simp at h; omega)]
termination_by fuel s x h => fuel

theorem noop_visit_table_mut {σ : Type} : ∀ (fuel : Nat) (s : σ) (t : TableExpression),
    sizeOf t ≤ fuel → visit_table_mut (noopProcessorMut σ) fuel s t = some (t, s)
  | 0, _s, t, h => absurd h (by cases t <;> simp <;> omega)
  | fuel+1, s, .mk entries, h => by
    simp only [visit_table_mut, np_table]
    simp only [noop_visit_table_entry_list_mut fuel s entries (by simp at h; omega)]
termination_by fuel s x h => fuel

theorem noop_visit_table_entry_mut {σ : Type} : ∀ (fuel : Nat) (s : σ) (entry : TableEntry),
    sizeOf entry ≤ fuel →
    visit_table_entry_mut (noopProcessorMut σ) fuel s entry = some (entry, s)
  | 0, _s, entry, h => absurd h (by cases entry <;> simp <;> omega)
  | fuel+1, s, .fieldEntry name value, h => by
    simp only [visit_table_entry_mut]
    simp only [noop_visit_expression_mut fuel s value (by simp at h; omega)]
  | fuel+1, s, .indexEntry key value, h => by
    simp only [visit_table_entry_mut]
    simp only [noop_visit_expression_mut fuel s key (by simp at h; omega)]
    simp only [noop_visit_expression_mut fuel s value (by simp at h; omega)]
  | fuel+1, s, .valueEntry value, h => by
    simp only [visit_table_entry_mut]
    simp only [noop_visit_expression_mut fuel s value (by simp at h; omega)]
termination_by fuel s x h => fuel

theorem noop_visit_table_entry_list_mut {σ : Type} :
    ∀ (fuel : Nat) (s : σ) (l : List TableEntry),
    sizeOf l ≤ fuel →
    visit_table_entry_list_mut (noopProcessorMut σ) fuel s l = some (l, s)
  | 0, _s, l, h => absurd h (by cases l <;> simp <;> omega)
  | _fuel+1, _s, [], _h => rfl
  | fuel+1, s, entry :: rest, h => by
    simp only [visit_table_entry_list_mut]
    simp only [noop_visit_table_entry_mut fuel s entry (by simp at h; omega)]
    simp only [noop_visit_table_entry_list_mut fuel s rest (by simp at h; omega)]
termination_by fuel s x h => fuel

theorem noop_visit_prefix_expression_mut {σ : Type} : ∀ (fuel : Nat) (s : σ) (pfx : Prefix),
    sizeOf pfx ≤ fuel →
    visit_prefix_expression_mut (noopProcessorMut σ) fuel s pfx = some (pfx, s)
  | 0, _s, pfx, h => absurd h (by cases pfx <;> simp <;> omega)
  | _fuel+1, _s, .identifier _name, _h => rfl
  | fuel+1, s, .call c, h => by
    simp only [visit_prefix_expression_mut, np_prefix_expression]
    simp only [noop_visit_function_call_mut fuel s c (by simp at h; omega)]
  | fuel+1, s, .field f, h => by
    simp only [visit_prefix_expression_mut, np_prefix_expression]
    simp only [noop_visit_field_expression_mut fuel s f (by simp at h; omega)]
  | fuel+1, s, .index i, h => by
    simp only [visit_prefix_expression_mut, np_prefix_expression]
    simp only [noop_visit_index_expression_mut fuel s i (by simp at h; omega)]
  | fuel+1, s, .parenthese e, h => by
    simp only [visit_prefix_expression_mut, np_prefix_expression]
    simp only [noop_visit_expression_mut fuel s e (by simp at h; omega)]
termination_by fuel s x h => fuel

theorem noop_visit_lux_expression_mut {σ : Type} : ∀ (fuel : Nat) (s : σ) (l : LUXExpression),
    sizeOf l ≤ fuel →
    visit_lux_expression_mut (noopProcessorMut σ) fuel s l = some (l, s)
  | 0, _s, l, h => absurd h (by cases l <;> simp <;> omega)
  | fuel+1, s, .luxElement e, h => by
    simp only [visit_lux_expression_mut, np_lux_expression]
    simp only [noop_visit_lux_element_mut fuel s e (by simp at h; omega)]
  | fuel+1, s, .luxFragment f, h => by
    simp only [visit_lux_expression_mut, np_lux_expression]
    simp only [noop_visit_lux_fragment_mut fuel s f (by simp at h; omega)]
termination_by fuel s x h => fuel

theorem noop_visit_lux_element_mut {σ : Type} : ∀ (fuel : Nat) (s : σ) (e : LUXElement),
    sizeOf e ≤ fuel → visit_lux_element_mut (noopProcessorMut σ) fuel s e = some (e, s)
  | 0, _s, e, h => absurd h (by cases e <;> simp <;> omega)
  | fuel+1, s, .element (.mk name attributes children), h => by
    simp only [visit_lux_element_mut, np_lux_element, np_lux_open_close]
    simp only [noop_visit_lux_attribute_list_mut fuel s attributes (by simp at h; omega)]
    simp only [noop_visit_lux_child_list_mut fuel s children (by simp at h; omega)]
  | fuel+1, s, .selfClosingElement (.mk name attributes), h => by
    simp only [visit_lux_element_mut, np_lux_element, np_lux_self_closing]
    simp only [noop_visit_lux_attribute_list_mut fuel s attributes (by simp at h; omega)]
termination_by fuel s x h => fuel

theorem noop_visit_lux_fragment_mut {σ : Type} : ∀ (fuel : Nat) (s : σ) (f : LUXFragment),
    sizeOf f ≤ fuel → visit_lux_fragment_mut (noopProcessorMut σ) fuel s f = some (f, s)
  | 0, _s, f, h => absurd h (by cases f <;> simp <;> omega)
  | fuel+1, s, .mk children, h => by
    simp only [visit_lux_fragment_mut, np_lux_fragment]
    simp only [noop_visit_lux_child_list_mut fuel s children (by simp at h; omega)]
termination_by fuel s x h => fuel

theorem noop_visit_lux_child_list_mut {σ : Type} : ∀ (fuel : Nat) (s : σ) (l : List LUXChild),
    sizeOf l ≤ fuel →
    visit_lux_child_list_mut (noopProcessorMut σ) fuel s l = some (l, s)
  | 0, _s, l, h => absurd h (by cases l <;> simp <;> omega)
  | _fuel+1, _s, [], _h => rfl
  | fuel+1, s, child :: rest, h => by
    simp only [visit_lux_child_list_mut, np_lux_child]
    simp only [noop_visit_lux_child_mut fuel s child (by simp at h; omega)]
    simp only [noop_visit_lux_child_list_mut fuel s rest (by simp at h; omega)]
termination_by fuel s x h => fuel

theorem noop_visit_lux_child_mut {σ : Type} : ∀ (fuel : Nat) (s : σ) (child : LUXChild),
    sizeOf child ≤ fuel →
    visit_lux_child_mut (noopProcessorMut σ) fuel s child = some (child, s)
  | 0, _s, child, h => absurd h (by cases child <;> simp <;> omega)
  | fuel+1, s, .childElement e, h => by
    simp only [visit_lux_child_mut, np_lux_child]
    simp only [noop_visit_lux_element_mut fuel s e (by simp at h; omega)]
  | fuel+1, s, .childFragment f, h => by
    simp only [visit_lux_child_mut, np_lux_child]
    simp only [noop_visit_lux_fragment_mut fuel s f (by simp at h; omega)]
  | fuel+1, s, .expandedExpression e, h => by
    simp only [visit_lux_child_mut, np_lux_child]
    simp only [noop_visit_expression_mut fuel s e (by simp at h; omega)]
  | _fuel+1, _s, .expression none, _h => rfl
  | fuel+1, s, .expression (some e), h => by
    simp only [visit_lux_child_mut, np_lux_child]
    simp only [noop_visit_expression_mut fuel s e (by simp at h; omega)]
termination_by fuel s x h => fuel

theorem noop_visit_lux_attribute_list_mut {σ : Type} :
    ∀ (fuel : Nat) (s : σ) (l : List LUXAttribute),
    sizeOf l ≤ fuel →
    visit_lux_attribute_list_mut (noopProcessorMut σ) fuel s l = some (l, s)
  | 0, _s, l, h => absurd h (by cases l <;> simp <;> omega)
  | _fuel+1, _s, [], _h => rfl
  | fuel+1, s, a :: rest, h => by
    simp only [visit_lux_attribute_list_mut]
    simp only [noop_visit_lux_attribute_mut fuel s a (by simp at h; omega)]
    simp only [noop_visit_lux_attribute_list_mut fuel s rest (by simp at h; omega)]
termination_by fuel s x h => fuel

theorem noop_visit_lux_attribute_mut {σ : Type} : ∀ (fuel : Nat) (s : σ) (a : LUXAttribute),
    sizeOf a ≤ fuel →
    visit_lux_attribute_mut (noopProcessorMut σ) fuel s a = some (a, s)
  | 0, _s, a, h => absurd h (by cases a <;> simp <;> omega)
  | _fuel+1, _s, .named _name none, _h => rfl
  | fuel+1, s, .named name (some value), h => by
    simp only [visit_lux_attribute_mut, np_lux_attribute]
    simp only [noop_visit_lux_attribute_value_mut fuel s value (by simp at h; omega)]
  | fuel+1, s, .spread e, h => by
    simp only [visit_lux_attribute_mut, np_lux_attribute]
    simp only [noop_visit_expression_mut fuel s e (by simp at h; omega)]
termination_by fuel s x h => fuel

theorem noop_visit_lux_attribute_value_mut {σ : Type} :
    ∀ (fuel : Nat) (s : σ) (v : LUXAttributeValue),
    sizeOf v ≤ fuel →
    visit_lux_attribute_value_mut (noopProcessorMut σ) fuel s v = some (v, s)
  | 0, _s, v, h => absurd h (by cases v <;> simp <;> omega)
  | _fuel+1, _s, .doubleQuoteString _str, _h => rfl
  | _fuel+1, _s, .singleQuoteString _str, _h => rfl
  | fuel+1, s, .luaExpression e, h => by
    simp only [visit_lux_attribute_value_mut, np_lux_attribute_value]
    simp only [noop_visit_expression_mut fuel s e (by simp at h; omega)]
  | fuel+1, s, .luxElementValue e, h => by
    simp only [visit_lux_attribute_value_mut, np_lux_attribute_value]
    simp only [noop_visit_lux_element_mut fuel s e (by simp at h; omega)]
  | fuel+1, s, .luxFragmentValue f, h => by
    simp only [visit_lux_attribute_value_mut, np_lux_attribute_value]
    simp only [noop_visit_lux_fragment_mut fuel s f (by simp at h; omega)]
termination_by fuel s x h => fuel

end

/-- C2: for every AST `T`, running the mutating walker over `T` with a
processor whose every hook is the default no-op leaves `T` exactly equal
(structurally identical, trivia included) to its value before the walk; the
walk completes for any fuel of at least `sizeOf T` and returns the
unchanged tree together with the unchanged processor state. -/
theorem C2_noop_mutating_walk_is_identity {σ : Type} (s : σ) (b : Block) (fuel : Nat)
    (h : sizeOf b ≤ fuel) :
    visit_block_mut (noopProcessorMut σ) fuel s b = some (b, s) :=
  noop_visit_block_mut fuel s b h

/-- C2 witness: the no-op walk over a concrete block with trivia returns it
unchanged. -/
theorem C2_noop_mutating_walk_is_identity_witness :
    sizeOf C2Block ≤ 100000 ∧
    visit_block_mut (noopProcessorMut Unit) 100000 () C2Block = some (C2Block, ()) :=
  ⟨by decide, C2_noop_mutating_walk_is_identity () C2Block 100000 (by decide)⟩

/-- C1 counterexample: the walker does not invoke each kind-specific hook
once per occurrence.  On `f((nil))` the tree has one parenthese occurrence
but `process_parenthese_expression` is never invoked; on a markup child the
`process_lux_child` hook fires twice; and `process_variable_expression`
fires for a function statement's name although the tree holds no
identifier-expression occurrence. -/
theorem C1_counterexample :
    (occ_block HookKind.parentheseExpression parentheseExample = 1 ∧
      countKind (visit_block traceProcessor [] parentheseExample)
        HookKind.parentheseExpression = 0) ∧
    (occ_block HookKind.luxChild luxChildExample = 1 ∧
      countKind (visit_block traceProcessor [] luxChildExample) HookKind.luxChild = 2) ∧
    (occ_block HookKind.variableExpression functionStatementExample = 0 ∧
      countKind (visit_block traceProcessor [] functionStatementExample)
        HookKind.variableExpression = 1) := by
  decide

/-- C1 (amended): in one walk of the visitor, read off with the
instrumented processor, each kind-specific hook fires exactly once per
occurrence of a node of its kind — except `process_parenthese_expression`,
which never fires, `process_lux_child`, which fires exactly twice per
markup-child occurrence, and `process_variable_expression`, which fires
once per identifier occurrence plus once per function statement (its
name). -/
theorem C1_hook_invocation_counts (b : Block) :
    (∀ k, k ≠ HookKind.parentheseExpression → k ≠ HookKind.luxChild →
        k ≠ HookKind.variableExpression →
        countKind (visit_block traceProcessor [] b) k = occ_block k b) ∧
    countKind (visit_block traceProcessor [] b) HookKind.parentheseExpression = 0 ∧
    countKind (visit_block traceProcessor [] b) HookKind.luxChild
      = 2 * occ_block HookKind.luxChild b ∧
    countKind (visit_block traceProcessor [] b) HookKind.variableExpression
      = occ_block HookKind.variableExpression b
        + occ_block HookKind.functionStatement b := by
  obtain ⟨h1, h2, h3, h4⟩ := cnt_occ_block b
  have e1 : ∀ k, k ≠ HookKind.parentheseExpression → k ≠ HookKind.luxChild →
      k ≠ HookKind.variableExpression → cnt_block k b = occ_block k b := h1
  have e2 : cnt_block HookKind.parentheseExpression b = 0 := h2
  have e3 : cnt_block HookKind.luxChild b = 2 * occ_block HookKind.luxChild b := h3
  have e4 : cnt_block HookKind.variableExpression b
      = occ_block HookKind.variableExpression b
        + occ_block HookKind.functionStatement b := h4
  refine ⟨fun k k1 k2 k3 => ?_, ?_, ?_, ?_⟩
  · rw [cntv_block, e1 k k1 k2 k3]
    simp [countKind]
  · rw [cntv_block, e2]
    simp [countKind]
  · rw [cntv_block, e3]
    simp [countKind]
  · rw [cntv_block, e4]
    simp [countKind]

/-- C1 witness: a hook with unexceptional tag (the `do` statement hook)
fires exactly once per occurrence on a concrete tree. -/
theorem C1_hook_invocation_counts_witness :
    countKind (visit_block traceProcessor [] parentheseExample) HookKind.doStatement
      = occ_block HookKind.doStatement parentheseExample :=
  (C1_hook_invocation_counts parentheseExample).1 HookKind.doStatement
    (by decide) (by decide) (by decide)

/-- C3: the `remove_function_call_parens` processor replaces a one-element
tuple holding a string with `Arguments::String`, a one-element tuple
holding a table with `Arguments::Table`, and leaves every other argument
shape unchanged. -/
theorem C3_remove_function_call_parens (p : Prefix) (m : Option String) :
    (∀ str : StringExpression,
      RemoveFunctionCallParens.process_function_call (.mk p (.tuple [.stringExpr str]) m)
        = .mk p (.string str) m) ∧
    (∀ t : TableExpression,
      RemoveFunctionCallParens.process_function_call (.mk p (.tuple [.table t]) m)
        = .mk p (.table t) m) ∧
    (∀ args : Arguments, (∀ str, args ≠ .tuple [.stringExpr str]) →
      (∀ t, args ≠ .tuple [.table t]) →
      RemoveFunctionCallParens.process_function_call (.mk p args m) = .mk p args m) := by
  refine ⟨fun str => rfl, fun t => rfl, fun args hs ht => ?_⟩
  match args with
  | .string str => rfl
  | .table t => rfl
  | .tuple [] => rfl
  | .tuple (e1 :: e2 :: rest) =>
    simp [RemoveFunctionCallParens.process_function_call]
  | .tuple [.nilExpr] => rfl
  | .tuple [.trueExpr] => rfl
  | .tuple [.falseExpr] => rfl
  | .tuple [.variableArguments] => rfl
  | .tuple [.number n] => rfl
  | .tuple [.identifier name] => rfl
  | .tuple [.binary b] => rfl
  | .tuple [.unary u] => rfl
  | .tuple [.parenthese e] => rfl
  | .tuple [.functionExpr f] => rfl
  | .tuple [.call c] => rfl
  | .tuple [.field f] => rfl
  | .tuple [.index i] => rfl
  | .tuple [.lux l] => rfl
  | .tuple [.stringExpr str] => exact absurd rfl (hs str)
  | .tuple [.table t] => exact absurd rfl (ht t)

/-- C3 witness: concrete rewrites and a concrete untouched shape. -/
theorem C3_remove_function_call_parens_witness :
    RemoveFunctionCallParens.process_function_call
        (.mk (.identifier "print") (.tuple [.stringExpr (.mk "hi")]) none)
      = .mk (.identifier "print") (.string (.mk "hi")) none ∧
    RemoveFunctionCallParens.process_function_call
        (.mk (.identifier "print") (.tuple []) none)
      = .mk (.identifier "print") (.tuple []) none :=
  ⟨(C3_remove_function_call_parens (.identifier "print") none).1 (.mk "hi"),
   (C3_remove_function_call_parens (.identifier "print") none).2.2 (.tuple [])
     (fun str h => by cases h) (fun t h => by cases h)⟩

/-- C5: `get_default_rules` returns exactly twelve rules, named, in this
exact order: remove_spaces, remove_comments, compute_expression,
remove_unused_if_branch, remove_unused_while, remove_empty_do,
remove_method_definition, convert_index_to_field,
convert_local_function_to_assign, group_local_assignment,
rename_variables, remove_function_call_parens. -/
theorem C5_default_rule_stack :
    get_default_rules.map RuleInstance.name
      = ["remove_spaces", "remove_comments", "compute_expression",
         "remove_unused_if_branch", "remove_unused_while", "remove_empty_do",
         "remove_method_definition", "convert_index_to_field",
         "convert_local_function_to_assign", "group_local_assignment",
         "rename_variables", "remove_function_call_parens"] ∧
    get_default_rules.length = 12 :=
  ⟨rfl, rfl⟩

/-- Parsing a known rule name yields the fresh default-configured rule of
that name. -/
theorem ruleFromStr_known (s : String) (h : s ∈ knownRuleNames) :
    ruleFromStr s = .ok ⟨s, []⟩ := by
  simp only [knownRuleNames, List.mem_cons, List.not_mem_nil, or_false] at h
  rcases h with h | h | h | h | h | h | h | h | h | h | h | h | h <;> subst h <;> rfl

/-- C7: parsing a rule name succeeds with a fresh default-configured rule
for every name in the fixed known set, and fails for every other string
with the message `invalid rule name: <name>`, which contains the invalid
name. -/
theorem C7_rule_name_parsing (s : String) :
    (s ∈ knownRuleNames → ruleFromStr s = .ok ⟨s, []⟩) ∧
    (s ∉ knownRuleNames → ruleFromStr s = .error ("invalid rule name: " ++ s)) := by
  refine ⟨ruleFromStr_known s, fun h => ?_⟩
  simp only [knownRuleNames, List.mem_cons, List.not_mem_nil, or_false] at h
  push_neg at h
  obtain ⟨h1, h2, h3, h4, h5, h6, h7, h8, h9, h10, h11, h12, h13⟩ := h
  simp [ruleFromStr, h1, h2, h3, h4, h5, h6, h7, h8, h9, h10, h11, h12, h13]

/-- C7 witness: a known name parses, an unknown name reports itself. -/
theorem C7_rule_name_parsing_witness :
    ruleFromStr "remove_empty_do" = .ok ⟨"remove_empty_do", []⟩ ∧
    ruleFromStr "not_a_rule" = .error ("invalid rule name: " ++ "not_a_rule") :=
  ⟨(C7_rule_name_parsing "remove_empty_do").1 (by decide),
   (C7_rule_name_parsing "not_a_rule").2 (by decide)⟩

theorem lookup_none_of_not_mem_keys (k : String) :
    ∀ (l : List (String × RulePropertyValue)),
    k ∉ l.map Prod.fst → l.lookup k = Option.none
  | [], _ => rfl
  | (a, b) :: t, h => by
    simp only [List.map_cons, List.mem_cons, not_or] at h
    obtain ⟨h1, h2⟩ := h
    simp [List.lookup, beq_false_of_ne h1, lookup_none_of_not_mem_keys k t h2]

theorem lookup_isSome_of_mem_keys (k : String) :
    ∀ (l : List (String × RulePropertyValue)),
    k ∈ l.map Prod.fst → (l.lookup k).isSome = true
  | [], h => by simp at h
  | (a, b) :: t, h => by
    by_cases hk : k = a
    · subst hk
      simp [List.lookup]
    · have h2 : k ∈ t.map Prod.fst := by
        simp only [List.map_cons, List.mem_cons] at h
        exact h.resolve_left hk
      simp [List.lookup, beq_false_of_ne hk, lookup_isSome_of_mem_keys k t h2]

/-- Iterating distinct non-`"rule"` entries only accumulates them as
properties. -/
theorem visitMapEntries_skip :
    ∀ (pre : List (String × RulePropertyValue)) (rn : Option String)
      (acc tail : List (String × RulePropertyValue)),
    "rule" ∉ pre.map Prod.fst → ((acc ++ pre).map Prod.fst).Nodup →
    visitMapEntries rn acc (pre ++ tail) = visitMapEntries rn (acc ++ pre) tail
  | [], rn, acc, tail, _, _ => by simp
  | (k, v) :: pre, rn, acc, tail, hnr, hnd => by
    have hk : k ≠ "rule" := by
      intro he
      exact hnr (by simp [he])
    have hka : k ∉ acc.map Prod.fst := by
      rw [List.map_append] at hnd
      have hdisj := (List.nodup_append.mp hnd).2.2
      intro hmem
      exact hdisj hmem (by simp)
    have hnr2 : "rule" ∉ pre.map Prod.fst := by
      intro hmem
      exact hnr (by simp [hmem])
    have hnd2 : (((acc ++ [(k, v)]) ++ pre).map Prod.fst).Nodup := by
      have : (acc ++ [(k, v)]) ++ pre = acc ++ ((k, v) :: pre) := by simp
      rw [this]
      exact hnd
    rw [List.cons_append]
    rw [show visitMapEntries rn acc ((k, v) :: (pre ++ tail))
          = visitMapEntries rn (acc ++ [(k, v)]) (pre ++ tail) by
      simp [visitMapEntries, hk, lookup_none_of_not_mem_keys k acc hka]]
    rw [visitMapEntries_skip pre rn (acc ++ [(k, v)]) tail hnr2 hnd2]
    simp

/-- C4: deserializing the serialization of any rule instance with a valid
configuration (a known name, distinct property keys, no property named
`"rule"`, canonical key-sorted map) yields an equal rule instance; and a
rule with no non-default properties serializes as the bare name string. -/
theorem C4_serialization_roundtrip (r : RuleInstance)
    (hname : r.name ∈ knownRuleNames)
    (hnodup : (r.props.map Prod.fst).Nodup)
    (hrule : "rule" ∉ r.props.map Prod.fst)
    (hcanon : sortByKey r.props = r.props) :
    deserializeRule (serializeRule r) = .ok r ∧
    (r.props = [] → serializeRule r = .str r.name) := by
  obtain ⟨name, props⟩ := r
  simp only at hname hnodup hrule hcanon
  constructor
  · by_cases hempty : props = []
    · subst hempty
      simp [serializeRule, deserializeRule, ruleFromStr_known name hname, configureRule,
        sortByKey, List.insertionSort]
    · have hser : serializeRule ⟨name, props⟩
          = .map (("rule", .string name) :: sortByKey props) := by
        simp [serializeRule, hempty]
      rw [hser, hcanon]
      have hstep : visitMapEntries Option.none [] (("rule", RulePropertyValue.string name)
            :: props) = visitMapEntries (some name) [] props := by
        simp [visitMapEntries]
      have hrest : visitMapEntries (some name) [] props
          = visitMapEntries (some name) ([] ++ props) [] := by
        have := visitMapEntries_skip props (some name) [] [] hrule (by simpa using hnodup)
        simpa using this
      simp only [deserializeRule, hstep, hrest]
      simp [visitMapEntries, ruleFromStr_known name hname, configureRule, hcanon]
  · intro h
    subst h
    simp [serializeRule]

/-- C4 witness: a configured rule with one property round-trips, through
the map form. -/
theorem C4_serialization_roundtrip_witness :
    deserializeRule (serializeRule ⟨"rename_variables",
        [("globals", RulePropertyValue.stringList ["_G"])]⟩)
      = .ok ⟨"rename_variables", [("globals", RulePropertyValue.stringList ["_G"])]⟩ :=
  (C4_serialization_roundtrip ⟨"rename_variables",
      [("globals", RulePropertyValue.stringList ["_G"])]⟩
    (by decide) (by simp) (by simp) rfl).1

/-- C6: during deserialization of a rule map, a second `"rule"` key yields
`duplicate_field("rule")`, a missing `"rule"` key yields
`missing_field("rule")`, and a repeated property key yields the custom
error naming that property; in each case no rule is returned. -/
theorem C6_rule_map_deserialization_errors :
    (∀ (p1 : List (String × RulePropertyValue)) (w : String)
       (p2 : List (String × RulePropertyValue)) (v : RulePropertyValue)
       (rest : List (String × RulePropertyValue)),
      "rule" ∉ p1.map Prod.fst → "rule" ∉ p2.map Prod.fst →
      ((p1 ++ p2).map Prod.fst).Nodup →
      deserializeRule (.map (p1 ++ ("rule", .string w) :: (p2 ++ ("rule", v) :: rest)))
        = .error (.duplicateField "rule")) ∧
    (∀ entries : List (String × RulePropertyValue),
      (entries.map Prod.fst).Nodup → "rule" ∉ entries.map Prod.fst →
      deserializeRule (.map entries) = .error (.missingField "rule")) ∧
    (∀ (p1 : List (String × RulePropertyValue)) (k : String) (v : RulePropertyValue)
       (rest : List (String × RulePropertyValue)),
      k ≠ "rule" → k ∈ p1.map Prod.fst → (p1.map Prod.fst).Nodup →
      "rule" ∉ p1.map Prod.fst →
      deserializeRule (.map (p1 ++ (k, v) :: rest))
        = .error (.custom ("duplicate field " ++ k ++ " in rule object"))) := by
  refine ⟨fun p1 w p2 v rest h1 h2 h3 => ?_, fun entries hnd hnr => ?_, ?_⟩
  · have hp1 : (([] ++ p1).map Prod.fst).Nodup := by
      simpa using (List.nodup_append.mp (by simpa [List.map_append] using h3)).1
    have hv : visitMapEntries Option.none []
        (p1 ++ ("rule", RulePropertyValue.string w) :: (p2 ++ ("rule", v) :: rest))
        = .error (.duplicateField "rule") := by
      rw [visitMapEntries_skip p1 Option.none [] _ h1 hp1]
      rw [show visitMapEntries Option.none ([] ++ p1)
            (("rule", RulePropertyValue.string w) :: (p2 ++ ("rule", v) :: rest))
          = visitMapEntries (some w) ([] ++ p1) (p2 ++ ("rule", v) :: rest) by
        simp [visitMapEntries]]
      rw [visitMapEntries_skip p2 (some w) ([] ++ p1) _ h2 (by simpa using h3)]
      simp [visitMapEntries]
    simp [deserializeRule, hv]
  · have hv : visitMapEntries Option.none [] entries = .error (.missingField "rule") := by
      have h := visitMapEntries_skip entries Option.none [] [] hnr (by simpa using hnd)
      simp only [List.append_nil, List.nil_append] at h
      rw [h]
      simp [visitMapEntries]
    simp [deserializeRule, hv]
  · intro p1 k v rest hk hmem hnd hnr
    have hv : visitMapEntries Option.none [] (p1 ++ (k, v) :: rest)
        = .error (.custom ("duplicate field " ++ k ++ " in rule object")) := by
      rw [visitMapEntries_skip p1 Option.none [] _ hnr (by simpa using hnd)]
      simp [visitMapEntries, hk, lookup_isSome_of_mem_keys k p1 hmem]
    simp [deserializeRule, hv]

/-- C6 witness: the three error scenarios on concrete rule maps. -/
theorem C6_rule_map_deserialization_errors_witness :
    deserializeRule (.map [("rule", .string "remove_empty_do"),
        ("rule", RulePropertyValue.none)])
      = .error (.duplicateField "rule") ∧
    deserializeRule (.map [("globals", RulePropertyValue.boolean true)])
      = .error (.missingField "rule") ∧
    deserializeRule (.map [("globals", RulePropertyValue.none),
        ("globals", RulePropertyValue.none)])
      = .error (.custom ("duplicate field " ++ "globals" ++ " in rule object")) :=
  ⟨C6_rule_map_deserialization_errors.1 [] "remove_empty_do" [] RulePropertyValue.none []
      (by simp) (by simp) (by simp),
   C6_rule_map_deserialization_errors.2.1 [("globals", RulePropertyValue.boolean true)]
      (by simp) (by decide),
   C6_rule_map_deserialization_errors.2.2 [("globals", RulePropertyValue.none)] "globals"
      RulePropertyValue.none [] (by decide) (by simp) (by simp) (by decide)⟩

/-- C8: whenever a rule serializes as a map (it has at least one
non-default property), the emitted property entries after the leading
`"rule"` entry are the properties in strictly ascending key order. -/
theorem C8_serialized_keys_sorted (r : RuleInstance)
    (hnodup : (r.props.map Prod.fst).Nodup) (hne : r.props ≠ []) :
    serializeRule r = .map (("rule", .string r.name) :: sortByKey r.props) ∧
    (sortByKey r.props).Pairwise (fun a b => a.1 < b.1) := by
  constructor
  · simp [serializeRule, List.isEmpty_iff, hne]
  · have hperm := List.perm_insertionSort keyLE r.props
    have hsorted : (sortByKey r.props).Pairwise keyLE :=
      List.sorted_insertionSort keyLE r.props
    have hnd2 : ((sortByKey r.props).map Prod.fst).Nodup :=
      ((hperm.map Prod.fst).nodup_iff).mpr hnodup
    have hne2 : (sortByKey r.props).Pairwise (fun a b => a.1 ≠ b.1) :=
      List.pairwise_map.mp hnd2
    exact (hsorted.and hne2).imp fun h => lt_of_le_of_ne h.1 h.2

/-- C8 witness: a two-property rule serializes with its keys reordered
ascending after the `"rule"` entry. -/
theorem C8_serialized_keys_sorted_witness :
    serializeRule C8Rule = .map (("rule", .string C8Rule.name) :: sortByKey C8Rule.props) ∧
    (sortByKey C8Rule.props).Pairwise (fun a b => a.1 < b.1) :=
  C8_serialized_keys_sorted C8Rule (by decide) (by simp [C8Rule])

theorem for_each_assignment_pairs_fst :
    ∀ (vs : List Identifier) (values : List Expression),
    (for_each_assignment_pairs vs values).map Prod.fst = vs
  | [], _ => rfl
  | v :: vs, values => by
    simp [for_each_assignment_pairs, for_each_assignment_pairs_fst vs values.tail]

theorem for_each_assignment_pairs_snd :
    ∀ (vs : List Identifier) (values : List Expression),
    (for_each_assignment_pairs vs values).filterMap Prod.snd = values.take vs.length
  | [], values => by simp [for_each_assignment_pairs]
  | v :: vs, [] => by
    simp [for_each_assignment_pairs, for_each_assignment_pairs_snd vs ([] : List Expression)]
  | v :: vs, w :: ws => by
    simp [for_each_assignment_pairs, for_each_assignment_pairs_snd vs ws]

/-- C9: `for_each_assignment` visits one pair per variable, in list order;
the values delivered are exactly the first `min(#variables, #values)`
values in order (so no value beyond that bound is ever passed);
`variable_count`, `value_count` and `has_values` report the two lengths and
the non-emptiness of the values. -/
theorem C9_local_assign_pair_iteration (s : LocalAssignStatement) :
    s.for_each_assignment.map Prod.fst = s.get_variables ∧
    s.for_each_assignment.length = s.variable_count ∧
    s.for_each_assignment.filterMap Prod.snd
      = s.get_values.take (min s.variable_count s.value_count) ∧
    (s.for_each_assignment.filterMap Prod.snd).length
      = min s.variable_count s.value_count ∧
    s.variable_count = s.get_variables.length ∧
    s.value_count = s.get_values.length ∧
    (s.has_values = true ↔ 0 < s.value_count) := by
  have hfst := for_each_assignment_pairs_fst s.get_variables s.get_values
  have hsnd := for_each_assignment_pairs_snd s.get_variables s.get_values
  have htake : s.get_values.take s.get_variables.length
      = s.get_values.take (min s.get_variables.length s.get_values.length) := by
    rw [← List.take_take, List.take_length]
  simp only [LocalAssignStatement.for_each_assignment, LocalAssignStatement.variable_count,
    LocalAssignStatement.value_count]
  refine ⟨hfst, ?_, ?_, ?_, trivial, trivial, ?_⟩
  · simpa using congrArg List.length hfst
  · rw [hsnd, htake]
  · rw [hsnd, htake, List.length_take]
    omega
  · cases hv : s.get_values with
    | nil => simp [LocalAssignStatement.has_values, LocalAssignStatement.value_count, hv]
    | cons w ws => simp [LocalAssignStatement.has_values, LocalAssignStatement.value_count, hv]

theorem getElemOpt_middle {α : Type} (x : α) :
    ∀ (l1 l2 : List α), (l1 ++ x :: l2)[l1.length]? = some x
  | [], l2 => by simp
  | a :: t, l2 => by simpa using getElemOpt_middle x t l2

theorem set_middle {α : Type} (x y : α) :
    ∀ (l1 l2 : List α), (l1 ++ x :: l2).set l1.length y = l1 ++ y :: l2
  | [], l2 => rfl
  | a :: t, l2 => by simp [List.set, set_middle x y t l2]

theorem eraseIdx_middle {α : Type} (x : α) :
    ∀ (l1 l2 : List α), (l1 ++ x :: l2).eraseIdx l1.length = l1 ++ l2
  | [], l2 => rfl
  | a :: t, l2 => by simp [List.eraseIdx, eraseIdx_middle x t l2]

/-- With a pure, non-mutating predicate, the removal loop turns any suffix
into its stable filter, keeping the processed prefix. -/
theorem filterStatementsLoop_pure (p : Statement → Bool) :
    ∀ (l2 l1 : List Statement),
    filterStatementsLoop (fun _ st => (st, p st, ())) () (l1 ++ l2) l1.length
      = (l1 ++ l2.filter p, ())
  | [], l1 => by
    rw [filterStatementsLoop]
    split
    · simp
    · rename_i st hst
      rw [List.getElem?_eq_none (by simp)] at hst
      exact Option.noConfusion hst
  | st :: rest, l1 => by
    rw [filterStatementsLoop]
    split
    · rename_i hnone
      rw [getElemOpt_middle st l1 rest] at hnone
      exact Option.noConfusion hnone
    · rename_i st0 hsome
      rw [getElemOpt_middle st l1 rest] at hsome
      injection hsome with hst0
      subst hst0
      dsimp only
      by_cases hp : p st = true
      · rw [if_pos hp, set_middle st st l1 rest]
        have ih := filterStatementsLoop_pure p rest (l1 ++ [st])
        rw [show (l1 ++ [st]) ++ rest = l1 ++ st :: rest by simp] at ih
        rw [show (l1 ++ [st]).length = l1.length + 1 by simp] at ih
        rw [ih]
        simp [List.filter_cons, hp]
      · have hp2 : p st = false := by
          cases hpv : p st
          · rfl
          · exact absurd hpv hp
        rw [if_neg hp, set_middle st st l1 rest, eraseIdx_middle st l1 rest]
        rw [filterStatementsLoop_pure p rest l1]
        simp [List.filter_cons, hp2]

/-- C10: with any pure predicate, `filter_statements` retains exactly the
statements satisfying the predicate, in their original relative order, and
leaves the last statement unchanged. -/
theorem C10_filter_statements_is_stable_filter (p : Statement → Bool) (b : Block) :
    Block.filter_statements b (fun _ st => (st, p st, ())) ()
      = (.mk (b.get_statements.filter p) b.get_last_statement, ()) := by
  match b with
  | .mk stmts last =>
    have h := filterStatementsLoop_pure p stmts []
    simp only [List.nil_append, List.length_nil] at h
    simp [Block.filter_statements, h, Block.get_statements, Block.get_last_statement]

/-- C9 witness: the pairing behaviour on a concrete two-variable,
one-value assignment. -/
theorem C9_local_assign_pair_iteration_witness :
    C9Stmt.for_each_assignment.map Prod.fst = C9Stmt.get_variables ∧
    C9Stmt.for_each_assignment.length = C9Stmt.variable_count ∧
    C9Stmt.for_each_assignment.filterMap Prod.snd
      = C9Stmt.get_values.take (min C9Stmt.variable_count C9Stmt.value_count) ∧
    (C9Stmt.for_each_assignment.filterMap Prod.snd).length
      = min C9Stmt.variable_count C9Stmt.value_count ∧
    C9Stmt.variable_count = C9Stmt.get_variables.length ∧
    C9Stmt.value_count = C9Stmt.get_values.length ∧
    (C9Stmt.has_values = true ↔ 0 < C9Stmt.value_count) :=
  C9_local_assign_pair_iteration C9Stmt

/-- C10 witness: filtering a concrete block drops the `do` statement,
keeps the calls in order, and keeps the `break`. -/
theorem C10_filter_statements_is_stable_filter_witness :
    Block.filter_statements C10Block (fun _ st => (st, keepNonDo st, ())) ()
      = (.mk (C10Block.get_statements.filter keepNonDo) C10Block.get_last_statement, ()) :=
  C10_filter_statements_is_stable_filter keepNonDo C10Block

end Darklua
